import Mathlib

/-!
# Dynamic ambient lighting of libpandabsp: `AmbientProbeManager`

A shallow embedding of `src/libpandabsp/src/ambient_probes.cpp`, followed by
the entity lists of `src/src/game/client/c_baseentity.cpp` and the ray tests
of `src/src/game/physics_utils.cpp`.

Conventions of the embedding.

* `float` and `double` quantities are rational numbers (`ℚ`).  The arithmetic
  of the source is read as exact arithmetic, except where a statement turns
  on the rounding of single precision: the displacement test of line 477 and
  the blend of the ambient cube round every operation with the function
  `fl` of `Env`.
* Objects reached through pointers (`light_t *`, `ambientprobe_t *`) are
  represented by their value; a `cubemap_t *` is the index of the cubemap in
  `_cubemaps`, because the source compares these pointers.  A null pointer
  is `none`.
* Everything the manager calls but that lives outside the translated file
  (the level loader, the collision trace, the k-d tree, the configuration
  variables, the library functions, the constants of the headers) is a field
  of the structure `Env`; the frame time of the global clock is the argument
  `now` of a call.
-/

namespace PandaBSP

/-! ## Vectors -/

/-- The engine's three-component vector (`LVector3`, `LPoint3`, `vec3_t`). -/
structure LVector3 where
  x : ℚ
  y : ℚ
  z : ℚ
deriving DecidableEq

/-- The engine's four-component vector. -/
structure LVector4 where
  x : ℚ
  y : ℚ
  z : ℚ
  w : ℚ
deriving DecidableEq

namespace LVector3

/-- The vector `LVector3( 0 )`. -/
def zero : LVector3 := ⟨0, 0, 0⟩

/-- Componentwise sum. -/
def add (a b : LVector3) : LVector3 := ⟨a.x + b.x, a.y + b.y, a.z + b.z⟩

/-- Componentwise difference, `a - b`. -/
def sub (a b : LVector3) : LVector3 := ⟨a.x - b.x, a.y - b.y, a.z - b.z⟩

/-- Product with a scalar, `a * k`. -/
def scale (a : LVector3) (k : ℚ) : LVector3 := ⟨a.x * k, a.y * k, a.z * k⟩

/-- Unary minus. -/
def neg (a : LVector3) : LVector3 := ⟨-a.x, -a.y, -a.z⟩

/-- The squared Euclidean length, `length_squared()`. -/
def length_squared (a : LVector3) : ℚ := a.x * a.x + a.y * a.y + a.z * a.z

end LVector3

namespace LVector4

/-- The zero vector. -/
def zero : LVector4 := ⟨0, 0, 0, 0⟩

/-- The first three components, `get_xyz()`. -/
def get_xyz (a : LVector4) : LVector3 := ⟨a.x, a.y, a.z⟩

/-- Overwrites the first three components (`VectorCopy` into a four-vector). -/
def set_xyz (a : LVector4) (v : LVector3) : LVector4 := ⟨v.x, v.y, v.z, a.w⟩

/-- Unary minus. -/
def neg (a : LVector4) : LVector4 := ⟨-a.x, -a.y, -a.z, -a.w⟩

end LVector4

/-! ## C strings -/

/-- The character at the head of a C string; past the end of the list stands
the terminating NUL. -/
def c_head (s : List Char) : Char := s.headD (Char.ofNat 0)

/-- The C library's `strncmp`: compares at most `n` characters and stops at
the terminating NUL.  A C string is the list of its characters; the
terminator is implicit. -/
def strncmp : List Char → List Char → Nat → Int
  | _, _, 0 => 0
  | s1, s2, n + 1 =>
    if c_head s1 ≠ c_head s2 then ((c_head s1).toNat : Int) - ((c_head s2).toNat : Int)
    else if c_head s1 = Char.ofNat 0 then 0
    else strncmp s1.tail s2.tail n

/-- The characters of a list up to the first NUL: the C string it stores. -/
def c_str (s : List Char) : List Char := s.takeWhile (fun c => decide (c ≠ Char.ofNat 0))

/-! ## The light catalog -/

/-- Modelled from the spec: the three kinds of light, `LIGHTTYPE_SUN`
(Directional), `LIGHTTYPE_SPOT` and `LIGHTTYPE_POINT`; the header that gives
them their numbers is not among the sources. -/
inductive LightType where
  | sun
  | spot
  | point
deriving DecidableEq, Inhabited

/-- The function `lighttype_from_classname` of the source. -/
def lighttype_from_classname (classname : List Char) : LightType :=
  if strncmp classname "light_environment".data 18 = 0 then LightType.sun
  else if strncmp classname "light_spot".data 11 = 0 then LightType.spot
  else if strncmp classname "light".data 5 = 0 then LightType.point
  else LightType.point

/-- The record `lightfalloffparams_t` returned by `GetLightFalloffParams`. -/
structure lightfalloffparams_t where
  constant_atten : ℚ
  linear_atten : ℚ
  quadratic_atten : ℚ
  start_fade_distance : ℚ
  end_fade_distance : ℚ
  cap_distance : ℚ
deriving DecidableEq

/-- A level entity, given by the values the level reader returns for the
keys the manager asks for (`ValueForKey`, `FloatForKey`, `GetVectorForKey`,
`color_from_value`, `GetLightFalloffParams`; the reader is not part of the
translated file).  A key that is not set reads as `0`. -/
structure entity_t where
  classname : List Char
  origin : LVector3
  _light : LVector3
  angles : LVector3
  pitch : ℚ
  _inner_cone : ℚ
  _cone : ℚ
  _exponent : ℚ
  falloffparams : lightfalloffparams_t
deriving DecidableEq

/-- The record `light_t`, with the fields the translated file uses (its
declaration is in a header that is not among the sources).  The eye-space
fields are the cache written by `xform_lights`. -/
structure light_t where
  id : Int
  leaf : Nat
  type : LightType
  pos : LVector3
  direction : LVector4
  color : LVector3
  falloff : LVector4
  falloff2 : LVector4
  falloff3 : LVector4
  eye_pos : LVector4
  eye_direction : LVector4
deriving DecidableEq

/-- A six-face exposure-encoded colour record as stored in the level. -/
structure colorrgbexp32_t where
  r : Nat
  g : Nat
  b : Nat
  exponent : Int
deriving DecidableEq

/-- The level record `dleafambientlighting_t`: quantised position and the six
encoded face colours. -/
structure dleafambientlighting_t where
  x : ℚ
  y : ℚ
  z : ℚ
  cube : Nat → colorrgbexp32_t

/-- The level record `dleafambientindex_t`. -/
structure dleafambientindex_t where
  num_ambient_samples : Nat
  first_ambient_sample : Nat
deriving DecidableEq

/-- The bounding box of a level leaf (`dleaf_t`). -/
structure dleaf_t where
  mins : LVector3
  maxs : LVector3
deriving DecidableEq

/-- The level record `dcubemap_t`: anchor, edge size and the offsets of the
six face images (`-1` for a missing face). -/
structure dcubemap_t where
  pos : LVector3
  size : Int
  imgofs : Nat → Int

/-- The record `ambientprobe_t`, with the fields the translated file uses:
owning leaf, position and the six face colours. -/
structure ambientprobe_t where
  leaf : Nat
  pos : LVector3
  cube : Nat → LVector3

/-- The record `cubemap_t`, with the fields the translated file uses, the
texture and the face images left out. -/
structure cubemap_t where
  pos : LVector3
  leaf : Nat
  size : Int
  has_full_cubemap : Bool
deriving DecidableEq

/-- What a collision trace can hit. -/
inductive Contents where
  | solid
  | sky
deriving DecidableEq

/-- The result of `CM_BoxTrace`. -/
structure Trace where
  has_hit : Bool
  hit_contents : Contents
deriving DecidableEq

/-- A k-d tree after `build`: the points it was built from, in order. -/
structure KDTree where
  points : List LVector3
deriving DecidableEq

/-- The collaborators of the manager and the constants of the headers that
are not among the sources. -/
structure Env where
  /-- The constant `MAX_ACTIVE_LIGHTS`. -/
  MAX_ACTIVE_LIGHTS : Nat
  /-- The constant `MAX_TOTAL_LIGHTS`. -/
  MAX_TOTAL_LIGHTS : Nat
  /-- The constant `EQUAL_EPSILON`. -/
  EQUAL_EPSILON : ℚ
  /-- The constant `Q_PI`. -/
  Q_PI : ℚ
  /-- The configuration variable `light-average`. -/
  cfg_lightaverage : Bool
  /-- The configuration variable `light-lerp-speed`. -/
  cfg_lightinterp : ℚ
  /-- The rounding of single precision: the `float` that an operation on
  `float`s yields for the exact result. -/
  fl : ℚ → ℚ
  /-- The C library's `exp`. -/
  exp : ℚ → ℚ
  /-- The C library's `cos`. -/
  cos : ℚ → ℚ
  /-- The C library's `sin`. -/
  sin : ℚ → ℚ
  /-- The conversion `deg_2_rad`. -/
  deg_2_rad : ℚ → ℚ
  /-- The helper `RemapValClamped`. -/
  RemapValClamped : ℚ → ℚ → ℚ → ℚ → ℚ → ℚ
  /-- The helper `color_shift_pixel`, gamma of the loader included. -/
  color_shift_pixel : colorrgbexp32_t → LVector3
  /-- The entities of the level, `_bspdata->entities`. -/
  entities : List entity_t
  /-- The field `dmodels[0].visleafs`. -/
  visleafs : Nat
  /-- The table `leafambientindex`. -/
  leafambientindex : List dleafambientindex_t
  /-- The table `leafambientlighting`. -/
  leafambientlighting : Nat → dleafambientlighting_t
  /-- The table `dleafs`. -/
  dleafs : Nat → dleaf_t
  /-- The table `cubemaps` of the level. -/
  cubemaps : List dcubemap_t
  /-- The loader's `find_leaf`. -/
  find_leaf : LVector3 → Nat
  /-- The loader's `is_cluster_visible`. -/
  is_cluster_visible : Nat → Nat → Bool
  /-- The collision query `CM_BoxTrace` on the ray from the first point to
  the second, with the given contents mask. -/
  CM_BoxTrace : LVector3 → LVector3 → List Contents → Trace
  /-- The query of a k-d tree: `tree->query( data ).first`. -/
  kd_query : KDTree → LVector3 → Nat

/-- The difference of two single-precision vectors (`operator -` of the
vector class): every component is rounded. -/
def fsub (E : Env) (a b : LVector3) : LVector3 :=
  ⟨E.fl (a.x - b.x), E.fl (a.y - b.y), E.fl (a.z - b.z)⟩

/-- The product of a single-precision vector and a `float` (`operator *=` of
the vector class): every component is rounded. -/
def fscale (E : Env) (a : LVector3) (k : ℚ) : LVector3 :=
  ⟨E.fl (a.x * k), E.fl (a.y * k), E.fl (a.z * k)⟩

/-- The method `length_squared` of a single-precision vector: every product
and every sum is rounded, so the result is a `float`. -/
def flength_squared (E : Env) (a : LVector3) : ℚ :=
  E.fl (E.fl (E.fl (a.x * a.x) + E.fl (a.y * a.y)) + E.fl (a.z * a.z))

/-- The function `angles_to_vector` of the source. -/
def angles_to_vector (E : Env) (angles : LVector3) : LVector3 :=
  ⟨E.cos (E.deg_2_rad angles.x) * E.cos (E.deg_2_rad angles.y),
   E.sin (E.deg_2_rad angles.x) * E.cos (E.deg_2_rad angles.y),
   E.sin (E.deg_2_rad angles.y)⟩

/-- The inner cone angle used for a spot light: `stopdot` after its default
has been applied. -/
def spot_stopdot (ent : entity_t) : ℚ :=
  if ent._inner_cone = 0 then 10 else ent._inner_cone

/-- The outer cone angle used for a spot light: `stopdot2` after both
adjustments of the source. -/
def spot_stopdot2 (ent : entity_t) : ℚ :=
  let stopdot := spot_stopdot ent
  let stopdot2 := ent._cone
  let stopdot2 := if stopdot2 = 0 ∨ stopdot2 < stopdot then stopdot else stopdot2
  if stopdot2 < stopdot then stopdot else stopdot2

/-- A light as the constructor of `light_t` leaves it; the header is not
among the sources and every field written below is overwritten. -/
def light_t.fresh : light_t :=
  { id := 0, leaf := 0, type := LightType.sun, pos := LVector3.zero,
    direction := LVector4.zero, color := LVector3.zero, falloff := LVector4.zero,
    falloff2 := LVector4.zero, falloff3 := LVector4.zero, eye_pos := LVector4.zero,
    eye_direction := LVector4.zero }

/-- The part of the entity loop that orients a sun or a spot light. -/
def light_orientation (E : Env) (ent : entity_t) (light : light_t) : light_t :=
  if light.type = LightType.sun ∨ light.type = LightType.spot then
    let temp := ent.angles.y
    let pitch := if ent.pitch = 0 then ent.angles.x else ent.pitch
    let angles : LVector3 := ⟨temp, pitch, ent.angles.z⟩
    let direction := light.direction.set_xyz (angles_to_vector E angles)
    let direction := if light.type = LightType.sun then direction.neg else direction
    { light with direction := { direction with w := 0 } }
  else light

/-- The part of the entity loop that fills the falloff rows of a spot or a
point light and settles the cone of a spot light. -/
def light_falloff (E : Env) (ent : entity_t) (light : light_t) : light_t :=
  if light.type = LightType.spot ∨ light.type = LightType.point then
    let params := ent.falloffparams
    let light := { light with
      falloff := ⟨params.constant_atten, params.linear_atten, params.quadratic_atten, 0⟩
      falloff2 := ⟨params.start_fade_distance, params.end_fade_distance, params.cap_distance, 0⟩
      falloff3 := ⟨0, 0, 0, 0⟩ }
    if light.type = LightType.spot then
      let stopdot := spot_stopdot ent
      let stopdot2 := spot_stopdot2 ent
      if stopdot = 180 ∧ stopdot2 = 180 then
        { light with type := LightType.point }
      else
        let stopdot := E.cos (stopdot / 180 * E.Q_PI)
        let stopdot2 := E.cos (stopdot2 / 180 * E.Q_PI)
        { light with
          falloff3 := { light.falloff3 with x := ent._exponent }
          falloff := { light.falloff with w := stopdot }
          falloff2 := { light.falloff2 with w := stopdot2 } }
    else light
  else light

/-- The light built by the entity loop of `process_ambient_probes` for the
entity number `entnum`. -/
def make_light (E : Env) (entnum : Nat) (ent : entity_t) : light_t :=
  let pos := ent.origin.scale (1 / 16)
  let light := { light_t.fresh with
    id := (entnum : Int)
    pos := pos
    leaf := E.find_leaf pos
    color := ent._light
    type := lighttype_from_classname ent.classname }
  light_falloff E ent (light_orientation E ent light)

/-! ## The manager -/

/-- The engine's `PandaNode *`, a node identity. -/
abbrev NodeId := Nat

/-- The engine's `TransformState`, reduced to what the manager reads of it:
the position returned by `get_pos()`. -/
structure TransformState where
  pos : LVector3
deriving DecidableEq

/-- The render-state handle made by `RenderState::make( AuxDataAttrib::make(
input ) )`.  It wraps one cache entry, named here by the sequence number the
entry received when it was allocated. -/
structure RenderState where
  aux_data : Nat
deriving DecidableEq

/-- The packed light matrix stored in `light_data`: rows 0 to 2 in full and
the three colour cells of row 3.  The source never writes the last cell of
row 3. -/
structure LMatrix4 where
  row0 : LVector4
  row1 : LVector4
  row2 : LVector4
  row3 : LVector3
deriving DecidableEq

/-- The two rows the source writes of a matrix stored in `light_data2`. -/
structure LMatrix4_2 where
  row0 : LVector4
  row1 : LVector4
deriving DecidableEq

/-- Modelled from the spec: the cache entry `nodeshaderinput_t`, whose
declaration is in a header that is not among the sources.  The fields are
those the translated file reads and writes; the slot arrays are functions of
the index, and the occlusion bitset is indexed by the position within the
candidate light list, whatever its length.  The cube texture of the entry,
which always holds the image of `cubemap`, is left out. -/
structure nodeshaderinput_t where
  node_sequence : Nat
  state_with_input : RenderState
  cubemap_changed : Bool
  lighting_time : ℚ
  amb_probe : Option ambientprobe_t
  cubemap : Option Nat
  ambient_cube : Nat → LVector3
  occluded_lights : Nat → Bool
  locallights : List light_t
  sky_idx : Int
  light_count : Nat
  active_lights : Nat
  light_type : Nat → LightType
  light_ids : Nat → Int
  light_data : Nat → LMatrix4
  light_data2 : Nat → LMatrix4_2

/-- Modelled from the spec: the entry as the constructor of
`nodeshaderinput_t` (declared in the header, not among the sources) leaves
it: no probe, no cubemap, no light, zeroed arrays. -/
def nodeshaderinput_t.fresh : nodeshaderinput_t :=
  { node_sequence := 0
    state_with_input := ⟨0⟩
    cubemap_changed := false
    lighting_time := 0
    amb_probe := none
    cubemap := none
    ambient_cube := fun _ => LVector3.zero
    occluded_lights := fun _ => false
    locallights := []
    sky_idx := -1
    light_count := 0
    active_lights := 0
    light_type := fun _ => LightType.sun
    light_ids := fun _ => 0
    light_data := fun _ => ⟨LVector4.zero, LVector4.zero, LVector4.zero, LVector3.zero⟩
    light_data2 := fun _ => ⟨LVector4.zero, LVector4.zero⟩ }

/-- The engine's `SimpleHashMap`, as the list of its key-value pairs. -/
abbrev SimpleHashMap (K V : Type) := List (K × V)

namespace SimpleHashMap

variable {K V : Type} [DecidableEq K]

/-- The method `find`: the index of the key, `none` for the source's `-1`. -/
def find : SimpleHashMap K V → K → Option Nat
  | [], _ => none
  | e :: rest, k => if e.1 = k then some 0 else (find rest k).map (fun i => i + 1)

/-- The method `get_data`. -/
def get_data (m : SimpleHashMap K V) (i : Nat) : Option V := (m.get? i).map Prod.snd

/-- The assignment `m[k] = v`: replaces the value of a stored key, adds the
pair otherwise. -/
def store : SimpleHashMap K V → K → V → SimpleHashMap K V
  | [], k, v => [(k, v)]
  | e :: rest, k, v => if e.1 = k then (k, v) :: rest else e :: store rest k v

/-- The method `remove_element`. -/
def remove_element (m : SimpleHashMap K V) (i : Nat) : SimpleHashMap K V := m.eraseIdx i

/-- Reading `m[k]`: the value stored for the key, `none` when there is none
(the engine then stores a null value, which every caller overwrites). -/
def lookup (m : SimpleHashMap K V) (k : K) : Option V := (find m k).bind (get_data m)

end SimpleHashMap

/-- The state of an `AmbientProbeManager`.  The map `_probes` is the function
from a leaf to its probes (no probes for a leaf without an entry). -/
structure AmbientProbeManager where
  _sunlight : Option light_t
  _light_kdtree : Option KDTree
  _probe_kdtree : Option KDTree
  _envmap_kdtree : Option KDTree
  _light_pvs : List (List light_t)
  _all_lights : List light_t
  _probes : Nat → List ambientprobe_t
  _all_probes : List ambientprobe_t
  _cubemaps : List cubemap_t
  _node_data : SimpleHashMap NodeId nodeshaderinput_t
  _pos_cache : SimpleHashMap NodeId TransformState
  _node_sequence : Nat

/-- The manager after its constructor. -/
def AmbientProbeManager.new : AmbientProbeManager :=
  { _sunlight := none, _light_kdtree := none, _probe_kdtree := none, _envmap_kdtree := none,
    _light_pvs := [], _all_lights := [], _probes := fun _ => [], _all_probes := [],
    _cubemaps := [], _node_data := [], _pos_cache := [], _node_sequence := 0 }

/-! ### `process_ambient_probes` -/

/-- The variables the entity loop of `process_ambient_probes` writes. -/
structure LightBuild where
  all_lights : List light_t
  sunlight : Option light_t
  light_points : List LVector3

/-- The entity loop of `process_ambient_probes`, from entity number `entnum`
on. -/
def entity_loop (E : Env) : List entity_t → Nat → LightBuild → LightBuild
  | [], _, s => s
  | ent :: rest, entnum, s =>
    if strncmp ent.classname "light".data 5 = 0 then
      let light := make_light E entnum ent
      let s := { s with all_lights := s.all_lights ++ [light] }
      let s := if light.type = LightType.sun then { s with sunlight := some light }
        else { s with light_points := s.light_points ++ [light.pos] }
      entity_loop E rest (entnum + 1) s
    else entity_loop E rest (entnum + 1) s

/-- The inner loop of the PVS construction: one light against every leaf
number of the list. -/
def pvs_leaf_loop (E : Env) (light : light_t) :
    List Nat → List (List light_t) → List (List light_t)
  | [], pvs => pvs
  | leafnum :: rest, pvs =>
    if light.type ≠ LightType.sun ∧ E.is_cluster_visible light.leaf leafnum = true then
      pvs_leaf_loop E light rest (pvs.set leafnum (pvs.getD leafnum [] ++ [light]))
    else pvs_leaf_loop E light rest pvs

/-- The outer loop of the PVS construction. -/
def pvs_loop (E : Env) : List light_t → List (List light_t) → List (List light_t)
  | [], pvs => pvs
  | light :: rest, pvs =>
    pvs_loop E rest (pvs_leaf_loop E light (List.range (E.visleafs + 1)) pvs)

/-- The variables the probe loops of `process_ambient_probes` write. -/
structure ProbeBuild where
  probes : Nat → List ambientprobe_t
  probe_points : List LVector3
  all_probes : List ambientprobe_t

/-- The probe built for sample `j` of leaf `i`. -/
def make_probe (E : Env) (i : Nat) (ambidx : dleafambientindex_t) (j : Nat) : ambientprobe_t :=
  let light := E.leafambientlighting (ambidx.first_ambient_sample + j)
  let leaf := E.dleafs i
  let pos : LVector3 :=
    ⟨E.RemapValClamped light.x 0 255 leaf.mins.x leaf.maxs.x,
     E.RemapValClamped light.y 0 255 leaf.mins.y leaf.maxs.y,
     E.RemapValClamped light.z 0 255 leaf.mins.z leaf.maxs.z⟩
  { leaf := i, pos := pos.scale (1 / 16), cube := fun k => E.color_shift_pixel (light.cube k) }

/-- The loop over the samples of leaf `i`. -/
def probe_sample_loop (E : Env) (i : Nat) (ambidx : dleafambientindex_t) :
    List Nat → ProbeBuild → ProbeBuild
  | [], s => s
  | j :: rest, s =>
    let probe := make_probe E i ambidx j
    probe_sample_loop E i ambidx rest
      { probes := Function.update s.probes i (s.probes i ++ [probe])
        probe_points := s.probe_points ++ [probe.pos]
        all_probes := s.all_probes ++ [probe] }

/-- The loop over `leafambientindex`, from leaf `i` on. -/
def probe_leaf_loop (E : Env) : List dleafambientindex_t → Nat → ProbeBuild → ProbeBuild
  | [], _, s => s
  | ambidx :: rest, i, s =>
    let s := { s with probes := Function.update s.probes i [] }
    probe_leaf_loop E rest (i + 1)
      (probe_sample_loop E i ambidx (List.range ambidx.num_ambient_samples) s)

/-- The method `process_ambient_probes`. -/
def process_ambient_probes (E : Env) (mgr : AmbientProbeManager) : AmbientProbeManager :=
  let lb := entity_loop E E.entities 0
    { all_lights := [], sunlight := mgr._sunlight, light_points := [] }
  let pvs := pvs_loop E lb.all_lights (List.replicate (E.visleafs + 1) [])
  let pb := probe_leaf_loop E E.leafambientindex 0
    { probes := mgr._probes, probe_points := [], all_probes := mgr._all_probes }
  { mgr with
    _light_pvs := pvs
    _all_lights := lb.all_lights
    _sunlight := lb.sunlight
    _light_kdtree := some ⟨lb.light_points⟩
    _probes := pb.probes
    _all_probes := pb.all_probes
    _probe_kdtree := some ⟨pb.probe_points⟩ }

/-! ### `load_cubemaps` -/

/-- The cubemap built by `load_cubemaps` for one level record; the flag is
cleared by every face without an image. -/
def make_cubemap (E : Env) (dcm : dcubemap_t) : cubemap_t :=
  let pos : LVector3 := ⟨dcm.pos.x / 16, dcm.pos.y / 16, dcm.pos.z / 16⟩
  { pos := pos
    leaf := E.find_leaf pos
    size := dcm.size
    has_full_cubemap :=
      (List.range 6).foldl (fun full j => if dcm.imgofs j = -1 then false else full) true }

/-- The method `load_cubemaps`. -/
def load_cubemaps (E : Env) (mgr : AmbientProbeManager) : AmbientProbeManager :=
  let cms := E.cubemaps.map (make_cubemap E)
  { mgr with
    _envmap_kdtree := some ⟨cms.map (fun cm => cm.pos)⟩
    _cubemaps := mgr._cubemaps ++ cms }

/-! ### Visibility queries -/

/-- The point a visibility ray starts from: `( point + (0, 0, 0.05) ) * 16`. -/
def ray_start (point : LVector3) : LVector3 :=
  (point.add ⟨0, 0, 5 / 100⟩).scale 16

/-- The method `is_sky_visible`. -/
def is_sky_visible (E : Env) (mgr : AmbientProbeManager) (point : LVector3) : Bool :=
  match mgr._sunlight with
  | none => false
  | some sun =>
    let start := ray_start point
    let stop := start.add (sun.direction.get_xyz.scale 10000)
    let trace := E.CM_BoxTrace start stop [Contents.sky, Contents.solid]
    trace.has_hit && decide (trace.hit_contents = Contents.sky)

/-- The method `is_light_visible`. -/
def is_light_visible (E : Env) (point : LVector3) (light : light_t) : Bool :=
  let trace := E.CM_BoxTrace (ray_start point) (light.pos.scale 16) [Contents.solid]
  !trace.has_hit

/-- The method `find_closest_in_kdtree`, returning the index of the item (the
caller reads the item at that index). -/
def find_closest_in_kdtree (E : Env) (tree : Option KDTree) (pos : LVector3) : Option Nat :=
  match tree with
  | none => none
  | some t => some (E.kd_query t pos)

/-! ### `update_node` -/

/-- The comparator given to `std::sort`: closer to the object first. -/
def closer (curr_net : LVector3) (a b : light_t) : Bool :=
  decide ((a.pos.sub curr_net).length_squared < (b.pos.sub curr_net).length_squared)

/-- Insertion of one light into a list sorted by `closer`, behind the lights
that are strictly closer than it. -/
def sort_insert (curr_net : LVector3) (a : light_t) : List light_t → List light_t
  | [] => [a]
  | b :: rest =>
    if closer curr_net b a then b :: sort_insert curr_net a rest else a :: b :: rest

/-- The call of `std::sort` on the local lights.  The library leaves the order
of lights at equal distance open; this sort keeps them in their order. -/
def sort_lights (curr_net : LVector3) : List light_t → List light_t
  | [] => []
  | a :: rest => sort_insert curr_net a (sort_lights curr_net rest)

/-- The ambient probe found for a position: lines 500 to 505. -/
def update_ac (E : Env) (mgr : AmbientProbeManager) (curr_net : LVector3) (leaf_id : Nat)
    (input : nodeshaderinput_t) : nodeshaderinput_t :=
  if (mgr._probes leaf_id).length > 0 then
    let sample := (find_closest_in_kdtree E mgr._probe_kdtree curr_net).bind
      (fun i => mgr._all_probes.get? i)
    { input with amb_probe := sample }
  else input

/-- The cubemap found for a position: lines 525 to 542. -/
def update_envmap (E : Env) (mgr : AmbientProbeManager) (curr_net : LVector3)
    (input : nodeshaderinput_t) : nodeshaderinput_t :=
  if mgr._cubemaps.length > 0 then
    match find_closest_in_kdtree E mgr._envmap_kdtree curr_net with
    | none => input
    | some i =>
      match mgr._cubemaps.get? i with
      | none => input
      | some cm =>
        if cm.has_full_cubemap = true ∧ some i ≠ input.cubemap then
          { input with cubemap := some i, cubemap_changed := true }
        else input
  else input

/-- One turn of the loop that blends the ambient cube: face `i`, with the
variable `delta` carried from the turns before.  The colours are
single-precision vectors: the two differences and the product are rounded,
and the test of line 555 compares the stored values. -/
def interp_ac_step (E : Env) (average_lighting : Bool) (atten_factor : ℚ)
    (probe : ambientprobe_t) (st : (Nat → LVector3) × LVector3) (i : Nat) :
    (Nat → LVector3) × LVector3 :=
  let delta :=
    if average_lighting = true ∧ probe.cube i ≠ st.1 i then
      fscale E (fsub E (probe.cube i) (st.1 i)) atten_factor
    else st.2
  (Function.update st.1 i (fsub E (probe.cube i) delta), delta)

/-- The blend of the ambient cube: lines 549 to 562. -/
def interp_ac (E : Env) (average_lighting : Bool) (atten_factor : ℚ)
    (input : nodeshaderinput_t) : nodeshaderinput_t :=
  match input.amb_probe with
  | none => input
  | some probe =>
    { input with ambient_cube :=
        ((List.range 6).foldl (interp_ac_step E average_lighting atten_factor probe)
          (input.ambient_cube, LVector3.zero)).1 }

/-- The candidate list rebuilt after a move: lines 566 to 589. -/
def update_locallights (E : Env) (mgr : AmbientProbeManager) (curr_net : LVector3)
    (leaf_id : Nat) (input : nodeshaderinput_t) : nodeshaderinput_t :=
  let input := { input with occluded_lights := fun _ => false }
  let locallights := sort_lights curr_net (mgr._light_pvs.getD leaf_id [])
  if is_sky_visible E mgr curr_net = true then
    match mgr._sunlight with
    | some sun => { input with locallights := sun :: locallights, sky_idx := 0 }
    | none => { input with locallights := locallights, sky_idx := 0 }
  else { input with locallights := locallights, sky_idx := -1 }

/-- The copy of the previous slots taken when averaging is on. -/
structure OldLights where
  old_lightcount : Nat
  old_lightids : Nat → Int
  old_lighttype : Nat → LightType
  old_lightdata : Nat → LMatrix4
  old_activelights : Nat

/-- The copy of lines 611 to 615. -/
def copy_old (input : nodeshaderinput_t) : OldLights :=
  { old_lightcount := input.light_count
    old_lightids := input.light_ids
    old_lighttype := input.light_type
    old_lightdata := input.light_data
    old_activelights := input.active_lights }

/-- The variables the two slot loops share: the entry, `lights_updated` and
the array `match`. -/
structure SlotLoop where
  input : nodeshaderinput_t
  lights_updated : Nat
  matched : Nat → Bool

/-- The search of lines 666 to 682: the first previous slot with the id. -/
def find_old (old : OldLights) (id : Int) : Option Nat :=
  (List.range old.old_lightcount).find? (fun j => decide (old.old_lightids j = id))

/-- The body of the loop of line 627 for a light that is not occluded: lines
649 to 698. -/
def add_light (average_lighting : Bool) (atten_factor : ℚ) (old : OldLights)
    (light : light_t) (s : SlotLoop) : SlotLoop :=
  let found := if average_lighting then find_old old light.id else none
  let interp_light := match found with
    | some j => (old.old_lightdata j).row3
    | none => LVector3.zero
  let matched := match found with
    | some j => if j < old.old_activelights then Function.update s.matched j true else s.matched
    | none => s.matched
  let delta := if average_lighting then (light.color.sub interp_light).scale atten_factor
    else LVector3.zero
  let data : LMatrix4 :=
    ⟨light.eye_pos, light.eye_direction, light.falloff, light.color.sub delta⟩
  let data2 : LMatrix4_2 := ⟨light.falloff2, light.falloff3⟩
  { input := { s.input with
      light_type := Function.update s.input.light_type s.lights_updated light.type
      light_data := Function.update s.input.light_data s.lights_updated data
      light_data2 := Function.update s.input.light_data2 s.lights_updated data2
      light_ids := Function.update s.input.light_ids s.lights_updated light.id
      active_lights := s.input.active_lights + 1 }
    lights_updated := s.lights_updated + 1
    matched := matched }

/-- The loop of line 627 over the candidates from index `i` on. -/
def add_lights (E : Env) (pos_changed average_lighting : Bool) (atten_factor : ℚ)
    (curr_net : LVector3) (old : OldLights) : List light_t → Nat → SlotLoop → SlotLoop
  | [], _, s => s
  | light :: rest, i, s =>
    if s.lights_updated < E.MAX_ACTIVE_LIGHTS then
      let occluded : Bool :=
        pos_changed && (decide ((i : Int) ≠ s.input.sky_idx) && !is_light_visible E curr_net light)
      let s := if occluded then
          { s with input := { s.input with
              occluded_lights := Function.update s.input.occluded_lights i true } }
        else s
      if occluded || s.input.occluded_lights i then
        add_lights E pos_changed average_lighting atten_factor curr_net old rest (i + 1) s
      else
        add_lights E pos_changed average_lighting atten_factor curr_net old rest (i + 1)
          (add_light average_lighting atten_factor old light s)
    else s

/-- The body of the loop of line 706 for a previous slot that is faded:
lines 723 to 732. -/
def fade_light (atten_factor : ℚ) (old : OldLights) (i : Nat) (s : SlotLoop) : SlotLoop :=
  let color := (old.old_lightdata i).row3
  let new_color := color.scale atten_factor
  let data := { old.old_lightdata i with row3 := new_color }
  { s with
    input := { s.input with
      light_type := Function.update s.input.light_type s.lights_updated (old.old_lighttype i)
      light_data := Function.update s.input.light_data s.lights_updated data
      light_ids := Function.update s.input.light_ids s.lights_updated (old.old_lightids i) }
    lights_updated := s.lights_updated + 1 }

/-- The loop of line 706 over the previous slots of the list. -/
def fade_lights (E : Env) (atten_factor : ℚ) (old : OldLights) :
    List Nat → SlotLoop → SlotLoop
  | [], s => s
  | i :: rest, s =>
    if s.matched i = true then fade_lights E atten_factor old rest s
    else if ((old.old_lightdata i).row3).length_squared < 1 then
      fade_lights E atten_factor old rest s
    else if s.lights_updated ≥ E.MAX_TOTAL_LIGHTS then s
    else fade_lights E atten_factor old rest (fade_light atten_factor old i s)

/-- The slots written by one call: lines 592 to 738. -/
def update_slots (E : Env) (pos_changed average_lighting : Bool) (atten_factor : ℚ)
    (curr_net : LVector3) (input : nodeshaderinput_t) : nodeshaderinput_t :=
  let old := copy_old input
  let s : SlotLoop :=
    { input := { input with active_lights := 0 }, lights_updated := 0, matched := fun _ => false }
  let s := add_lights E pos_changed average_lighting atten_factor curr_net old
    input.locallights 0 s
  let s := if average_lighting then
      fade_lights E atten_factor old (List.range old.old_lightcount) s
    else s
  { s.input with light_count := s.lights_updated }

/-- The time step of a call: `now - lighting_time`, not below zero. -/
def time_step (now : ℚ) (input : nodeshaderinput_t) : ℚ :=
  if now - input.lighting_time ≤ 0 then 0 else now - input.lighting_time

/-- The decay factor of a call: `exp( -rate * dt )`. -/
def atten_of (E : Env) (now : ℚ) (input : nodeshaderinput_t) : ℚ :=
  E.exp (-E.cfg_lightinterp * time_step now input)

/-- What one call does to the entry of the node before the slot loops: lines
463 to 590 without the writes to the position cache. -/
def pre_slots (E : Env) (now : ℚ) (mgr : AmbientProbeManager) (curr_trans : TransformState)
    (pos_changed : Bool) (input : nodeshaderinput_t) : nodeshaderinput_t :=
  let average_lighting := E.cfg_lightaverage
  let atten_factor := atten_of E now input
  let input := { input with
    cubemap_changed := false
    lighting_time := if now - input.lighting_time ≤ 0 then input.lighting_time else now }
  let curr_net := curr_trans.pos
  let leaf_id := E.find_leaf curr_net
  let input := if pos_changed then
      update_envmap E mgr curr_net (update_ac E mgr curr_net leaf_id input)
    else input
  let input := interp_ac E average_lighting atten_factor input
  if pos_changed then update_locallights E mgr curr_net leaf_id input else input

/-- What one call does to the entry of the node: lines 463 to 738 without the
writes to the position cache. -/
def update_input (E : Env) (now : ℚ) (mgr : AmbientProbeManager) (curr_trans : TransformState)
    (pos_changed : Bool) (input : nodeshaderinput_t) : nodeshaderinput_t :=
  update_slots E pos_changed E.cfg_lightaverage (atten_of E now input) curr_trans.pos
    (pre_slots E now mgr curr_trans pos_changed input)

/-- The displacement test of lines 466 to 477.  The positions are
single-precision points: their difference and its squared length are computed
in single precision and the result, a `float`, is compared with the constant
`EQUAL_EPSILON`. -/
def pos_changed_of (E : Env) (prev_trans : Option TransformState) (curr_trans : TransformState)
    (new_instance : Bool) : Bool :=
  let pos_delta := match prev_trans with
    | some prev => fsub E curr_trans.pos prev.pos
    | none => LVector3.zero
  decide (flength_squared E pos_delta ≥ E.EQUAL_EPSILON) || new_instance

/-- The call `update_node` once the entry of the node is at hand: lines 463
to 740. -/
def update_found (E : Env) (now : ℚ) (mgr : AmbientProbeManager) (node : NodeId)
    (curr_trans : TransformState) (new_instance : Bool) (input : nodeshaderinput_t) :
    AmbientProbeManager × Option RenderState :=
  let prev_trans := mgr._pos_cache.lookup node
  let pos_cache := match prev_trans with
    | some _ => mgr._pos_cache
    | none => mgr._pos_cache.store node curr_trans
  let pos_changed := pos_changed_of E prev_trans curr_trans new_instance
  let input := update_input E now mgr curr_trans pos_changed input
  let pos_cache := if pos_changed then pos_cache.store node curr_trans else pos_cache
  ({ mgr with _node_data := mgr._node_data.store node input, _pos_cache := pos_cache },
    some input.state_with_input)

/-- The method `update_node`.  The entry is changed in place by the source;
here the changed entry is stored back under its node.  The destruction
callback registered for a new node is the function `wp_callback` below. -/
def update_node (E : Env) (now : ℚ) (mgr : AmbientProbeManager) (node : Option NodeId)
    (curr_trans : Option TransformState) : AmbientProbeManager × Option RenderState :=
  match node, curr_trans with
  | some node, some curr_trans =>
    match mgr._node_data.find node with
    | none =>
      let input := { nodeshaderinput_t.fresh with
        node_sequence := mgr._node_sequence
        state_with_input := ⟨mgr._node_sequence⟩ }
      let mgr := { mgr with
        _node_sequence := mgr._node_sequence + 1
        _node_data := mgr._node_data.store node input
        _pos_cache := mgr._pos_cache.store node curr_trans }
      update_found E now mgr node curr_trans true input
    | some itr =>
      match mgr._node_data.get_data itr with
      | none => (mgr, none)
      | some input => update_found E now mgr node curr_trans false input
  | _, _ => (mgr, none)

/-- The entry the manager holds for a node. -/
def entry_of (mgr : AmbientProbeManager) (node : NodeId) : Option nodeshaderinput_t :=
  mgr._node_data.lookup node

/-! ### The destruction callback and `cleanup` -/

/-- The callback `NodeWeakCallback::wp_callback` for the node it was
registered for. -/
def wp_callback (mgr : AmbientProbeManager) (node : NodeId) : AmbientProbeManager :=
  let node_data := match mgr._node_data.find node with
    | some itr => mgr._node_data.remove_element itr
    | none => mgr._node_data
  let pos_cache := match mgr._pos_cache.find node with
    | some itr => mgr._pos_cache.remove_element itr
    | none => mgr._pos_cache
  { mgr with _node_data := node_data, _pos_cache := pos_cache }

/-- The method `cleanup`. -/
def cleanup (mgr : AmbientProbeManager) : AmbientProbeManager :=
  { mgr with
    _sunlight := none
    _probe_kdtree := none
    _light_kdtree := none
    _envmap_kdtree := none
    _pos_cache := []
    _node_data := []
    _probes := fun _ => []
    _all_probes := []
    _light_pvs := []
    _all_lights := []
    _cubemaps := [] }

/-! ## Auxiliary definitions used by the statements -/

/-- The state of the entity loop after a light entity. -/
def entity_step (E : Env) (entnum : Nat) (ent : entity_t) (s : LightBuild) : LightBuild :=
  if (make_light E entnum ent).type = LightType.sun then
    { all_lights := s.all_lights ++ [make_light E entnum ent]
      sunlight := some (make_light E entnum ent), light_points := s.light_points }
  else
    { all_lights := s.all_lights ++ [make_light E entnum ent]
      sunlight := s.sunlight
      light_points := s.light_points ++ [(make_light E entnum ent).pos] }

/-- The test of line 273 for a leaf and a light. -/
def pvs_test (E : Env) (L : Nat) (l : light_t) : Bool :=
  decide (l.type ≠ LightType.sun) && E.is_cluster_visible l.leaf L

/-- The entry a call for the node starts from: the cached one, or a new one
with the next sequence number. -/
def call_input (mgr : AmbientProbeManager) (node : NodeId) : nodeshaderinput_t :=
  match entry_of mgr node with
  | some input => input
  | none => { nodeshaderinput_t.fresh with
      node_sequence := mgr._node_sequence
      state_with_input := ⟨mgr._node_sequence⟩ }

/-- The value of `pos_changed` in a call for the node. -/
def call_pos_changed (E : Env) (mgr : AmbientProbeManager) (node : NodeId)
    (curr_trans : TransformState) : Bool :=
  match mgr._node_data.find node with
  | none => true
  | some _ => pos_changed_of E (mgr._pos_cache.lookup node) curr_trans false

/-- Whether the loop of line 627 skips the candidate at an index as occluded:
the outcome of the test of line 635 when the position changed, the cached
bit otherwise. -/
def occluded_cand (E : Env) (pos_changed : Bool) (curr_net : LVector3) (sky_idx : Int)
    (bits : Nat → Bool) (p : Nat × light_t) : Bool :=
  if pos_changed then decide ((p.1 : Int) ≠ sky_idx) && !is_light_visible E curr_net p.2
  else bits p.1

/-- The candidates of a list that are not occluded, with their indices. -/
def visible_cands (E : Env) (pos_changed : Bool) (curr_net : LVector3) (sky_idx : Int)
    (bits : Nat → Bool) (cands : List (Nat × light_t)) : List (Nat × light_t) :=
  cands.filter (fun p => !occluded_cand E pos_changed curr_net sky_idx bits p)

/-- The loop state with the occlusion bits replaced. -/
def with_bits (bits : Nat → Bool) (s : SlotLoop) : SlotLoop :=
  { s with input := { s.input with occluded_lights := bits } }

/-- The occlusion bits after the loop of line 627 has run over the candidates
from index `i` on with room for `budget` more lights, in a call with a
changed position. -/
def scan_bits (E : Env) (curr_net : LVector3) (sky_idx : Int) :
    List light_t → Nat → Nat → (Nat → Bool) → (Nat → Bool)
  | [], _, _, bits => bits
  | light :: rest, i, budget, bits =>
    if budget = 0 then bits
    else if (decide ((i : Int) ≠ sky_idx) && !is_light_visible E curr_net light) = true then
      scan_bits E curr_net sky_idx rest (i + 1) budget (Function.update bits i true)
    else scan_bits E curr_net sky_idx rest (i + 1) (budget - 1) bits

/-- The lights the loop of line 627 writes, in order: the first candidates
that are not occluded, as many as there is room for. -/
def active_cands (E : Env) (pos_changed : Bool) (curr_net : LVector3) (sky_idx : Int)
    (bits : Nat → Bool) (i : Nat) (cands : List light_t) (room : Nat) : List (Nat × light_t) :=
  (visible_cands E pos_changed curr_net sky_idx bits (List.enumFrom i cands)).take room

/-- The previous slots the loop of line 706 writes again, in order: those of
the list that are not matched and whose colour is not below the threshold,
as many as there is room for. -/
def fade_cands (old : OldLights) (matched : Nat → Bool) (idxs : List Nat) (room : Nat) :
    List Nat :=
  (idxs.filter (fun i =>
    !matched i && !decide (((old.old_lightdata i).row3).length_squared < 1))).take room

/-- An array with the values of a list written from index `n` on. -/
def overlay {α : Type} (f : Nat → α) (n : Nat) (xs : List α) : Nat → α :=
  fun k => if n ≤ k then (xs[k - n]?).getD (f k) else f k

/-- The colour a light is blended from in the loop of line 627: the colour of
the first previous slot with its id, black without such a slot or without
averaging. -/
def interp_light (average_lighting : Bool) (old : OldLights) (light : light_t) : LVector3 :=
  match (if average_lighting then find_old old light.id else none) with
  | some j => (old.old_lightdata j).row3
  | none => LVector3.zero

/-- The matrix written to `light_data` for an active light. -/
def packed_data (average_lighting : Bool) (atten_factor : ℚ) (old : OldLights)
    (light : light_t) : LMatrix4 :=
  ⟨light.eye_pos, light.eye_direction, light.falloff,
    light.color.sub (if average_lighting then
      (light.color.sub (interp_light average_lighting old light)).scale atten_factor
      else LVector3.zero)⟩

/-- The array `match` after an active light has been written. -/
def mark_matched (average_lighting : Bool) (old : OldLights) (matched : Nat → Bool)
    (light : light_t) : Nat → Bool :=
  match (if average_lighting then find_old old light.id else none) with
  | some j => if j < old.old_activelights then Function.update matched j true else matched
  | none => matched

/-- The matrix written to `light_data` for a faded previous slot. -/
def faded_data (atten_factor : ℚ) (old : OldLights) (i : Nat) : LMatrix4 :=
  { old.old_lightdata i with row3 := ((old.old_lightdata i).row3).scale atten_factor }

/-- The candidates written to the active slots by the slot loops run on an
entry, with their indices in the candidate list. -/
def slots_active (E : Env) (pos_changed : Bool) (curr_net : LVector3)
    (inp : nodeshaderinput_t) : List (Nat × light_t) :=
  active_cands E pos_changed curr_net inp.sky_idx inp.occluded_lights 0 inp.locallights
    E.MAX_ACTIVE_LIGHTS

/-- The array `match` after the loop of line 627. -/
def slots_matched (E : Env) (pos_changed average_lighting : Bool) (curr_net : LVector3)
    (inp : nodeshaderinput_t) : Nat → Bool :=
  (slots_active E pos_changed curr_net inp).foldl
    (fun m p => mark_matched average_lighting (copy_old inp) m p.2) (fun _ => false)

/-- The previous slots written again as fade slots by the slot loops run on an
entry. -/
def slots_fades (E : Env) (pos_changed average_lighting : Bool) (curr_net : LVector3)
    (inp : nodeshaderinput_t) : List Nat :=
  if average_lighting then
    fade_cands (copy_old inp) (slots_matched E pos_changed average_lighting curr_net inp)
      (List.range inp.light_count)
      (E.MAX_TOTAL_LIGHTS - (slots_active E pos_changed curr_net inp).length)
  else []

/-- A sequence of calls of `update_node`, each with its frame time. -/
def run_updates (E : Env) :
    AmbientProbeManager → List (ℚ × Option NodeId × Option TransformState) → AmbientProbeManager
  | mgr, [] => mgr
  | mgr, c :: rest => run_updates E (update_node E c.1 mgr c.2.1 c.2.2).1 rest

/-- Every cached entry has no cubemap or a cubemap of the catalog with all
six faces. -/
def cubemaps_full (mgr : AmbientProbeManager) : Prop :=
  ∀ (node : NodeId) (e : nodeshaderinput_t), entry_of mgr node = some e →
    e.cubemap = none ∨
      ∃ (i : Nat) (cm : cubemap_t),
        e.cubemap = some i ∧ mgr._cubemaps[i]? = some cm ∧ cm.has_full_cubemap = true

/-- The squared distance of two points. -/
def dist2 (a b : LVector3) : ℚ := (a.sub b).length_squared

/-! ## An example level -/

/-- A reference nearest-neighbour query: the index of the first point at
least distance (`0` for no point). -/
def nearest_index (pos : LVector3) : List LVector3 → Nat
  | [] => 0
  | p :: rest =>
    if rest.all (fun q => decide (dist2 p pos ≤ dist2 q pos)) then 0
    else nearest_index pos rest + 1

/-- An entity with the given class and origin and no other key set. -/
def demo_entity (classname : String) (origin color : LVector3) : entity_t :=
  { classname := classname.data, origin := origin, _light := color, angles := ⟨0, 0, 0⟩,
    pitch := 0, _inner_cone := 0, _cone := 0, _exponent := 0,
    falloffparams := ⟨0, 0, 1, 0, 0, 0⟩ }

/-- A small level: three leaves along the x axis (leaf 0 below x = 50, leaf 1
below x = 200, leaf 2 beyond), each seeing only itself; a sun, a point light
and a spot light in leaf 0; one probe in leaf 0 and one in leaf 1; one
cubemap with all faces and one with a face missing; nothing blocks a ray
except between the point (0, 0, 0) and the spot light.  The exponential is
replaced by a rational function with the same value at 0 and the same
monotonicity, and the rounding is the identity: the numbers of the example
are kept exact. -/
def demo_env : Env :=
  { MAX_ACTIVE_LIGHTS := 2
    MAX_TOTAL_LIGHTS := 4
    EQUAL_EPSILON := 1 / 1000
    Q_PI := 355 / 113
    cfg_lightaverage := true
    cfg_lightinterp := 5
    fl := fun x => x
    exp := fun x => if x ≤ 0 then 1 / (1 - x) else 1 + x
    cos := fun x => 1 - x * x / 2
    sin := fun x => x
    deg_2_rad := fun x => x * (355 / 113) / 180
    RemapValClamped := fun v a b c d =>
      c + (d - c) * (max 0 (min 1 ((v - a) / (b - a))))
    color_shift_pixel := fun c => ⟨c.r, c.g, c.b⟩
    entities :=
      [ demo_entity "worldspawn" ⟨0, 0, 0⟩ ⟨0, 0, 0⟩,
        demo_entity "light_environment" ⟨0, 0, 1600⟩ ⟨8, 8, 8⟩,
        demo_entity "light" ⟨16, 0, 0⟩ ⟨4, 0, 0⟩,
        demo_entity "light_spot" ⟨0, 32, 0⟩ ⟨0, 4, 0⟩ ]
    visleafs := 2
    leafambientindex := [⟨1, 0⟩, ⟨1, 1⟩]
    leafambientlighting := fun k =>
      if k = 0 then ⟨0, 0, 0, fun _ => ⟨1, 1, 1, 0⟩⟩ else ⟨255, 0, 0, fun _ => ⟨2, 0, 0, 0⟩⟩
    dleafs := fun i => if i = 0 then ⟨⟨0, 0, 0⟩, ⟨0, 0, 0⟩⟩ else ⟨⟨0, 0, 0⟩, ⟨160, 0, 0⟩⟩
    cubemaps := [⟨⟨0, 0, 0⟩, 32, fun _ => 0⟩, ⟨⟨1600, 0, 0⟩, 32, fun j => if j = 3 then -1 else 0⟩]
    find_leaf := fun p => if p.x < 50 then 0 else if p.x < 200 then 1 else 2
    is_cluster_visible := fun a b => a == b
    CM_BoxTrace := fun start stop mask =>
      if mask.contains Contents.sky then ⟨true, Contents.sky⟩
      else ⟨decide (start = ray_start ⟨0, 0, 0⟩ ∧ stop = ⟨0, 32, 0⟩), Contents.solid⟩
    kd_query := fun t pos => nearest_index pos t.points }

/-- The manager of the example level after loading. -/
def demo_mgr : AmbientProbeManager :=
  load_cubemaps demo_env (process_ambient_probes demo_env AmbientProbeManager.new)

/-- The example manager after a first call for node 7 at the origin, at
time 1. -/
def demo_mgr1 : AmbientProbeManager :=
  (update_node demo_env 1 demo_mgr (some 7) (some ⟨⟨0, 0, 0⟩⟩)).1

/-- A second example level: the level of `demo_env` with other ambient
samples.  The sample of leaf 0 lies at (2, 0, 0) and is black on face 1 and
(1, 1, 1) on the other faces. -/
def demo_env2 : Env :=
  { demo_env with
    leafambientlighting := fun k =>
      if k = 0 then ⟨255, 0, 0, fun f => if f = 1 then ⟨0, 0, 0, 0⟩ else ⟨1, 1, 1, 0⟩⟩
      else ⟨255, 0, 0, fun _ => ⟨2, 0, 0, 0⟩⟩
    dleafs := fun i => if i = 0 then ⟨⟨0, 0, 0⟩, ⟨32, 0, 0⟩⟩ else ⟨⟨0, 0, 0⟩, ⟨160, 0, 0⟩⟩ }

/-- The manager of the second example level after `process_ambient_probes`. -/
def demo_mgr2 : AmbientProbeManager :=
  process_ambient_probes demo_env2 AmbientProbeManager.new

/-- The example level with the interpolation rate `light-lerp-speed` set
to 0. -/
def demo_env0 : Env := { demo_env with cfg_lightinterp := 0 }

/-- The example level without its light entities. -/
def demo_env_dark : Env := { demo_env with entities := [] }

/-! ## The cache under a sequence of operations -/

namespace SimpleHashMap

/-- The keys of a map, in the order of its entries. -/
def keys {K V : Type} (m : SimpleHashMap K V) : List K := m.map Prod.fst

end SimpleHashMap

/-- An operation on the cache of the manager: a call of `update_node`, the
destruction callback of a node, or `cleanup`. -/
inductive CacheOp where
  | update (now : ℚ) (node : Option NodeId) (curr_trans : Option TransformState)
  | destroy (node : NodeId)
  | cleanup

/-- The manager after one operation. -/
def run_op (E : Env) (mgr : AmbientProbeManager) : CacheOp → AmbientProbeManager
  | .update now node curr_trans => (update_node E now mgr node curr_trans).1
  | .destroy node => wp_callback mgr node
  | .cleanup => cleanup mgr

/-- The manager after a sequence of operations. -/
def run_ops (E : Env) : AmbientProbeManager → List CacheOp → AmbientProbeManager
  | mgr, [] => mgr
  | mgr, op :: rest => run_ops E (run_op E mgr op) rest

/-- The keys of the node-data map are without repetition, so are the keys of
the position cache, and the two maps have the same keys. -/
def cache_ok (mgr : AmbientProbeManager) : Prop :=
  mgr._node_data.keys.Nodup ∧ mgr._pos_cache.keys.Nodup ∧
  (∀ n ∈ mgr._node_data.keys, n ∈ mgr._pos_cache.keys) ∧
  (∀ n ∈ mgr._pos_cache.keys, n ∈ mgr._node_data.keys)

/-- Whether an operation leaves the entry of the node in the cache: every
operation but the destruction callback of the node and `cleanup`. -/
def keeps_entry (node : NodeId) : CacheOp → Bool
  | .update _ _ _ => true
  | .destroy n => decide (n ≠ node)
  | .cleanup => false

/-- A sequence of operations on the example level: an object 8 is updated and
destroyed, an object 9 is updated, and a call without a node is made. -/
def demo_ops : List CacheOp :=
  [.update 2 (some 8) (some ⟨⟨10, 0, 0⟩⟩), .destroy 8, .update 3 (some 9) (some ⟨⟨0, 0, 0⟩⟩),
    .update 3 none none]

/-- Whether a candidate, given with its index in the candidate list, is
occluded for an object at a position: it is not the entry at the sky index
and `is_light_visible` fails for it. -/
def occluded_at (E : Env) (pos : LVector3) (sky_idx : Int) (c : Nat × light_t) : Bool :=
  decide ((c.1 : Int) ≠ sky_idx) && !is_light_visible E pos c.2

/-- Every cached entry has a cached position, and its occlusion bits are the
bits the loop of line 627 leaves for its candidate list at that position. -/
def occlusion_ok (E : Env) (mgr : AmbientProbeManager) : Prop :=
  ∀ (node : NodeId) (e : nodeshaderinput_t), entry_of mgr node = some e →
    ∃ p : TransformState, mgr._pos_cache.lookup node = some p ∧
      e.occluded_lights =
        scan_bits E p.pos e.sky_idx e.locallights 0 E.MAX_ACTIVE_LIGHTS (fun _ => false)

/-- The example manager after a second call for node 7, at time 6/5 and at
(100, 0, 0) in leaf 1, where the point light of leaf 0 is no candidate. -/
def demo_mgr_far : AmbientProbeManager :=
  (update_node demo_env (6 / 5) demo_mgr1 (some 7) (some ⟨⟨100, 0, 0⟩⟩)).1

/-- The example manager after a first call for node 7 at time 1 and at
(0, 20, 0), from where the spot light is visible and nearer than the point
light. -/
def demo_mgr_side : AmbientProbeManager :=
  (update_node demo_env 1 demo_mgr (some 7) (some ⟨⟨0, 20, 0⟩⟩)).1

/-! ## The entity lists of `c_baseentity.cpp` -/

/-- The identity of a `C_BaseEntity` object. -/
abbrev EntId := Nat

/-- The two global lists and, per entity, the members `_teleport_list_entry`
and `_interpolation_list_entry`.  The declaration of the two members is not
among the sources at hand; they are numbers here, and every list of the
statements is shorter than 0xFFFF. -/
structure EntityLists where
  g_interpolationlist : List EntId
  g_teleportlist : List EntId
  _interpolation_list_entry : EntId → Nat
  _teleport_list_entry : EntId → Nat

/-- The lists at program start; every entity is constructed with both members
set to 0xFFFF. -/
def EntityLists.new : EntityLists :=
  { g_interpolationlist := [], g_teleportlist := []
    _interpolation_list_entry := fun _ => 0xFFFF, _teleport_list_entry := fun _ => 0xFFFF }

/-- The method `C_BaseEntity::add_to_teleport_list` of the entity `ent`. -/
def add_to_teleport_list (s : EntityLists) (ent : EntId) : EntityLists :=
  if s._teleport_list_entry ent = 0xFFFF then
    { s with
      g_teleportlist := s.g_teleportlist ++ [ent]
      _teleport_list_entry :=
        Function.update s._teleport_list_entry ent ((s.g_teleportlist ++ [ent]).length - 1) }
  else s

/-- The method `C_BaseEntity::remove_from_teleport_list` of the entity `ent`.
The call of `erase` with an iterator at or behind the end of the vector has no
defined result: `none`. -/
def remove_from_teleport_list (s : EntityLists) (ent : EntId) : Option EntityLists :=
  if s._teleport_list_entry ent ≠ 0xFFFF then
    if s._teleport_list_entry ent < s.g_teleportlist.length then
      some { s with
        g_teleportlist := s.g_teleportlist.eraseIdx (s._teleport_list_entry ent)
        _teleport_list_entry := Function.update s._teleport_list_entry ent 0xFFFF }
    else none
  else some s

/-- The method `C_BaseEntity::add_to_interpolation_list` of the entity `ent`. -/
def add_to_interpolation_list (s : EntityLists) (ent : EntId) : EntityLists :=
  if s._interpolation_list_entry ent = 0xFFFF then
    { s with
      g_interpolationlist := s.g_interpolationlist ++ [ent]
      _interpolation_list_entry :=
        Function.update s._interpolation_list_entry ent
          ((s.g_interpolationlist ++ [ent]).length - 1) }
  else s

/-- The method `C_BaseEntity::remove_from_interpolation_list` of the entity
`ent`: the entity is looked up with `std::find`; `erase` at the end iterator
has no defined result. -/
def remove_from_interpolation_list (s : EntityLists) (ent : EntId) : Option EntityLists :=
  if s._interpolation_list_entry ent ≠ 0xFFFF then
    if s.g_interpolationlist.indexOf ent < s.g_interpolationlist.length then
      some { s with
        g_interpolationlist :=
          s.g_interpolationlist.eraseIdx (s.g_interpolationlist.indexOf ent)
        _interpolation_list_entry := Function.update s._interpolation_list_entry ent 0xFFFF }
    else none
  else some s

/-- A call on the teleport list. -/
inductive TeleportOp where
  | add (ent : EntId)
  | remove (ent : EntId)

/-- The lists after a sequence of calls on the teleport list, `none` when a
call has no defined result. -/
def run_teleport : EntityLists → List TeleportOp → Option EntityLists
  | s, [] => some s
  | s, .add ent :: rest => run_teleport (add_to_teleport_list s ent) rest
  | s, .remove ent :: rest =>
    match remove_from_teleport_list s ent with
    | some s => run_teleport s rest
    | none => none

/-! ## The ray tests of `physics_utils.cpp` -/

/-- A node path: `none` is the empty path. -/
abbrev NodePath := Option Nat

/-- A hit of a ray: the path of the node hit, the position and the fraction of
the ray at the hit. -/
structure BulletRayHit where
  node : NodePath
  hit_pos : LVector3
  hit_fraction : ℚ
deriving DecidableEq

/-- The structure `RayTestClosestNotMeResult_t`. -/
structure RayTestClosestNotMeResult_t where
  result : Bool
  hit : BulletRayHit
deriving DecidableEq

/-- The physics world and the library functions the ray tests call. -/
structure PhysEnv where
  /-- The query `ray_test_all` of the physics world, with its mask. -/
  ray_test_all : LVector3 → LVector3 → Nat → List BulletRayHit
  /-- The method `NodePath::is_ancestor_of`. -/
  is_ancestor_of : NodePath → NodePath → Bool
  /-- The method `normalized` of a vector. -/
  normalized : LVector3 → LVector3
  /-- The constant `WORLD_MASK`. -/
  WORLD_MASK : Nat
  /-- The value of a `BulletRayHit` that has not been assigned. -/
  default_hit : BulletRayHit

/-- Insertion of one hit into a list sorted by hit fraction, behind the hits
with a smaller fraction. -/
def hit_insert (a : BulletRayHit) : List BulletRayHit → List BulletRayHit
  | [] => [a]
  | b :: rest =>
    if b.hit_fraction < a.hit_fraction then b :: hit_insert a rest else a :: b :: rest

/-- The call of `std::sort` on the hits, by hit fraction. -/
def sort_hits : List BulletRayHit → List BulletRayHit
  | [] => []
  | a :: rest => hit_insert a (sort_hits rest)

/-- The function `ray_test_all_stored`. -/
def ray_test_all_stored (P : PhysEnv) (from_pos to_pos : LVector3) (mask : Nat) :
    List BulletRayHit :=
  let result := P.ray_test_all from_pos to_pos mask
  if result.length > 0 then sort_hits result else []

/-- The loop of `ray_test_closest_not_me` over the hits. -/
def closest_not_me_loop (P : PhysEnv) (me : NodePath) :
    List BulletRayHit → RayTestClosestNotMeResult_t → RayTestClosestNotMeResult_t
  | [], result => result
  | brh :: rest, result =>
    if (!P.is_ancestor_of me brh.node && decide (me ≠ brh.node)) = true then
      { hit := brh, result := true }
    else closest_not_me_loop P me rest result

/-- The function `ray_test_closest_not_me`, returning the result structure it
fills. -/
def ray_test_closest_not_me (P : PhysEnv) (result : RayTestClosestNotMeResult_t)
    (me : NodePath) (from_pos to_pos : LVector3) (mask : Nat) : RayTestClosestNotMeResult_t :=
  let result := { result with result := false }
  if me.isNone then result
  else closest_not_me_loop P me (ray_test_all_stored P from_pos to_pos mask) result

/-- The function `get_throw_vector`. -/
def get_throw_vector (P : PhysEnv) (trace_origin trace_vector throw_origin : LVector3)
    (me : NodePath) : LVector3 :=
  let trace_end := trace_origin.add (trace_vector.scale 10000)
  let result := ray_test_closest_not_me P ⟨false, P.default_hit⟩ me trace_origin trace_end
    P.WORLD_MASK
  let hit_pos := if result.result then trace_end else result.hit.hit_pos
  P.normalized (hit_pos.sub throw_origin)

/-- The hits of a sorted list on nodes that are neither `me` nor below `me`. -/
def hits_not_me (P : PhysEnv) (me : NodePath) (hits : List BulletRayHit) : List BulletRayHit :=
  hits.filter (fun brh => !P.is_ancestor_of me brh.node && decide (me ≠ brh.node))

/-- A physics world on the x axis: a ray from the origin hits, in the order
the world reports them, node 3 at x = 7, node 4 (a child of node 1) at x = 2,
node 2 at x = 5 and node 1 at x = 3; every other ray hits nothing.  Node 1 is
above node 4 and itself.  The vectors of the example lie on the x axis, where
`normalized` is the sign; an unassigned hit has the position (0, 0, 0). -/
def demo_phys : PhysEnv :=
  { ray_test_all := fun a _ _ =>
      if a = ⟨0, 0, 0⟩ then
        [⟨some 3, ⟨7, 0, 0⟩, 7 / 10000⟩, ⟨some 4, ⟨2, 0, 0⟩, 2 / 10000⟩,
          ⟨some 2, ⟨5, 0, 0⟩, 5 / 10000⟩, ⟨some 1, ⟨3, 0, 0⟩, 3 / 10000⟩]
      else []
    is_ancestor_of := fun a b => decide (a = b) || (decide (a = some 1) && decide (b = some 4))
    normalized := fun v =>
      if v.y = 0 ∧ v.z = 0 then ⟨if v.x < 0 then -1 else if 0 < v.x then 1 else 0, 0, 0⟩ else v
    WORLD_MASK := 1
    default_hit := ⟨none, ⟨0, 0, 0⟩, 0⟩ }

/-- The interpolation list holds no entity twice, and it holds exactly the
entities whose member `_interpolation_list_entry` is not 0xFFFF. -/
def interpolation_ok (s : EntityLists) : Prop :=
  s.g_interpolationlist.Nodup ∧
  ∀ ent, ent ∈ s.g_interpolationlist ↔ s._interpolation_list_entry ent ≠ 0xFFFF

/-! ## Single precision -/

/-- The integer nearest to a rational number, the even one of two at the same
distance. -/
def round_half_even (q : ℚ) : Int :=
  if q - (Rat.floor q : ℚ) < 1 / 2 then Rat.floor q
  else if 1 / 2 < q - (Rat.floor q : ℚ) then Rat.floor q + 1
  else if Rat.floor q % 2 = 0 then Rat.floor q
  else Rat.floor q + 1

/-- The power of two `s` with `2 ^ 23 ≤ a / s < 2 ^ 24` for a positive `a`,
searched from `s` in at most the given number of steps. -/
def single_scale : Nat → ℚ → ℚ → ℚ
  | 0, _, s => s
  | n + 1, a, s =>
    if 2 ^ 24 * s ≤ a then single_scale n a (s * 2)
    else if a < 2 ^ 23 * s then single_scale n a (s / 2)
    else s

/-- The number with a significand of 24 binary digits that is nearest to a
rational number, ties to the even significand: the rounding of IEEE single
precision, without the bounds on the exponent. -/
def round_single (x : ℚ) : ℚ :=
  if x = 0 then 0
  else
    (round_half_even (x / single_scale 400 (if x < 0 then -x else x) 1) : ℚ)
      * single_scale 400 (if x < 0 then -x else x) 1

/-- The example level with the rounding of single precision. -/
def demo_env_single : Env := { demo_env with fl := round_single }

/-- The example level with the rounding of single precision and with two
ambient samples that differ on face 0 only: the probe at (0, 0, 0) is black on
face 0, the probe at (10, 0, 0) is (1, 1, 1) on every face. -/
def demo_env_blend : Env :=
  { demo_env_single with
    leafambientlighting := fun k =>
      if k = 0 then ⟨0, 0, 0, fun f => if f = 0 then ⟨0, 0, 0, 0⟩ else ⟨1, 1, 1, 0⟩⟩
      else ⟨255, 0, 0, fun _ => ⟨1, 1, 1, 0⟩⟩ }

/-- The manager of that level after nine calls for node 7 at the origin, at
the times 1 to 9. -/
def demo_mgr_blend : AmbientProbeManager :=
  run_updates demo_env_blend (process_ambient_probes demo_env_blend AmbientProbeManager.new)
    ((List.range 9).map (fun k => ((k + 1 : ℚ), some 7, some ⟨⟨0, 0, 0⟩⟩)))

/-! ## Theorems -/

/-! ### C strings -/

theorem char_toNat_inj {a b : Char} (h : a.toNat = b.toNat) : a = b := by
  rw [← Char.ofNat_toNat a, ← Char.ofNat_toNat b, h]

theorem char_toNat_sub_eq_zero (a b : Char) : ((a.toNat : Int) - (b.toNat : Int) = 0) ↔ a = b := by
  constructor
  · intro h
    exact char_toNat_inj (by omega)
  · rintro rfl; simp

theorem char_toNat_ne_zero {c : Char} (h : c ≠ Char.ofNat 0) : c.toNat ≠ 0 := by
  intro h0
  exact h (char_toNat_inj (by rw [h0]; rfl))

theorem c_head_cons (c : Char) (s : List Char) : c_head (c :: s) = c := rfl
theorem c_head_nil : c_head [] = Char.ofNat 0 := rfl

theorem c_str_nil : c_str [] = [] := rfl
theorem c_str_cons (c : Char) (s : List Char) :
    c_str (c :: s) = if c ≠ Char.ofNat 0 then c :: c_str s else [] := by
  simp [c_str, List.takeWhile_cons]

theorem strncmp_succ (s1 s2 : List Char) (n : Nat) :
    strncmp s1 s2 (n + 1) =
      if c_head s1 ≠ c_head s2 then ((c_head s1).toNat : Int) - ((c_head s2).toNat : Int)
      else if c_head s1 = Char.ofNat 0 then 0
      else strncmp s1.tail s2.tail n := rfl

theorem strncmp_zero (s1 s2 : List Char) : strncmp s1 s2 0 = 0 := by
  cases s1 <;> cases s2 <;> rfl

/-- Comparing one character more than a literal has is an exact comparison. -/
theorem strncmp_succ_length (lit : List Char) (hlit : ∀ c ∈ lit, c ≠ Char.ofNat 0) :
    ∀ s : List Char, strncmp s lit (lit.length + 1) = 0 ↔ c_str s = lit := by
  induction lit with
  | nil =>
    intro s
    cases s with
    | nil => simp [strncmp_succ, c_head, c_str]
    | cons c s =>
      rw [List.length_nil, strncmp_succ, c_head_cons, c_head_nil, c_str_cons]
      by_cases hc : c = Char.ofNat 0
      · simp [hc]
      · simp only [ne_eq, hc, not_false_eq_true, if_true, if_false]
        simp [char_toNat_sub_eq_zero, hc, char_toNat_ne_zero hc]
  | cons d lit ih =>
    intro s
    have hd : d ≠ Char.ofNat 0 := hlit d (by simp)
    have ih' := ih (fun c hc => hlit c (by simp [hc]))
    cases s with
    | nil =>
      rw [List.length_cons, strncmp_succ, c_head_cons, c_head_nil, c_str_nil]
      simp only [ne_eq, Ne.symm hd, not_false_eq_true, if_true]
      simp [char_toNat_sub_eq_zero, Ne.symm hd, char_toNat_ne_zero hd]
    | cons c s =>
      rw [List.length_cons, strncmp_succ, c_head_cons, c_head_cons, c_str_cons, List.tail_cons,
        List.tail_cons]
      by_cases hcd : c = d
      · subst hcd
        simp [hd, ih' s]
      · by_cases hc : c = Char.ofNat 0
        · simp [hc, hcd, char_toNat_sub_eq_zero, Ne.symm hd, char_toNat_ne_zero hd]
        · simp [hc, hcd, char_toNat_sub_eq_zero]

/-! ### The light catalog -/

theorem light_orientation_id (E : Env) (ent : entity_t) (l : light_t) :
    (light_orientation E ent l).id = l.id := by
  unfold light_orientation
  split <;> rfl

theorem light_orientation_type (E : Env) (ent : entity_t) (l : light_t) :
    (light_orientation E ent l).type = l.type := by
  unfold light_orientation
  split <;> rfl

theorem light_falloff_id (E : Env) (ent : entity_t) (l : light_t) :
    (light_falloff E ent l).id = l.id := by
  unfold light_falloff
  simp only
  split_ifs <;> rfl

theorem make_light_id (E : Env) (n : Nat) (ent : entity_t) : (make_light E n ent).id = (n : Int) := by
  simp [make_light, light_falloff_id, light_orientation_id]

theorem entity_loop_cons (E : Env) (ent : entity_t) (rest : List entity_t) (n : Nat)
    (s : LightBuild) :
    entity_loop E (ent :: rest) n s =
      if strncmp ent.classname "light".data 5 = 0 then
        entity_loop E rest (n + 1) (entity_step E n ent s)
      else entity_loop E rest (n + 1) s := rfl

theorem entity_step_all_lights (E : Env) (n : Nat) (ent : entity_t) (s : LightBuild) :
    (entity_step E n ent s).all_lights = s.all_lights ++ [make_light E n ent] := by
  unfold entity_step
  split <;> rfl

theorem entity_loop_all_lights (E : Env) (ents : List entity_t) :
    ∀ (n : Nat) (s : LightBuild), ∃ new : List light_t,
      (entity_loop E ents n s).all_lights = s.all_lights ++ new ∧
      (∀ l ∈ new, (n : Int) ≤ l.id) ∧ new.Pairwise (fun a b => a.id < b.id) := by
  induction ents with
  | nil => intro n s; exact ⟨[], by simp [entity_loop]⟩
  | cons ent rest ih =>
    intro n s
    rw [entity_loop_cons]
    by_cases h1 : strncmp ent.classname "light".data 5 = 0
    · rw [if_pos h1]
      obtain ⟨new, h, hge, hp⟩ := ih (n + 1) (entity_step E n ent s)
      refine ⟨make_light E n ent :: new, ?_, ?_, ?_⟩
      · rw [h, entity_step_all_lights]; simp
      · intro l hl
        rcases List.mem_cons.1 hl with rfl | hl
        · simp [make_light_id]
        · have := hge l hl; push_cast at this; omega
      · refine List.pairwise_cons.2 ⟨?_, hp⟩
        intro l hl
        have := hge l hl
        rw [make_light_id]; push_cast at this; omega
    · rw [if_neg h1]
      obtain ⟨new, h, hge, hp⟩ := ih (n + 1) s
      refine ⟨new, h, ?_, hp⟩
      intro l hl
      have := hge l hl; push_cast at this; omega

theorem pvs_leaf_loop_cons (E : Env) (light : light_t) (a : Nat) (rest : List Nat)
    (pvs : List (List light_t)) :
    pvs_leaf_loop E light (a :: rest) pvs =
      if light.type ≠ LightType.sun ∧ E.is_cluster_visible light.leaf a = true then
        pvs_leaf_loop E light rest (pvs.set a (pvs.getD a [] ++ [light]))
      else pvs_leaf_loop E light rest pvs := rfl

theorem pvs_leaf_loop_length (E : Env) (light : light_t) (leafs : List Nat) :
    ∀ pvs : List (List light_t), (pvs_leaf_loop E light leafs pvs).length = pvs.length := by
  induction leafs with
  | nil => intro pvs; rfl
  | cons a rest ih =>
    intro pvs
    rw [pvs_leaf_loop_cons]
    split_ifs
    · rw [ih]; simp
    · rw [ih]

theorem pvs_leaf_loop_getD (E : Env) (light : light_t) (leafs : List Nat) (hnd : leafs.Nodup) :
    ∀ (pvs : List (List light_t)) (L : Nat), L < pvs.length →
      (pvs_leaf_loop E light leafs pvs).getD L [] =
        pvs.getD L [] ++ (if L ∈ leafs ∧ pvs_test E L light = true then [light] else []) := by
  induction leafs with
  | nil => intro pvs L _; simp [pvs_leaf_loop]
  | cons a rest ih =>
    intro pvs L hL
    have hnd' := (List.nodup_cons.1 hnd)
    rw [pvs_leaf_loop_cons]
    by_cases h1 : light.type ≠ LightType.sun ∧ E.is_cluster_visible light.leaf a = true
    · rw [if_pos h1, ih hnd'.2 _ L (by simpa using hL)]
      by_cases hLa : L = a
      · subst hLa
        have ht : pvs_test E L light = true := by simp [pvs_test, h1.1, h1.2]
        simp [hnd'.1, ht, List.getD_eq_getElem?_getD, List.getElem?_set, hL]
      · have : ¬ a = L := fun h => hLa h.symm
        simp [List.getD_eq_getElem?_getD, List.getElem?_set, this, hLa]
    · rw [if_neg h1, ih hnd'.2 _ L hL]
      by_cases hLa : L = a
      · subst hLa
        have ht : ¬ pvs_test E L light = true := by
          simp only [pvs_test, Bool.and_eq_true, decide_eq_true_eq]; exact h1
        simp [hnd'.1, ht]
      · simp [hLa]

theorem pvs_loop_length (E : Env) (lights : List light_t) :
    ∀ pvs : List (List light_t), (pvs_loop E lights pvs).length = pvs.length := by
  induction lights with
  | nil => intro pvs; rfl
  | cons a rest ih => intro pvs; unfold pvs_loop; rw [ih, pvs_leaf_loop_length]

theorem pvs_loop_getD (E : Env) (lights : List light_t) :
    ∀ (pvs : List (List light_t)) (L : Nat), pvs.length = E.visleafs + 1 → L < pvs.length →
      (pvs_loop E lights pvs).getD L [] = pvs.getD L [] ++ lights.filter (pvs_test E L) := by
  induction lights with
  | nil => intro pvs L _ _; simp [pvs_loop]
  | cons a rest ih =>
    intro pvs L hlen hL
    unfold pvs_loop
    rw [ih _ L (by rw [pvs_leaf_loop_length]; exact hlen) (by rw [pvs_leaf_loop_length]; exact hL),
      pvs_leaf_loop_getD E a _ (List.nodup_range _) pvs L hL]
    have hmem : L ∈ List.range (E.visleafs + 1) := by
      rw [List.mem_range]; omega
    by_cases ht : pvs_test E L a = true
    · simp [hmem, ht, List.filter_cons]
    · simp [hmem, ht, List.filter_cons]

/-! ### Claims on the light catalog -/

/-- C1: a call of `update_node` with a null node or a null transform returns
no handle and leaves the whole state of the manager as it was. -/
theorem C1_update_node_null (E : Env) (now : ℚ) (mgr : AmbientProbeManager)
    (node : Option NodeId) (curr_trans : Option TransformState)
    (h : node = none ∨ curr_trans = none) :
    update_node E now mgr node curr_trans = (mgr, none) := by
  rcases h with rfl | rfl
  · rfl
  · cases node <;> rfl

/-- C1, at a concrete call: a null transform for node 7 of the example
level. -/
theorem C1_update_node_null_witness :
    update_node demo_env 1 demo_mgr (some 7) none = (demo_mgr, none) :=
  C1_update_node_null demo_env 1 demo_mgr (some 7) none (Or.inr rfl)

/-- C8, as the code has it: the class name is compared with one character
more than each of the two long literals has, terminator included, so
`lighttype_from_classname` returns Directional exactly for the name
"light_environment", Spot exactly for the name "light_spot", and Point for
every other name. -/
theorem C8_lighttype_from_classname_exact (name : List Char) :
    (lighttype_from_classname name = LightType.sun ↔ c_str name = "light_environment".data) ∧
    (lighttype_from_classname name = LightType.spot ↔ c_str name = "light_spot".data) ∧
    (c_str name ≠ "light_environment".data → c_str name ≠ "light_spot".data →
      lighttype_from_classname name = LightType.point) := by
  have h1 := strncmp_succ_length "light_environment".data (by decide) name
  have h2 := strncmp_succ_length "light_spot".data (by decide) name
  have e1 : "light_environment".data.length + 1 = 18 := by decide
  have e2 : "light_spot".data.length + 1 = 11 := by decide
  rw [e1] at h1
  rw [e2] at h2
  have hne : "light_environment".data ≠ "light_spot".data := by decide
  unfold lighttype_from_classname
  by_cases c1 : strncmp name "light_environment".data 18 = 0
  · have := h1.1 c1
    simp [c1, this, hne]
  · have n1 : c_str name ≠ "light_environment".data := fun h => c1 (h1.2 h)
    by_cases c2 : strncmp name "light_spot".data 11 = 0
    · have := h2.1 c2
      simp [c1, c2, this, hne.symm]
    · have n2 : c_str name ≠ "light_spot".data := fun h => c2 (h2.2 h)
      simp [c1, c2, n1, n2]

/-- C8 fails as stated: the name "light_environment_2" has the prefix
"light_environment" and is classified as a Point light. -/
theorem C8_counterexample :
    "light_environment".data <+: "light_environment_2".data ∧
    lighttype_from_classname "light_environment_2".data = LightType.point := by
  decide

theorem spot_stopdot2_eq (ent : entity_t) :
    spot_stopdot2 ent =
      if ent._cone = 0 ∨ ent._cone < spot_stopdot ent then spot_stopdot ent else ent._cone := by
  unfold spot_stopdot2
  simp only
  by_cases h : ent._cone = 0 ∨ ent._cone < spot_stopdot ent
  · simp [h]
  · have h' : ¬ ent._cone < spot_stopdot ent := fun hh => h (Or.inr hh)
    have h0 : ¬ ent._cone = 0 := fun hh => h (Or.inl hh)
    simp [h0, h']

theorem spot_stopdot_le (ent : entity_t) : spot_stopdot ent ≤ spot_stopdot2 ent := by
  rw [spot_stopdot2_eq]
  split_ifs with h
  · exact le_refl _
  · exact not_lt.1 (fun hh => h (Or.inr hh))

theorem make_light_spot (E : Env) (entnum : Nat) (ent : entity_t)
    (hspot : lighttype_from_classname ent.classname = LightType.spot) :
    make_light E entnum ent =
      if spot_stopdot ent = 180 ∧ spot_stopdot2 ent = 180 then
        { light_orientation E ent { light_t.fresh with
            id := (entnum : Int), pos := ent.origin.scale (1 / 16),
            leaf := E.find_leaf (ent.origin.scale (1 / 16)), color := ent._light,
            type := LightType.spot } with
          falloff := ⟨ent.falloffparams.constant_atten, ent.falloffparams.linear_atten,
            ent.falloffparams.quadratic_atten, 0⟩
          falloff2 := ⟨ent.falloffparams.start_fade_distance,
            ent.falloffparams.end_fade_distance, ent.falloffparams.cap_distance, 0⟩
          falloff3 := ⟨0, 0, 0, 0⟩
          type := LightType.point }
      else
        { light_orientation E ent { light_t.fresh with
            id := (entnum : Int), pos := ent.origin.scale (1 / 16),
            leaf := E.find_leaf (ent.origin.scale (1 / 16)), color := ent._light,
            type := LightType.spot } with
          falloff := ⟨ent.falloffparams.constant_atten, ent.falloffparams.linear_atten,
            ent.falloffparams.quadratic_atten, E.cos (spot_stopdot ent / 180 * E.Q_PI)⟩
          falloff2 := ⟨ent.falloffparams.start_fade_distance,
            ent.falloffparams.end_fade_distance, ent.falloffparams.cap_distance,
            E.cos (spot_stopdot2 ent / 180 * E.Q_PI)⟩
          falloff3 := ⟨ent._exponent, 0, 0, 0⟩ } := by
  unfold make_light
  simp only [hspot]
  unfold light_falloff
  simp only [light_orientation_type, true_or, if_true]

/-- C9: for a spot-light entity the inner angle used is 10 when the key
`_inner_cone` is unset and the key otherwise; the outer angle used is the
inner angle used when the key `_cone` is unset or below it and the key
otherwise, so it is never below the inner angle used; the light built is a
Point light exactly when both angles used are 180, and otherwise it is a Spot
light whose cone cells hold the cosines of the two angles used. -/
theorem C9_spot_cone (E : Env) (entnum : Nat) (ent : entity_t)
    (hspot : lighttype_from_classname ent.classname = LightType.spot) :
    spot_stopdot ent = (if ent._inner_cone = 0 then 10 else ent._inner_cone) ∧
    spot_stopdot2 ent =
      (if ent._cone = 0 ∨ ent._cone < spot_stopdot ent then spot_stopdot ent else ent._cone) ∧
    spot_stopdot ent ≤ spot_stopdot2 ent ∧
    ((make_light E entnum ent).type = LightType.point ↔
      (spot_stopdot ent = 180 ∧ spot_stopdot2 ent = 180)) ∧
    (¬ (spot_stopdot ent = 180 ∧ spot_stopdot2 ent = 180) →
      (make_light E entnum ent).type = LightType.spot ∧
      (make_light E entnum ent).falloff.w = E.cos (spot_stopdot ent / 180 * E.Q_PI) ∧
      (make_light E entnum ent).falloff2.w = E.cos (spot_stopdot2 ent / 180 * E.Q_PI)) := by
  refine ⟨rfl, spot_stopdot2_eq ent, spot_stopdot_le ent, ?_, ?_⟩
  · rw [make_light_spot E entnum ent hspot]
    by_cases h : spot_stopdot ent = 180 ∧ spot_stopdot2 ent = 180
    · simp [h]
    · simp [h, light_orientation_type]
  · intro h
    rw [make_light_spot E entnum ent hspot]
    simp [h, light_orientation_type]

/-- C9, at the spot light of the example level (entity 3, no cone key set):
both angles used are 10 and the light stays a Spot light. -/
theorem C9_spot_cone_witness :
    lighttype_from_classname (demo_entity "light_spot" ⟨0, 32, 0⟩ ⟨0, 4, 0⟩).classname
      = LightType.spot ∧
    spot_stopdot (demo_entity "light_spot" ⟨0, 32, 0⟩ ⟨0, 4, 0⟩) = 10 ∧
    spot_stopdot2 (demo_entity "light_spot" ⟨0, 32, 0⟩ ⟨0, 4, 0⟩) = 10 ∧
    (make_light demo_env 3 (demo_entity "light_spot" ⟨0, 32, 0⟩ ⟨0, 4, 0⟩)).type
      = LightType.spot := by
  have h := C9_spot_cone demo_env 3 (demo_entity "light_spot" ⟨0, 32, 0⟩ ⟨0, 4, 0⟩) (by decide)
  have h10 : spot_stopdot (demo_entity "light_spot" ⟨0, 32, 0⟩ ⟨0, 4, 0⟩) = 10 := by decide!
  refine ⟨by decide, h10, by decide!, (h.2.2.2.2 ?_).1⟩
  rw [h10]
  norm_num

theorem process_all_lights_pairwise (E : Env) (mgr : AmbientProbeManager) :
    (process_ambient_probes E mgr)._all_lights.Pairwise (fun a b => a.id < b.id) := by
  obtain ⟨new, h, _, hp⟩ := entity_loop_all_lights E E.entities 0
    { all_lights := [], sunlight := mgr._sunlight, light_points := [] }
  have : (process_ambient_probes E mgr)._all_lights = new := by
    simpa [process_ambient_probes] using h
  rw [this]; exact hp

theorem process_all_lights_nodup (E : Env) (mgr : AmbientProbeManager) :
    (process_ambient_probes E mgr)._all_lights.Nodup := by
  refine (process_all_lights_pairwise E mgr).imp ?_
  intro a b hab heq
  rw [heq] at hab
  exact lt_irrefl _ hab

theorem process_light_pvs_length (E : Env) (mgr : AmbientProbeManager) :
    (process_ambient_probes E mgr)._light_pvs.length = E.visleafs + 1 := by
  simp [process_ambient_probes, pvs_loop_length]

theorem process_light_pvs_getD (E : Env) (mgr : AmbientProbeManager) (L : Nat)
    (hL : L ≤ E.visleafs) :
    (process_ambient_probes E mgr)._light_pvs.getD L [] =
      (process_ambient_probes E mgr)._all_lights.filter (pvs_test E L) := by
  have h := pvs_loop_getD E (process_ambient_probes E mgr)._all_lights
    (List.replicate (E.visleafs + 1) []) L (by simp) (by simp; omega)
  have h0 : (List.replicate (E.visleafs + 1) ([] : List light_t)).getD L [] = [] := by
    have : L < E.visleafs + 1 := by omega
    simp [List.getD_eq_getElem?_getD, List.getElem?_replicate, this]
  rw [h0, List.nil_append] at h
  exact h

theorem process_light_pvs_no_sun (E : Env) (mgr : AmbientProbeManager) (L : Nat) :
    ∀ l ∈ (process_ambient_probes E mgr)._light_pvs.getD L [], l.type ≠ LightType.sun := by
  intro l hl
  by_cases hL : L ≤ E.visleafs
  · rw [process_light_pvs_getD E mgr L hL, List.mem_filter] at hl
    have := hl.2
    simp only [pvs_test, Bool.and_eq_true, decide_eq_true_eq] at this
    exact this.1
  · have hlen := process_light_pvs_length E mgr
    rw [List.getD_eq_getElem?_getD, List.getElem?_eq_none (by omega)] at hl
    simp at hl

/-- C7: after `process_ambient_probes`, for every leaf index `L` from 0 to
`visleafs` and every light `l` of the catalog, `l` is in the list of leaf `L`
exactly when it is not Directional and `is_cluster_visible( l.leaf, L )`
holds, and then it occurs there once; every light of the list is a light of
the catalog, and no list of any leaf holds a Directional light. -/
theorem C7_light_pvs (E : Env) (mgr : AmbientProbeManager) (L : Nat) (hL : L ≤ E.visleafs) :
    (∀ l ∈ (process_ambient_probes E mgr)._all_lights,
      (l ∈ (process_ambient_probes E mgr)._light_pvs.getD L [] ↔
        (l.type ≠ LightType.sun ∧ E.is_cluster_visible l.leaf L = true)) ∧
      (l ∈ (process_ambient_probes E mgr)._light_pvs.getD L [] →
        ((process_ambient_probes E mgr)._light_pvs.getD L []).count l = 1)) ∧
    (∀ l ∈ (process_ambient_probes E mgr)._light_pvs.getD L [],
      l ∈ (process_ambient_probes E mgr)._all_lights) ∧
    (∀ L' : Nat, ∀ l ∈ (process_ambient_probes E mgr)._light_pvs.getD L' [],
      l.type ≠ LightType.sun) := by
  have hnd := process_all_lights_nodup E mgr
  have hpvs := process_light_pvs_getD E mgr L hL
  refine ⟨?_, ?_, fun L' => process_light_pvs_no_sun E mgr L'⟩
  · intro l hl
    rw [hpvs]
    constructor
    · rw [List.mem_filter]
      simp [pvs_test, hl]
    · intro hmem
      exact List.count_eq_one_of_mem (hnd.filter _) hmem
  · intro l hl
    rw [hpvs] at hl
    exact (List.mem_filter.1 hl).1

/-- C7, at leaf 0 of the example level: the point light and the spot light
are listed once each and the sun is not. -/
theorem C7_light_pvs_witness :
    (0 ≤ demo_env.visleafs) ∧
    ((process_ambient_probes demo_env AmbientProbeManager.new)._light_pvs.getD 0 []).map
      (fun l => l.id) = [2, 3] ∧
    (∀ l ∈ (process_ambient_probes demo_env AmbientProbeManager.new)._light_pvs.getD 0 [],
      l.type ≠ LightType.sun) :=
  ⟨by decide, by decide!,
    (C7_light_pvs demo_env AmbientProbeManager.new 0 (by decide)).2.2 0⟩

/-! ### The hash map -/

namespace SimpleHashMap

variable {K V : Type} [DecidableEq K]

theorem find_nil (k : K) : find ([] : SimpleHashMap K V) k = none := rfl

theorem find_cons (e : K × V) (m : SimpleHashMap K V) (k : K) :
    find (e :: m) k = if e.1 = k then some 0 else (find m k).map (fun i => i + 1) := rfl

theorem store_nil (k : K) (v : V) : store ([] : SimpleHashMap K V) k v = [(k, v)] := rfl

theorem store_cons (e : K × V) (m : SimpleHashMap K V) (k : K) (v : V) :
    store (e :: m) k v = if e.1 = k then (k, v) :: m else e :: store m k v := rfl

theorem lookup_nil (k : K) : lookup ([] : SimpleHashMap K V) k = none := rfl

theorem lookup_cons (e : K × V) (m : SimpleHashMap K V) (k : K) :
    lookup (e :: m) k = if e.1 = k then some e.2 else lookup m k := by
  unfold lookup
  rw [find_cons]
  by_cases h : e.1 = k
  · simp [h, get_data]
  · simp only [h, if_false]
    cases hf : find m k with
    | none => simp
    | some i => simp [get_data]

theorem find_some_get_data (m : SimpleHashMap K V) (k : K) (i : Nat) (h : find m k = some i) :
    get_data m i = lookup m k := by
  unfold lookup
  rw [h]
  rfl

theorem find_eq_none_iff (m : SimpleHashMap K V) (k : K) : find m k = none ↔ lookup m k = none := by
  induction m with
  | nil => simp [find_nil, lookup_nil]
  | cons e m ih =>
    rw [find_cons, lookup_cons]
    by_cases h : e.1 = k
    · simp [h]
    · simp [h, ih]

theorem lookup_store_self (m : SimpleHashMap K V) (k : K) (v : V) :
    lookup (store m k v) k = some v := by
  induction m with
  | nil => simp [store_nil, lookup_cons]
  | cons e m ih =>
    rw [store_cons]
    by_cases h : e.1 = k
    · simp [h, lookup_cons]
    · simp [h, lookup_cons, ih]

theorem lookup_store_ne (m : SimpleHashMap K V) (k k' : K) (v : V) (hne : k' ≠ k) :
    lookup (store m k v) k' = lookup m k' := by
  induction m with
  | nil => simp [store_nil, lookup_cons, lookup_nil, hne.symm]
  | cons e m ih =>
    rw [store_cons]
    by_cases h : e.1 = k
    · have : ¬ e.1 = k' := fun h' => hne (h'.symm.trans h)
      simp [h, lookup_cons, hne.symm, this]
    · simp [h, lookup_cons, ih]

end SimpleHashMap

/-! ### The entry of a node after a call -/

theorem update_found_entry (E : Env) (now : ℚ) (mgr : AmbientProbeManager) (node : NodeId)
    (curr_trans : TransformState) (new_instance : Bool) (input : nodeshaderinput_t) :
    entry_of (update_found E now mgr node curr_trans new_instance input).1 node =
      some (update_input E now mgr curr_trans
        (pos_changed_of E (mgr._pos_cache.lookup node) curr_trans new_instance) input) := by
  simp [update_found, entry_of, SimpleHashMap.lookup_store_self]

/-- `update_input` reads the catalogs of the manager only. -/
theorem update_input_congr (E : Env) (now : ℚ) (mgr mgr' : AmbientProbeManager)
    (curr_trans : TransformState) (pc : Bool) (input : nodeshaderinput_t)
    (h1 : mgr'._sunlight = mgr._sunlight) (h2 : mgr'._probe_kdtree = mgr._probe_kdtree)
    (h3 : mgr'._envmap_kdtree = mgr._envmap_kdtree) (h4 : mgr'._light_pvs = mgr._light_pvs)
    (h5 : mgr'._probes = mgr._probes) (h6 : mgr'._all_probes = mgr._all_probes)
    (h7 : mgr'._cubemaps = mgr._cubemaps) :
    update_input E now mgr' curr_trans pc input = update_input E now mgr curr_trans pc input := by
  simp [update_input, pre_slots, update_envmap, update_ac, update_locallights, is_sky_visible,
    h1, h2, h3, h4, h5, h6, h7]

theorem pos_changed_of_new (E : Env) (prev : Option TransformState) (t : TransformState) :
    pos_changed_of E prev t true = true := by
  simp [pos_changed_of]

/-- The entry of the node after a call with a node and a transform. -/
theorem entry_of_update_node (E : Env) (now : ℚ) (mgr : AmbientProbeManager) (node : NodeId)
    (curr_trans : TransformState) :
    entry_of (update_node E now mgr (some node) (some curr_trans)).1 node =
      some (update_input E now mgr curr_trans (call_pos_changed E mgr node curr_trans)
        (call_input mgr node)) := by
  unfold update_node call_pos_changed call_input
  simp only
  cases hf : mgr._node_data.find node with
  | none =>
    have hl : entry_of mgr node = none := (SimpleHashMap.find_eq_none_iff _ _).1 hf
    simp only [hl]
    rw [update_found_entry, pos_changed_of_new]
    exact congrArg some (update_input_congr E now _ mgr curr_trans true _ rfl rfl rfl rfl rfl rfl rfl)
  | some itr =>
    have hg := SimpleHashMap.find_some_get_data _ _ _ hf
    have hne : SimpleHashMap.lookup mgr._node_data node ≠ none := by
      intro h
      rw [(SimpleHashMap.find_eq_none_iff _ _).2 h] at hf
      cases hf
    cases hl : SimpleHashMap.lookup mgr._node_data node with
    | none => exact absurd hl hne
    | some input =>
      rw [hl] at hg
      simp only [hg, entry_of, hl]
      exact update_found_entry E now mgr node curr_trans false input

/-! ### The slot loops -/

theorem add_light_with_bits (avg : Bool) (atten : ℚ) (old : OldLights) (l : light_t)
    (bits : Nat → Bool) (s : SlotLoop) :
    add_light avg atten old l (with_bits bits s) = with_bits bits (add_light avg atten old l s) :=
  rfl

theorem foldl_add_light_with_bits (avg : Bool) (atten : ℚ) (old : OldLights)
    (bits : Nat → Bool) (ls : List (Nat × light_t)) :
    ∀ s : SlotLoop,
      ls.foldl (fun s p => add_light avg atten old p.2 s) (with_bits bits s) =
        with_bits bits (ls.foldl (fun s p => add_light avg atten old p.2 s) s) := by
  induction ls with
  | nil => intro s; rfl
  | cons p ls ih => intro s; simp only [List.foldl_cons, add_light_with_bits, ih]

theorem with_bits_with_bits (b b' : Nat → Bool) (s : SlotLoop) :
    with_bits b (with_bits b' s) = with_bits b s := rfl

theorem with_bits_self (s : SlotLoop) : with_bits s.input.occluded_lights s = s := rfl

theorem visible_cands_congr (E : Env) (pc : Bool) (pos : LVector3) (sky : Int)
    (b b' : Nat → Bool) (cands : List (Nat × light_t)) (h : ∀ p ∈ cands, b p.1 = b' p.1) :
    visible_cands E pc pos sky b cands = visible_cands E pc pos sky b' cands := by
  unfold visible_cands
  apply List.filter_congr
  intro p hp
  simp [occluded_cand, h p hp]

theorem mem_enumFrom_ge {α : Type} (l : List α) (i : Nat) (p : Nat × α)
    (h : p ∈ List.enumFrom i l) : i ≤ p.1 := by
  induction l generalizing i with
  | nil => simp at h
  | cons a l ih =>
    rw [List.enumFrom_cons, List.mem_cons] at h
    rcases h with rfl | h
    · exact le_refl _
    · exact Nat.le_of_succ_le (ih (i + 1) h)

theorem add_lights_cons (E : Env) (pc avg : Bool) (atten : ℚ) (pos : LVector3) (old : OldLights)
    (light : light_t) (rest : List light_t) (i : Nat) (s : SlotLoop) :
    add_lights E pc avg atten pos old (light :: rest) i s =
      if s.lights_updated < E.MAX_ACTIVE_LIGHTS then
        if (pc && (decide ((i : Int) ≠ s.input.sky_idx) && !is_light_visible E pos light)) = true then
          add_lights E pc avg atten pos old rest (i + 1)
            (with_bits (Function.update s.input.occluded_lights i true) s)
        else if s.input.occluded_lights i = true then
          add_lights E pc avg atten pos old rest (i + 1) s
        else
          add_lights E pc avg atten pos old rest (i + 1) (add_light avg atten old light s)
      else s := by
  rw [add_lights]
  by_cases h1 : s.lights_updated < E.MAX_ACTIVE_LIGHTS
  · simp only [h1, if_true]
    by_cases h2 : (pc && (decide ((i : Int) ≠ s.input.sky_idx) && !is_light_visible E pos light)) = true
    · simp only [h2, if_true, Bool.true_or]
      rfl
    · simp only [h2, if_false, Bool.false_eq_true]
      rw [Bool.not_eq_true] at h2
      simp only [h2, Bool.false_or]
  · simp only [h1, if_false]

theorem visible_cands_cons (E : Env) (pc : Bool) (pos : LVector3) (sky : Int)
    (b : Nat → Bool) (p : Nat × light_t) (cands : List (Nat × light_t)) :
    visible_cands E pc pos sky b (p :: cands) =
      if occluded_cand E pc pos sky b p = true then visible_cands E pc pos sky b cands
      else p :: visible_cands E pc pos sky b cands := by
  unfold visible_cands
  rw [List.filter_cons]
  by_cases h : occluded_cand E pc pos sky b p = true
  · simp [h]
  · simp [h]

/-- The loop of line 627 writes the first visible candidates in order, as long
as there is room. -/
theorem add_lights_eq (E : Env) (pc avg : Bool) (atten : ℚ) (pos : LVector3) (old : OldLights) :
    ∀ (rest : List light_t) (i : Nat) (s : SlotLoop),
      (pc = true → ∀ j, i ≤ j → s.input.occluded_lights j = false) →
      add_lights E pc avg atten pos old rest i s =
        with_bits
          (if pc = true then
            scan_bits E pos s.input.sky_idx rest i (E.MAX_ACTIVE_LIGHTS - s.lights_updated)
              s.input.occluded_lights
          else s.input.occluded_lights)
          ((active_cands E pc pos s.input.sky_idx s.input.occluded_lights i rest
              (E.MAX_ACTIVE_LIGHTS - s.lights_updated)).foldl
            (fun s p => add_light avg atten old p.2 s) s) := by
  intro rest
  induction rest with
  | nil =>
    intro i s _
    simp [add_lights, active_cands, visible_cands, scan_bits, with_bits]
  | cons light rest ih =>
    intro i s hbits
    rw [add_lights_cons]
    by_cases h1 : s.lights_updated < E.MAX_ACTIVE_LIGHTS
    · have hroom : E.MAX_ACTIVE_LIGHTS - s.lights_updated ≠ 0 := by omega
      simp only [h1, if_true]
      by_cases h2 : (pc && (decide ((i : Int) ≠ s.input.sky_idx) &&
          !is_light_visible E pos light)) = true
      · -- occluded by the test of this call
        have hpc : pc = true := by
          cases pc
          · simp at h2
          · rfl
        subst hpc
        have h2' : (decide ((i : Int) ≠ s.input.sky_idx) && !is_light_visible E pos light) = true := by
          simpa using h2
        have hocc : occluded_cand E true pos s.input.sky_idx s.input.occluded_lights (i, light)
            = true := by
          simp only [occluded_cand, if_true]; exact h2'
        rw [if_pos h2, ih (i + 1) _ (by
          intro _ j hj
          show Function.update s.input.occluded_lights i true j = false
          rw [Function.update_noteq (by omega)]
          exact hbits rfl j (by omega))]
        simp only [if_true, active_cands, List.enumFrom_cons, visible_cands_cons, hocc]
        have hcongr : visible_cands E true pos s.input.sky_idx
            (Function.update s.input.occluded_lights i true) (List.enumFrom (i + 1) rest) =
            visible_cands E true pos s.input.sky_idx s.input.occluded_lights
              (List.enumFrom (i + 1) rest) := by
          apply visible_cands_congr
          intro p hp
          have := mem_enumFrom_ge _ _ _ hp
          rw [Function.update_noteq (by omega)]
        show with_bits _ (List.foldl _ (with_bits _ s) (List.take _ (visible_cands E true pos
          s.input.sky_idx (Function.update s.input.occluded_lights i true) _))) = _
        rw [hcongr, foldl_add_light_with_bits, with_bits_with_bits]
        congr 1
        rw [scan_bits, if_neg hroom, if_pos h2']
        rfl
      · rw [if_neg h2]
        by_cases h3 : s.input.occluded_lights i = true
        · -- occluded by the cached bit: the position did not change
          have hpc : pc = false := by
            cases pc
            · rfl
            · have := hbits rfl i (le_refl _)
              rw [this] at h3
              cases h3
          subst hpc
          have hocc : occluded_cand E false pos s.input.sky_idx s.input.occluded_lights (i, light)
              = true := by
            simp only [occluded_cand]; exact h3
          rw [if_pos h3, ih (i + 1) s (by intro h; cases h)]
          simp [active_cands, List.enumFrom_cons, visible_cands_cons, hocc]
        · -- the light is written
          rw [if_neg h3]
          have hocc : ¬ occluded_cand E pc pos s.input.sky_idx s.input.occluded_lights (i, light)
              = true := by
            cases pc
            · simp only [occluded_cand]; exact h3
            · simp only [occluded_cand, if_true]; simpa using h2
          rw [ih (i + 1) (add_light avg atten old light s) (by
            intro hpc j hj
            exact hbits hpc j (by omega))]
          have hlu : (add_light avg atten old light s).lights_updated = s.lights_updated + 1 := rfl
          have hsky : (add_light avg atten old light s).input.sky_idx = s.input.sky_idx := rfl
          have hb : (add_light avg atten old light s).input.occluded_lights
              = s.input.occluded_lights := rfl
          rw [hlu, hsky, hb]
          have hsub : E.MAX_ACTIVE_LIGHTS - s.lights_updated
              = (E.MAX_ACTIVE_LIGHTS - (s.lights_updated + 1)) + 1 := by omega
          simp only [active_cands, List.enumFrom_cons, visible_cands_cons, hocc, if_false,
            Bool.false_eq_true]
          rw [hsub, List.take_succ_cons, List.foldl_cons]
          congr 1
          by_cases hpc : pc = true
          · simp only [hpc, if_true]
            have h2' : ¬ (decide ((i : Int) ≠ s.input.sky_idx) && !is_light_visible E pos light)
                = true := by
              subst hpc; simpa using h2
            rw [scan_bits.eq_2, if_neg (by omega), if_neg h2']
            simp
          · simp [hpc]
    · simp only [h1, if_false]
      have : E.MAX_ACTIVE_LIGHTS - s.lights_updated = 0 := by omega
      rw [this]
      cases pc <;> simp [active_cands, scan_bits, with_bits]

theorem fade_lights_cons (E : Env) (atten : ℚ) (old : OldLights) (i : Nat) (rest : List Nat)
    (s : SlotLoop) :
    fade_lights E atten old (i :: rest) s =
      if s.matched i = true then fade_lights E atten old rest s
      else if ((old.old_lightdata i).row3).length_squared < 1 then
        fade_lights E atten old rest s
      else if s.lights_updated ≥ E.MAX_TOTAL_LIGHTS then s
      else fade_lights E atten old rest (fade_light atten old i s) := rfl

/-- The loop of line 706 writes the previous slots that qualify in order, as
long as there is room. -/
theorem fade_lights_eq (E : Env) (atten : ℚ) (old : OldLights) :
    ∀ (idxs : List Nat) (s : SlotLoop),
      fade_lights E atten old idxs s =
        (fade_cands old s.matched idxs (E.MAX_TOTAL_LIGHTS - s.lights_updated)).foldl
          (fun s i => fade_light atten old i s) s := by
  intro idxs
  induction idxs with
  | nil => intro s; simp [fade_lights, fade_cands]
  | cons i rest ih =>
    intro s
    rw [fade_lights_cons]
    by_cases h1 : s.matched i = true
    · rw [if_pos h1, ih s]
      simp [fade_cands, List.filter_cons, h1]
    · rw [if_neg h1]
      by_cases h2 : ((old.old_lightdata i).row3).length_squared < 1
      · rw [if_pos h2, ih s]
        simp [fade_cands, List.filter_cons, h2]
      · rw [if_neg h2]
        have hq : (!s.matched i && !decide (((old.old_lightdata i).row3).length_squared < 1))
            = true := by
          simp [h1, h2]
        by_cases h3 : s.lights_updated ≥ E.MAX_TOTAL_LIGHTS
        · rw [if_pos h3]
          have : E.MAX_TOTAL_LIGHTS - s.lights_updated = 0 := by omega
          simp [fade_cands, this]
        · rw [if_neg h3, ih]
          have hm : (fade_light atten old i s).matched = s.matched := rfl
          have hlu : (fade_light atten old i s).lights_updated = s.lights_updated + 1 := rfl
          have hsub : E.MAX_TOTAL_LIGHTS - s.lights_updated
              = (E.MAX_TOTAL_LIGHTS - (s.lights_updated + 1)) + 1 := by omega
          rw [hm, hlu]
          unfold fade_cands
          rw [List.filter_cons, if_pos hq, hsub, List.take_succ_cons, List.foldl_cons]

theorem overlay_nil {α : Type} (f : Nat → α) (n : Nat) : overlay f n [] = f := by
  funext k
  simp [overlay]

theorem overlay_cons {α : Type} (f : Nat → α) (n : Nat) (a : α) (xs : List α) :
    overlay (Function.update f n a) (n + 1) xs = overlay f n (a :: xs) := by
  funext k
  unfold overlay
  by_cases h1 : n + 1 ≤ k
  · have h2 : n ≤ k := by omega
    have h3 : k ≠ n := by omega
    have h4 : k - n = (k - (n + 1)) + 1 := by omega
    simp only [h1, h2, if_true, Function.update_noteq h3]
    rw [h4, List.getElem?_cons_succ]
  · by_cases h2 : n ≤ k
    · have h3 : k = n := by omega
      subst h3
      simp [h1]
    · have h3 : k ≠ n := by omega
      simp [h1, h2, Function.update_noteq h3]

theorem overlay_append {α : Type} (f : Nat → α) (xs ys : List α) :
    overlay (overlay f 0 xs) xs.length ys = overlay f 0 (xs ++ ys) := by
  funext k
  unfold overlay
  by_cases h : xs.length ≤ k
  · simp only [h, if_true, Nat.zero_le, Nat.sub_zero]
    rw [List.getElem?_append_right h]
    have : xs[k]? = none := List.getElem?_eq_none h
    simp [this]
  · have hk : k < xs.length := by omega
    simp only [h, if_false, Nat.zero_le, if_true, Nat.sub_zero]
    rw [List.getElem?_append_left hk]

theorem overlay_lt {α : Type} (f : Nat → α) (n : Nat) (xs : List α) (k : Nat) (h : k < n) :
    overlay f n xs k = f k := by
  simp [overlay, Nat.not_le.2 h]

theorem overlay_get {α : Type} (f : Nat → α) (xs : List α) (k : Nat) (h : k < xs.length) :
    overlay f 0 xs k = xs.get ⟨k, h⟩ := by
  simp [overlay, List.getElem?_eq_getElem h]

theorem overlay_ge {α : Type} (f : Nat → α) (n : Nat) (xs : List α) (k : Nat)
    (h : n + xs.length ≤ k) : overlay f n xs k = f k := by
  unfold overlay
  by_cases h1 : n ≤ k
  · have : xs[k - n]? = none := List.getElem?_eq_none (by omega)
    simp [h1, this]
  · simp [h1]

theorem add_light_eq (avg : Bool) (atten : ℚ) (old : OldLights) (light : light_t)
    (s : SlotLoop) :
    add_light avg atten old light s =
      { input := { s.input with
          light_type := Function.update s.input.light_type s.lights_updated light.type
          light_data := Function.update s.input.light_data s.lights_updated
            (packed_data avg atten old light)
          light_data2 := Function.update s.input.light_data2 s.lights_updated
            ⟨light.falloff2, light.falloff3⟩
          light_ids := Function.update s.input.light_ids s.lights_updated light.id
          active_lights := s.input.active_lights + 1 }
        lights_updated := s.lights_updated + 1
        matched := mark_matched avg old s.matched light } := by
  unfold add_light packed_data mark_matched interp_light
  rfl

/-- The slots after a run of the body of the loop of line 627. -/
theorem foldl_add_light_eq (avg : Bool) (atten : ℚ) (old : OldLights) :
    ∀ (ls : List (Nat × light_t)) (s : SlotLoop),
      ls.foldl (fun s p => add_light avg atten old p.2 s) s =
        { input := { s.input with
            light_type := overlay s.input.light_type s.lights_updated (ls.map (fun p => p.2.type))
            light_data := overlay s.input.light_data s.lights_updated
              (ls.map (fun p => packed_data avg atten old p.2))
            light_data2 := overlay s.input.light_data2 s.lights_updated
              (ls.map (fun p => (⟨p.2.falloff2, p.2.falloff3⟩ : LMatrix4_2)))
            light_ids := overlay s.input.light_ids s.lights_updated (ls.map (fun p => p.2.id))
            active_lights := s.input.active_lights + ls.length }
          lights_updated := s.lights_updated + ls.length
          matched := ls.foldl (fun m p => mark_matched avg old m p.2) s.matched } := by
  intro ls
  induction ls with
  | nil => intro s; simp [overlay_nil]
  | cons p ls ih =>
    intro s
    rw [List.foldl_cons, ih, add_light_eq]
    simp only [List.map_cons, List.length_cons, List.foldl_cons, overlay_cons]
    congr 1
    · congr 1; omega
    · omega

theorem fade_light_eq (atten : ℚ) (old : OldLights) (i : Nat) (s : SlotLoop) :
    fade_light atten old i s =
      { input := { s.input with
          light_type := Function.update s.input.light_type s.lights_updated (old.old_lighttype i)
          light_data := Function.update s.input.light_data s.lights_updated
            (faded_data atten old i)
          light_ids := Function.update s.input.light_ids s.lights_updated (old.old_lightids i) }
        lights_updated := s.lights_updated + 1
        matched := s.matched } := rfl

/-- The slots after a run of the body of the loop of line 706. -/
theorem foldl_fade_light_eq (atten : ℚ) (old : OldLights) :
    ∀ (idxs : List Nat) (s : SlotLoop),
      idxs.foldl (fun s i => fade_light atten old i s) s =
        { input := { s.input with
            light_type := overlay s.input.light_type s.lights_updated (idxs.map old.old_lighttype)
            light_data := overlay s.input.light_data s.lights_updated
              (idxs.map (faded_data atten old))
            light_ids := overlay s.input.light_ids s.lights_updated (idxs.map old.old_lightids) }
          lights_updated := s.lights_updated + idxs.length
          matched := s.matched } := by
  intro idxs
  induction idxs with
  | nil => intro s; simp [overlay_nil]
  | cons i idxs ih =>
    intro s
    rw [List.foldl_cons, ih, fade_light_eq]
    simp only [List.map_cons, List.length_cons, overlay_cons]
    congr 1
    omega

/-- The entry after the slot loops, in closed form. -/
theorem update_slots_eq (E : Env) (pc avg : Bool) (atten : ℚ) (pos : LVector3)
    (inp : nodeshaderinput_t) (hbits : pc = true → ∀ j, inp.occluded_lights j = false) :
    update_slots E pc avg atten pos inp =
      { inp with
        occluded_lights :=
          if pc = true then
            scan_bits E pos inp.sky_idx inp.locallights 0 E.MAX_ACTIVE_LIGHTS inp.occluded_lights
          else inp.occluded_lights
        active_lights := (slots_active E pc pos inp).length
        light_count := (slots_active E pc pos inp).length + (slots_fades E pc avg pos inp).length
        light_type := overlay (overlay inp.light_type 0
            ((slots_active E pc pos inp).map (fun p => p.2.type)))
          (slots_active E pc pos inp).length
          ((slots_fades E pc avg pos inp).map (copy_old inp).old_lighttype)
        light_data := overlay (overlay inp.light_data 0
            ((slots_active E pc pos inp).map (fun p => packed_data avg atten (copy_old inp) p.2)))
          (slots_active E pc pos inp).length
          ((slots_fades E pc avg pos inp).map (faded_data atten (copy_old inp)))
        light_data2 := overlay inp.light_data2 0
          ((slots_active E pc pos inp).map (fun p => (⟨p.2.falloff2, p.2.falloff3⟩ : LMatrix4_2)))
        light_ids := overlay (overlay inp.light_ids 0
            ((slots_active E pc pos inp).map (fun p => p.2.id)))
          (slots_active E pc pos inp).length
          ((slots_fades E pc avg pos inp).map (copy_old inp).old_lightids) } := by
  unfold update_slots
  simp only
  rw [add_lights_eq E pc avg atten pos (copy_old inp) inp.locallights 0 _
    (fun h j _ => hbits h j)]
  rw [foldl_add_light_eq]
  cases avg with
  | false =>
    simp [with_bits, slots_active, slots_fades, overlay_nil]
  | true =>
    simp only [if_true]
    rw [fade_lights_eq, foldl_fade_light_eq]
    simp [with_bits, slots_active, slots_fades, slots_matched, copy_old]

/-! ### The phases before the slot loops -/

theorem update_ac_eq (E : Env) (mgr : AmbientProbeManager) (pos : LVector3) (leaf : Nat)
    (inp : nodeshaderinput_t) :
    update_ac E mgr pos leaf inp = { inp with amb_probe := (update_ac E mgr pos leaf inp).amb_probe } := by
  unfold update_ac
  split <;> rfl

theorem update_envmap_eq (E : Env) (mgr : AmbientProbeManager) (pos : LVector3)
    (inp : nodeshaderinput_t) :
    update_envmap E mgr pos inp =
      { inp with cubemap := (update_envmap E mgr pos inp).cubemap
                 cubemap_changed := (update_envmap E mgr pos inp).cubemap_changed } := by
  unfold update_envmap
  split
  · split
    · rfl
    · split
      · rfl
      · split <;> rfl
  · rfl

theorem interp_ac_eq (E : Env) (avg : Bool) (atten : ℚ) (inp : nodeshaderinput_t) :
    interp_ac E avg atten inp
      = { inp with ambient_cube := (interp_ac E avg atten inp).ambient_cube } := by
  unfold interp_ac
  split <;> rfl

theorem update_locallights_eq (E : Env) (mgr : AmbientProbeManager) (pos : LVector3)
    (leaf : Nat) (inp : nodeshaderinput_t) :
    update_locallights E mgr pos leaf inp =
      { inp with occluded_lights := fun _ => false
                 locallights := (update_locallights E mgr pos leaf inp).locallights
                 sky_idx := (update_locallights E mgr pos leaf inp).sky_idx } := by
  unfold update_locallights
  simp only
  split
  · split <;> rfl
  · rfl

/-- The slot arrays and counters are not touched before the slot loops. -/
theorem pre_slots_slots (E : Env) (now : ℚ) (mgr : AmbientProbeManager) (t : TransformState)
    (pc : Bool) (inp : nodeshaderinput_t) :
    (pre_slots E now mgr t pc inp).light_count = inp.light_count ∧
    (pre_slots E now mgr t pc inp).active_lights = inp.active_lights ∧
    (pre_slots E now mgr t pc inp).light_ids = inp.light_ids ∧
    (pre_slots E now mgr t pc inp).light_type = inp.light_type ∧
    (pre_slots E now mgr t pc inp).light_data = inp.light_data ∧
    (pre_slots E now mgr t pc inp).light_data2 = inp.light_data2 ∧
    (pre_slots E now mgr t pc inp).node_sequence = inp.node_sequence ∧
    (pre_slots E now mgr t pc inp).state_with_input = inp.state_with_input := by
  unfold pre_slots
  simp only
  cases pc
  · simp only [Bool.false_eq_true, if_false]
    rw [interp_ac_eq]
    simp
  · simp only [if_true]
    rw [update_locallights_eq, interp_ac_eq, update_envmap_eq, update_ac_eq]
    simp

theorem copy_old_pre_slots (E : Env) (now : ℚ) (mgr : AmbientProbeManager) (t : TransformState)
    (pc : Bool) (inp : nodeshaderinput_t) :
    copy_old (pre_slots E now mgr t pc inp) = copy_old inp := by
  obtain ⟨h1, h2, h3, h4, h5, _⟩ := pre_slots_slots E now mgr t pc inp
  simp [copy_old, h1, h2, h3, h4, h5]

theorem pre_slots_bits_changed (E : Env) (now : ℚ) (mgr : AmbientProbeManager)
    (t : TransformState) (inp : nodeshaderinput_t) :
    (pre_slots E now mgr t true inp).occluded_lights = fun _ => false := by
  unfold pre_slots
  simp only [if_true]
  rw [update_locallights_eq]

theorem pre_slots_unchanged (E : Env) (now : ℚ) (mgr : AmbientProbeManager)
    (t : TransformState) (inp : nodeshaderinput_t) :
    (pre_slots E now mgr t false inp).occluded_lights = inp.occluded_lights ∧
    (pre_slots E now mgr t false inp).locallights = inp.locallights ∧
    (pre_slots E now mgr t false inp).sky_idx = inp.sky_idx ∧
    (pre_slots E now mgr t false inp).amb_probe = inp.amb_probe ∧
    (pre_slots E now mgr t false inp).cubemap = inp.cubemap := by
  unfold pre_slots
  simp only [Bool.false_eq_true, if_false]
  rw [interp_ac_eq]
  simp

theorem pre_slots_bits (E : Env) (now : ℚ) (mgr : AmbientProbeManager) (t : TransformState)
    (pc : Bool) (inp : nodeshaderinput_t) :
    pc = true → ∀ j, (pre_slots E now mgr t pc inp).occluded_lights j = false := by
  intro h j
  subst h
  rw [pre_slots_bits_changed]

/-- The entry after a call, in closed form over the entry before the slot
loops. -/
theorem update_input_eq (E : Env) (now : ℚ) (mgr : AmbientProbeManager) (t : TransformState)
    (pc : Bool) (inp : nodeshaderinput_t) :
    update_input E now mgr t pc inp =
      update_slots E pc E.cfg_lightaverage (atten_of E now inp) t.pos
        (pre_slots E now mgr t pc inp) := rfl

/-- C2: the number of active slots written by a call is the smaller of
`MAX_ACTIVE_LIGHTS` and the number of candidates of the list that are not
occluded (by the test of this call when the position changed, by the cached
bit otherwise); so it never exceeds `MAX_ACTIVE_LIGHTS` and equals it when
that many candidates are not occluded. -/
theorem C2_active_lights_count (E : Env) (now : ℚ) (mgr : AmbientProbeManager) (node : NodeId)
    (curr_trans : TransformState) :
    ∃ e : nodeshaderinput_t,
      entry_of (update_node E now mgr (some node) (some curr_trans)).1 node = some e ∧
      e.active_lights = min E.MAX_ACTIVE_LIGHTS
        (visible_cands E (call_pos_changed E mgr node curr_trans) curr_trans.pos e.sky_idx
          (call_input mgr node).occluded_lights e.locallights.enum).length ∧
      e.active_lights ≤ E.MAX_ACTIVE_LIGHTS ∧
      (E.MAX_ACTIVE_LIGHTS ≤
        (visible_cands E (call_pos_changed E mgr node curr_trans) curr_trans.pos e.sky_idx
          (call_input mgr node).occluded_lights e.locallights.enum).length →
        e.active_lights = E.MAX_ACTIVE_LIGHTS) := by
  refine ⟨_, entry_of_update_node E now mgr node curr_trans, ?_⟩
  have hcount : (update_input E now mgr curr_trans (call_pos_changed E mgr node curr_trans)
      (call_input mgr node)).active_lights = min E.MAX_ACTIVE_LIGHTS
        (visible_cands E (call_pos_changed E mgr node curr_trans) curr_trans.pos
          (update_input E now mgr curr_trans (call_pos_changed E mgr node curr_trans)
            (call_input mgr node)).sky_idx
          (call_input mgr node).occluded_lights
          (update_input E now mgr curr_trans (call_pos_changed E mgr node curr_trans)
            (call_input mgr node)).locallights.enum).length := by
    rw [update_input_eq, update_slots_eq _ _ _ _ _ _ (pre_slots_bits E now mgr curr_trans _ _)]
    simp only [slots_active, active_cands, List.length_take, List.enum]
    cases hpc : call_pos_changed E mgr node curr_trans
    · rw [(pre_slots_unchanged E now mgr curr_trans _).1]
    · rw [pre_slots_bits_changed]
      congr 2
  refine ⟨hcount, ?_, ?_⟩
  · rw [hcount]; exact min_le_left _ _
  · intro h
    rw [hcount]; exact min_eq_left h

/-- The slot loops leave the other fields of the entry alone. -/
theorem update_input_fields (E : Env) (now : ℚ) (mgr : AmbientProbeManager) (t : TransformState)
    (pc : Bool) (inp : nodeshaderinput_t) :
    (update_input E now mgr t pc inp).locallights = (pre_slots E now mgr t pc inp).locallights ∧
    (update_input E now mgr t pc inp).sky_idx = (pre_slots E now mgr t pc inp).sky_idx ∧
    (update_input E now mgr t pc inp).amb_probe = (pre_slots E now mgr t pc inp).amb_probe ∧
    (update_input E now mgr t pc inp).cubemap = (pre_slots E now mgr t pc inp).cubemap ∧
    (update_input E now mgr t pc inp).cubemap_changed
      = (pre_slots E now mgr t pc inp).cubemap_changed ∧
    (update_input E now mgr t pc inp).ambient_cube
      = (pre_slots E now mgr t pc inp).ambient_cube ∧
    (update_input E now mgr t pc inp).lighting_time
      = (pre_slots E now mgr t pc inp).lighting_time := by
  rw [update_input_eq, update_slots_eq _ _ _ _ _ _ (pre_slots_bits E now mgr t _ _)]
  exact ⟨rfl, rfl, rfl, rfl, rfl, rfl, rfl⟩

theorem pre_slots_locallights_changed (E : Env) (now : ℚ) (mgr : AmbientProbeManager)
    (t : TransformState) (inp : nodeshaderinput_t) :
    (pre_slots E now mgr t true inp).locallights =
      (match (if is_sky_visible E mgr t.pos = true then mgr._sunlight else none) with
        | some sun => sun :: sort_lights t.pos (mgr._light_pvs.getD (E.find_leaf t.pos) [])
        | none => sort_lights t.pos (mgr._light_pvs.getD (E.find_leaf t.pos) [])) ∧
    (pre_slots E now mgr t true inp).sky_idx =
      (if is_sky_visible E mgr t.pos = true then 0 else -1) := by
  unfold pre_slots
  simp only [if_true]
  unfold update_locallights
  simp only
  by_cases h : is_sky_visible E mgr t.pos = true
  · simp only [h, if_true]
    cases hs : mgr._sunlight <;> simp
  · simp only [h, if_false]
    simp

theorem is_sky_visible_sun (E : Env) (mgr : AmbientProbeManager) (pos : LVector3)
    (h : is_sky_visible E mgr pos = true) : ∃ sun, mgr._sunlight = some sun := by
  unfold is_sky_visible at h
  cases hs : mgr._sunlight with
  | none => rw [hs] at h; simp at h
  | some sun => exact ⟨sun, rfl⟩

theorem sort_insert_perm (pos : LVector3) (a : light_t) (l : List light_t) :
    (sort_insert pos a l).Perm (a :: l) := by
  induction l with
  | nil => exact List.Perm.refl _
  | cons b rest ih =>
    unfold sort_insert
    split
    · exact (List.Perm.cons b ih).trans (List.Perm.swap a b rest)
    · exact List.Perm.refl _

theorem sort_lights_perm (pos : LVector3) (l : List light_t) : (sort_lights pos l).Perm l := by
  induction l with
  | nil => exact List.Perm.refl _
  | cons a rest ih =>
    unfold sort_lights
    exact (sort_insert_perm pos a _).trans (List.Perm.cons a ih)

/-- C4: in a call that finds the position changed, when the sky is visible
from the object the sun is the candidate at index 0, in front of the sorted
lights of the leaf, and the sky index is 0; when it is not visible the sky
index is -1 and the candidate list is a rearrangement of the lights listed
for the leaf, so it holds no sun when that list holds none. -/
theorem C4_sky_precedence (E : Env) (now : ℚ) (mgr : AmbientProbeManager) (node : NodeId)
    (curr_trans : TransformState) (hpc : call_pos_changed E mgr node curr_trans = true) :
    ∃ e : nodeshaderinput_t,
      entry_of (update_node E now mgr (some node) (some curr_trans)).1 node = some e ∧
      (is_sky_visible E mgr curr_trans.pos = true →
        ∃ sun, mgr._sunlight = some sun ∧
          e.locallights = sun :: sort_lights curr_trans.pos
            (mgr._light_pvs.getD (E.find_leaf curr_trans.pos) []) ∧
          e.locallights[0]? = some sun ∧ e.sky_idx = 0) ∧
      (is_sky_visible E mgr curr_trans.pos = false →
        e.sky_idx = -1 ∧
        e.locallights.Perm (mgr._light_pvs.getD (E.find_leaf curr_trans.pos) []) ∧
        ((∀ l ∈ mgr._light_pvs.getD (E.find_leaf curr_trans.pos) [], l.type ≠ LightType.sun) →
          ∀ l ∈ e.locallights, l.type ≠ LightType.sun)) := by
  refine ⟨_, entry_of_update_node E now mgr node curr_trans, ?_, ?_⟩
  · intro hsky
    obtain ⟨sun, hsun⟩ := is_sky_visible_sun E mgr _ hsky
    obtain ⟨h1, h2, _⟩ := update_input_fields E now mgr curr_trans
      (call_pos_changed E mgr node curr_trans) (call_input mgr node)
    rw [hpc] at h1 h2
    rw [(pre_slots_locallights_changed E now mgr curr_trans _).1] at h1
    rw [(pre_slots_locallights_changed E now mgr curr_trans _).2] at h2
    simp only [hsky, if_true, hsun] at h1 h2
    rw [hpc]
    exact ⟨sun, hsun, h1, by rw [h1]; simp, h2⟩
  · intro hsky
    obtain ⟨h1, h2, _⟩ := update_input_fields E now mgr curr_trans
      (call_pos_changed E mgr node curr_trans) (call_input mgr node)
    rw [hpc] at h1 h2
    rw [(pre_slots_locallights_changed E now mgr curr_trans _).1] at h1
    rw [(pre_slots_locallights_changed E now mgr curr_trans _).2] at h2
    simp only [hsky, Bool.false_eq_true, if_false] at h1 h2
    rw [hpc]
    refine ⟨h2, ?_, ?_⟩
    · rw [h1]; exact sort_lights_perm _ _
    · intro hno l hl
      rw [h1] at hl
      exact hno l ((sort_lights_perm _ _).mem_iff.1 hl)

/-- C4, at the first call for node 7 at the origin of the example level: the
sky is visible, the position counts as changed, and the sun (light 1) heads
the candidate list before the nearer point light. -/
theorem C4_sky_precedence_witness :
    call_pos_changed demo_env demo_mgr 7 ⟨⟨0, 0, 0⟩⟩ = true ∧
    is_sky_visible demo_env demo_mgr ⟨0, 0, 0⟩ = true ∧
    ∃ e : nodeshaderinput_t,
      entry_of (update_node demo_env 1 demo_mgr (some 7) (some ⟨⟨0, 0, 0⟩⟩)).1 7 = some e ∧
      e.locallights.map (fun l => l.id) = [1, 2, 3] ∧ e.sky_idx = 0 := by
  obtain ⟨e, he, hsky, _⟩ :=
    C4_sky_precedence demo_env 1 demo_mgr 7 ⟨⟨0, 0, 0⟩⟩ (by decide!)
  obtain ⟨sun, hsun, hl, _, hidx⟩ := hsky (by decide!)
  refine ⟨by decide!, by decide!, e, he, ?_, hidx⟩
  rw [hl]
  have hs : demo_mgr._sunlight.map (fun l => l.id) = some 1 := by decide!
  rw [hsun] at hs
  have hr : (sort_lights (⟨⟨0, 0, 0⟩⟩ : TransformState).pos
      (demo_mgr._light_pvs.getD (demo_env.find_leaf (⟨⟨0, 0, 0⟩⟩ : TransformState).pos) [])).map
      (fun l => l.id) = [2, 3] := by decide!
  simp only [List.map_cons, hr]
  simp only [Option.map_some', Option.some.injEq] at hs
  rw [hs]

theorem pre_slots_amb_probe_changed (E : Env) (now : ℚ) (mgr : AmbientProbeManager)
    (t : TransformState) (inp : nodeshaderinput_t) :
    (pre_slots E now mgr t true inp).amb_probe =
      if (mgr._probes (E.find_leaf t.pos)).length > 0 then
        (find_closest_in_kdtree E mgr._probe_kdtree t.pos).bind (fun i => mgr._all_probes.get? i)
      else inp.amb_probe := by
  unfold pre_slots
  simp only [if_true]
  rw [update_locallights_eq, interp_ac_eq, update_envmap_eq]
  simp only
  unfold update_ac
  split <;> rfl

/-- C5, as the code has it: in a call that finds the position changed and
whose leaf has at least one probe, when the probe tree holds the positions of
the flattened catalog in order and its query returns the index of a point at
least distance, the probe selected afterwards is a probe of the catalog at
least distance from the object. -/
theorem C5_nearest_probe (E : Env) (now : ℚ) (mgr : AmbientProbeManager) (node : NodeId)
    (curr_trans : TransformState) (tree : KDTree) (p0 : LVector3)
    (hpc : call_pos_changed E mgr node curr_trans = true)
    (hleaf : 0 < (mgr._probes (E.find_leaf curr_trans.pos)).length)
    (htree : mgr._probe_kdtree = some tree)
    (hpts : tree.points = mgr._all_probes.map (fun p => p.pos))
    (hq : tree.points[E.kd_query tree curr_trans.pos]? = some p0)
    (hmin : ∀ q ∈ tree.points, dist2 p0 curr_trans.pos ≤ dist2 q curr_trans.pos) :
    ∃ (e : nodeshaderinput_t) (p : ambientprobe_t),
      entry_of (update_node E now mgr (some node) (some curr_trans)).1 node = some e ∧
      e.amb_probe = some p ∧ p ∈ mgr._all_probes ∧
      mgr._all_probes[E.kd_query tree curr_trans.pos]? = some p ∧
      ∀ q ∈ mgr._all_probes, dist2 p.pos curr_trans.pos ≤ dist2 q.pos curr_trans.pos := by
  have hamb := (update_input_fields E now mgr curr_trans
    (call_pos_changed E mgr node curr_trans) (call_input mgr node)).2.2.1
  rw [hpc, pre_slots_amb_probe_changed] at hamb
  rw [if_pos hleaf, htree] at hamb
  simp only [find_closest_in_kdtree, Option.some_bind] at hamb
  rw [hpts, List.getElem?_map] at hq
  obtain ⟨p, hg⟩ : ∃ p, mgr._all_probes[E.kd_query tree curr_trans.pos]? = some p := by
    cases hg : mgr._all_probes[E.kd_query tree curr_trans.pos]? with
    | none => rw [hg] at hq; simp at hq
    | some p => exact ⟨p, rfl⟩
  rw [hg] at hq
  simp only [Option.map_some', Option.some.injEq] at hq
  refine ⟨_, p, entry_of_update_node E now mgr node curr_trans, ?_, ?_, hg, ?_⟩
  · rw [hpc, hamb, List.get?_eq_getElem?, hg]
  · exact List.mem_iff_getElem?.2 ⟨_, hg⟩
  · intro q hqm
    rw [hq]
    exact hmin q.pos (by rw [hpts]; exact List.mem_map_of_mem _ hqm)

/-- C5, at the example level with probes at (0, 0, 0) and (10, 0, 0): a new
object at (1, 0, 0) selects the first probe, and a new object at (9, 0, 0)
selects the second. -/
theorem C5_nearest_probe_witness :
    demo_mgr._all_probes.map (fun p => p.pos) = [⟨0, 0, 0⟩, ⟨10, 0, 0⟩] ∧
    (∃ (e : nodeshaderinput_t) (p : ambientprobe_t),
      entry_of (update_node demo_env 1 demo_mgr (some 7) (some ⟨⟨1, 0, 0⟩⟩)).1 7 = some e ∧
      e.amb_probe = some p ∧ demo_mgr._all_probes[0]? = some p) ∧
    (entry_of (update_node demo_env 1 demo_mgr (some 8) (some ⟨⟨9, 0, 0⟩⟩)).1 8).map
      (fun e => e.amb_probe.map (fun p => p.pos)) = some (some ⟨10, 0, 0⟩) := by
  refine ⟨by decide!, ?_, by decide!⟩
  obtain ⟨e, p, he, hp, _, hidx, _⟩ :=
    C5_nearest_probe demo_env 1 demo_mgr 7 ⟨⟨1, 0, 0⟩⟩ ⟨[⟨0, 0, 0⟩, ⟨10, 0, 0⟩]⟩ ⟨0, 0, 0⟩
      (by decide!) (by decide!) (by decide!) (by decide!) (by decide!) (by decide!)
  refine ⟨e, p, he, hp, ?_⟩
  have h0 : demo_env.kd_query ⟨[⟨0, 0, 0⟩, ⟨10, 0, 0⟩]⟩ (⟨⟨1, 0, 0⟩⟩ : TransformState).pos = 0 := by
    decide!
  rw [h0] at hidx
  exact hidx

/-- C5 fails as stated: the catalog of the example level holds two probes,
but leaf 2 holds none, and a new object at (300, 0, 0) in leaf 2 is left
without a probe by its first call. -/
theorem C5_counterexample :
    demo_mgr._all_probes.length = 2 ∧
    call_pos_changed demo_env demo_mgr 7 ⟨⟨300, 0, 0⟩⟩ = true ∧
    (entry_of (update_node demo_env 1 demo_mgr (some 7) (some ⟨⟨300, 0, 0⟩⟩)).1 7).map
      (fun e => e.amb_probe.isNone) = some true := by
  decide!

/-- The cubemap of the entry after the cubemap step of a call. -/
theorem update_envmap_cases (E : Env) (mgr : AmbientProbeManager) (pos : LVector3)
    (inp : nodeshaderinput_t) :
    ((update_envmap E mgr pos inp).cubemap = inp.cubemap ∧
      (update_envmap E mgr pos inp).cubemap_changed = inp.cubemap_changed) ∨
    (∃ (i : Nat) (cm : cubemap_t),
      0 < mgr._cubemaps.length ∧
      find_closest_in_kdtree E mgr._envmap_kdtree pos = some i ∧
      mgr._cubemaps[i]? = some cm ∧ cm.has_full_cubemap = true ∧ some i ≠ inp.cubemap ∧
      (update_envmap E mgr pos inp).cubemap = some i ∧
      (update_envmap E mgr pos inp).cubemap_changed = true) := by
  unfold update_envmap
  by_cases h0 : mgr._cubemaps.length > 0
  · rw [if_pos h0]
    cases hf : find_closest_in_kdtree E mgr._envmap_kdtree pos with
    | none => exact Or.inl ⟨rfl, rfl⟩
    | some i =>
      simp only
      cases hg : mgr._cubemaps.get? i with
      | none => exact Or.inl ⟨rfl, rfl⟩
      | some cm =>
        simp only
        by_cases hc : cm.has_full_cubemap = true ∧ some i ≠ inp.cubemap
        · rw [if_pos hc]
          refine Or.inr ⟨i, cm, h0, rfl, ?_, hc.1, hc.2, rfl, rfl⟩
          rw [← List.get?_eq_getElem?]; exact hg
        · rw [if_neg hc]
          exact Or.inl ⟨rfl, rfl⟩
  · rw [if_neg h0]
    exact Or.inl ⟨rfl, rfl⟩

theorem pre_slots_cubemap (E : Env) (now : ℚ) (mgr : AmbientProbeManager)
    (t : TransformState) (pc : Bool) (inp : nodeshaderinput_t) :
    ((pre_slots E now mgr t pc inp).cubemap = inp.cubemap ∧
      (pre_slots E now mgr t pc inp).cubemap_changed = false) ∨
    (∃ (i : Nat) (cm : cubemap_t),
      pc = true ∧ 0 < mgr._cubemaps.length ∧
      find_closest_in_kdtree E mgr._envmap_kdtree t.pos = some i ∧
      mgr._cubemaps[i]? = some cm ∧ cm.has_full_cubemap = true ∧ some i ≠ inp.cubemap ∧
      (pre_slots E now mgr t pc inp).cubemap = some i ∧
      (pre_slots E now mgr t pc inp).cubemap_changed = true) := by
  cases pc with
  | false =>
    left
    unfold pre_slots
    simp only [Bool.false_eq_true, if_false]
    rw [interp_ac_eq]
    exact ⟨rfl, rfl⟩
  | true =>
    have hpre : (pre_slots E now mgr t true inp).cubemap =
        (update_envmap E mgr t.pos (update_ac E mgr t.pos (E.find_leaf t.pos)
          { inp with cubemap_changed := false
                     lighting_time := if now - inp.lighting_time ≤ 0 then inp.lighting_time
                       else now })).cubemap ∧
        (pre_slots E now mgr t true inp).cubemap_changed =
        (update_envmap E mgr t.pos (update_ac E mgr t.pos (E.find_leaf t.pos)
          { inp with cubemap_changed := false
                     lighting_time := if now - inp.lighting_time ≤ 0 then inp.lighting_time
                       else now })).cubemap_changed := by
      unfold pre_slots
      simp only [if_true]
      rw [update_locallights_eq, interp_ac_eq]
      exact ⟨rfl, rfl⟩
    have hac : (update_ac E mgr t.pos (E.find_leaf t.pos)
          { inp with cubemap_changed := false
                     lighting_time := if now - inp.lighting_time ≤ 0 then inp.lighting_time
                       else now }).cubemap = inp.cubemap ∧
        (update_ac E mgr t.pos (E.find_leaf t.pos)
          { inp with cubemap_changed := false
                     lighting_time := if now - inp.lighting_time ≤ 0 then inp.lighting_time
                       else now }).cubemap_changed = false := by
      rw [update_ac_eq]
      exact ⟨rfl, rfl⟩
    rw [hpre.1, hpre.2]
    rcases update_envmap_cases E mgr t.pos (update_ac E mgr t.pos (E.find_leaf t.pos)
          { inp with cubemap_changed := false
                     lighting_time := if now - inp.lighting_time ≤ 0 then inp.lighting_time
                       else now }) with h | ⟨i, cm, h0, hf, hg, hfull, hne, hc, hch⟩
    · left
      rw [h.1, h.2]
      exact hac
    · right
      rw [hac.1] at hne
      exact ⟨i, cm, rfl, h0, hf, hg, hfull, hne, hc, hch⟩

theorem make_cubemap_full (E : Env) (dcm : dcubemap_t) :
    (make_cubemap E dcm).has_full_cubemap = true ↔ ∀ j, j < 6 → dcm.imgofs j ≠ -1 := by
  unfold make_cubemap
  simp only [List.range, List.range.loop, List.foldl]
  constructor
  · intro h j hj
    interval_cases j <;> intro hj' <;> simp [hj'] at h
  · intro h
    have h0 := h 0 (by omega); have h1 := h 1 (by omega); have h2 := h 2 (by omega)
    have h3 := h 3 (by omega); have h4 := h 4 (by omega); have h5 := h 5 (by omega)
    simp [h0, h1, h2, h3, h4, h5]

theorem update_found_catalogs (E : Env) (now : ℚ) (mgr : AmbientProbeManager) (node : NodeId)
    (t : TransformState) (ni : Bool) (inp : nodeshaderinput_t) :
    (update_found E now mgr node t ni inp).1._cubemaps = mgr._cubemaps ∧
    (update_found E now mgr node t ni inp).1._light_pvs = mgr._light_pvs ∧
    (update_found E now mgr node t ni inp).1._sunlight = mgr._sunlight ∧
    (update_found E now mgr node t ni inp).1._all_probes = mgr._all_probes ∧
    (update_found E now mgr node t ni inp).1._probes = mgr._probes ∧
    (update_found E now mgr node t ni inp).1._probe_kdtree = mgr._probe_kdtree ∧
    (update_found E now mgr node t ni inp).1._envmap_kdtree = mgr._envmap_kdtree ∧
    (update_found E now mgr node t ni inp).1._all_lights = mgr._all_lights :=
  ⟨rfl, rfl, rfl, rfl, rfl, rfl, rfl, rfl⟩

/-- A call leaves the catalogs of the manager as they were. -/
theorem update_node_catalogs (E : Env) (now : ℚ) (mgr : AmbientProbeManager)
    (node : Option NodeId) (t : Option TransformState) :
    (update_node E now mgr node t).1._cubemaps = mgr._cubemaps ∧
    (update_node E now mgr node t).1._light_pvs = mgr._light_pvs ∧
    (update_node E now mgr node t).1._sunlight = mgr._sunlight ∧
    (update_node E now mgr node t).1._all_probes = mgr._all_probes ∧
    (update_node E now mgr node t).1._probes = mgr._probes ∧
    (update_node E now mgr node t).1._probe_kdtree = mgr._probe_kdtree ∧
    (update_node E now mgr node t).1._envmap_kdtree = mgr._envmap_kdtree ∧
    (update_node E now mgr node t).1._all_lights = mgr._all_lights := by
  unfold update_node
  cases node with
  | none => exact ⟨rfl, rfl, rfl, rfl, rfl, rfl, rfl, rfl⟩
  | some node =>
    cases t with
    | none => exact ⟨rfl, rfl, rfl, rfl, rfl, rfl, rfl, rfl⟩
    | some t =>
      simp only
      cases mgr._node_data.find node with
      | none => exact update_found_catalogs E now _ node t true _
      | some itr =>
        simp only
        cases mgr._node_data.get_data itr with
        | none => exact ⟨rfl, rfl, rfl, rfl, rfl, rfl, rfl, rfl⟩
        | some inp => exact update_found_catalogs E now mgr node t false inp

theorem update_found_entry_ne (E : Env) (now : ℚ) (mgr : AmbientProbeManager) (node : NodeId)
    (t : TransformState) (ni : Bool) (inp : nodeshaderinput_t) (node' : NodeId)
    (hne : node' ≠ node) :
    entry_of (update_found E now mgr node t ni inp).1 node' = entry_of mgr node' := by
  simp [update_found, entry_of, SimpleHashMap.lookup_store_ne _ _ _ _ hne]

/-- A call for a node leaves the entries of the other nodes as they were. -/
theorem entry_of_update_node_ne (E : Env) (now : ℚ) (mgr : AmbientProbeManager) (node : NodeId)
    (t : TransformState) (node' : NodeId) (hne : node' ≠ node) :
    entry_of (update_node E now mgr (some node) (some t)).1 node' = entry_of mgr node' := by
  unfold update_node
  simp only
  cases mgr._node_data.find node with
  | none =>
    simp only
    rw [update_found_entry_ne _ _ _ _ _ _ _ _ hne]
    simp [entry_of, SimpleHashMap.lookup_store_ne _ _ _ _ hne]
  | some itr =>
    simp only
    cases mgr._node_data.get_data itr with
    | none => rfl
    | some inp => exact update_found_entry_ne _ _ _ _ _ _ _ _ hne

theorem call_input_of_some (mgr : AmbientProbeManager) (node : NodeId) (e : nodeshaderinput_t)
    (h : entry_of mgr node = some e) : call_input mgr node = e := by
  simp [call_input, h]

theorem call_input_cubemap_new (mgr : AmbientProbeManager) (node : NodeId)
    (h : entry_of mgr node = none) : (call_input mgr node).cubemap = none := by
  simp [call_input, h, nodeshaderinput_t.fresh]

/-- The cubemap of the entry after a call. -/
theorem update_node_cubemap (E : Env) (now : ℚ) (mgr : AmbientProbeManager) (node : NodeId)
    (t : TransformState) :
    ∃ e : nodeshaderinput_t,
      entry_of (update_node E now mgr (some node) (some t)).1 node = some e ∧
      ((e.cubemap = (call_input mgr node).cubemap ∧ e.cubemap_changed = false) ∨
        (∃ (i : Nat) (cm : cubemap_t),
          call_pos_changed E mgr node t = true ∧ 0 < mgr._cubemaps.length ∧
          find_closest_in_kdtree E mgr._envmap_kdtree t.pos = some i ∧
          mgr._cubemaps[i]? = some cm ∧ cm.has_full_cubemap = true ∧
          some i ≠ (call_input mgr node).cubemap ∧
          e.cubemap = some i ∧ e.cubemap_changed = true)) := by
  refine ⟨_, entry_of_update_node E now mgr node t, ?_⟩
  obtain ⟨_, _, _, h4, h5, _⟩ := update_input_fields E now mgr t
    (call_pos_changed E mgr node t) (call_input mgr node)
  rw [h4, h5]
  exact pre_slots_cubemap E now mgr t _ _

theorem update_node_cubemaps_full (E : Env) (now : ℚ) (mgr : AmbientProbeManager)
    (node : Option NodeId) (t : Option TransformState) (h : cubemaps_full mgr) :
    cubemaps_full (update_node E now mgr node t).1 := by
  cases node with
  | none => exact h
  | some node =>
    cases t with
    | none => exact h
    | some t =>
      intro node' e' he'
      rw [(update_node_catalogs E now mgr (some node) (some t)).1]
      by_cases hn : node' = node
      · subst hn
        obtain ⟨e, he, hcases⟩ := update_node_cubemap E now mgr node' t
        rw [he] at he'
        cases he'
        rcases hcases with ⟨hsame, _⟩ | ⟨i, cm, _, _, _, hg, hfull, _, hc, _⟩
        · rw [hsame]
          cases hold : entry_of mgr node' with
          | none => left; exact call_input_cubemap_new mgr node' hold
          | some e0 =>
            rw [call_input_of_some mgr node' e0 hold]
            exact h node' e0 hold
        · exact Or.inr ⟨i, cm, hc, hg, hfull⟩
      · rw [entry_of_update_node_ne E now mgr node t node' hn] at he'
        exact h node' e' he'

theorem cubemaps_full_of_empty (mgr : AmbientProbeManager) (h : mgr._node_data = []) :
    cubemaps_full mgr := by
  intro node e he
  rw [entry_of, h] at he
  cases he

theorem run_updates_cubemaps_full (E : Env)
    (calls : List (ℚ × Option NodeId × Option TransformState)) :
    ∀ mgr : AmbientProbeManager, cubemaps_full mgr → cubemaps_full (run_updates E mgr calls) := by
  induction calls with
  | nil => intro mgr h; exact h
  | cons c rest ih =>
    intro mgr h
    exact ih _ (update_node_cubemaps_full E c.1 mgr c.2.1 c.2.2 h)

/-- C10: a call replaces the selected cubemap of the entry only by the cubemap
the nearest-cubemap query returns, and only when that cubemap has all six
faces and is not the one selected; `cubemap_changed` is true after the call
exactly when the selected cubemap was replaced; a new entry starts without a
cubemap, so after any sequence of calls every entry has no cubemap or a
cubemap with all six faces; and `load_cubemaps` sets the flag exactly for the
records without a missing face. -/
theorem C10_cubemap_adoption (E : Env) (now : ℚ) (mgr : AmbientProbeManager) (node : NodeId)
    (curr_trans : TransformState) :
    (∃ e : nodeshaderinput_t,
      entry_of (update_node E now mgr (some node) (some curr_trans)).1 node = some e ∧
      ((e.cubemap = (call_input mgr node).cubemap ∧ e.cubemap_changed = false) ∨
        (∃ (i : Nat) (cm : cubemap_t),
          call_pos_changed E mgr node curr_trans = true ∧ 0 < mgr._cubemaps.length ∧
          find_closest_in_kdtree E mgr._envmap_kdtree curr_trans.pos = some i ∧
          mgr._cubemaps[i]? = some cm ∧ cm.has_full_cubemap = true ∧
          some i ≠ (call_input mgr node).cubemap ∧
          e.cubemap = some i ∧ e.cubemap_changed = true)) ∧
      (e.cubemap_changed = true ↔ e.cubemap ≠ (call_input mgr node).cubemap)) ∧
    (entry_of mgr node = none → (call_input mgr node).cubemap = none) ∧
    (∀ calls : List (ℚ × Option NodeId × Option TransformState),
      cubemaps_full mgr → cubemaps_full (run_updates E mgr calls)) ∧
    (∀ calls : List (ℚ × Option NodeId × Option TransformState),
      mgr._node_data = [] → cubemaps_full (run_updates E mgr calls)) ∧
    (∀ dcm : dcubemap_t,
      (make_cubemap E dcm).has_full_cubemap = true ↔ ∀ j, j < 6 → dcm.imgofs j ≠ -1) := by
  refine ⟨?_, call_input_cubemap_new mgr node, fun calls h =>
    run_updates_cubemaps_full E calls mgr h, fun calls h =>
    run_updates_cubemaps_full E calls mgr (cubemaps_full_of_empty mgr h), make_cubemap_full E⟩
  obtain ⟨e, he, hcases⟩ := update_node_cubemap E now mgr node curr_trans
  refine ⟨e, he, hcases, ?_⟩
  rcases hcases with ⟨hsame, hch⟩ | ⟨i, cm, _, _, _, _, _, hne, hc, hch⟩
  · rw [hsame, hch]; simp
  · rw [hc, hch]
    simp only [true_iff]
    exact hne

theorem find_old_some (old : OldLights) (id : Int) (j : Nat) (h : find_old old id = some j) :
    old.old_lightids j = id ∧ j < old.old_lightcount := by
  unfold find_old at h
  have h1 := List.find?_some h
  have h2 := List.mem_of_find?_eq_some h
  simp only [decide_eq_true_eq] at h1
  exact ⟨h1, List.mem_range.1 h2⟩

theorem mark_matched_true (old : OldLights) (m : Nat → Bool) (l : light_t) (j : Nat) :
    mark_matched true old m l j = true ↔
      (m j = true ∨ (find_old old l.id = some j ∧ j < old.old_activelights)) := by
  unfold mark_matched
  simp only [if_true]
  cases hf : find_old old l.id with
  | none => simp
  | some i =>
    simp only
    by_cases hi : i < old.old_activelights
    · rw [if_pos hi]
      by_cases hij : j = i
      · subst hij; simp [hi]
      · rw [Function.update_noteq hij]
        have : ¬ i = j := fun h => hij h.symm
        simp [this]
    · rw [if_neg hi]
      constructor
      · intro h; exact Or.inl h
      · rintro (h | ⟨h, h'⟩)
        · exact h
        · simp only [Option.some.injEq] at h
          subst h
          exact absurd h' hi

theorem foldl_mark_matched_true (old : OldLights) (ls : List (Nat × light_t)) :
    ∀ (m : Nat → Bool) (j : Nat),
      ls.foldl (fun m p => mark_matched true old m p.2) m j = true ↔
        (m j = true ∨ (j < old.old_activelights ∧ ∃ p ∈ ls, find_old old p.2.id = some j)) := by
  induction ls with
  | nil => intro m j; simp
  | cons p ls ih =>
    intro m j
    rw [List.foldl_cons, ih, mark_matched_true]
    constructor
    · rintro ((h | ⟨h1, h2⟩) | ⟨h1, q, hq, h2⟩)
      · exact Or.inl h
      · exact Or.inr ⟨h2, p, List.mem_cons_self _ _, h1⟩
      · exact Or.inr ⟨h1, q, List.mem_cons_of_mem _ hq, h2⟩
    · rintro (h | ⟨h1, q, hq, h2⟩)
      · exact Or.inl (Or.inl h)
      · rcases List.mem_cons.1 hq with rfl | hq
        · exact Or.inl (Or.inr ⟨h2, h1⟩)
        · exact Or.inr ⟨h1, q, hq, h2⟩

/-- The slots of the entry after a call, read index by index. -/
theorem update_slots_read (E : Env) (pc avg : Bool) (atten : ℚ) (pos : LVector3)
    (inp : nodeshaderinput_t) (hbits : pc = true → ∀ j, inp.occluded_lights j = false) :
    (update_slots E pc avg atten pos inp).active_lights = (slots_active E pc pos inp).length ∧
    (update_slots E pc avg atten pos inp).light_count =
      (slots_active E pc pos inp).length + (slots_fades E pc avg pos inp).length ∧
    (∀ (k : Nat) (hk : k < (slots_active E pc pos inp).length),
      (update_slots E pc avg atten pos inp).light_ids k
        = ((slots_active E pc pos inp).get ⟨k, hk⟩).2.id ∧
      (update_slots E pc avg atten pos inp).light_type k
        = ((slots_active E pc pos inp).get ⟨k, hk⟩).2.type ∧
      (update_slots E pc avg atten pos inp).light_data k
        = packed_data avg atten (copy_old inp) ((slots_active E pc pos inp).get ⟨k, hk⟩).2 ∧
      (update_slots E pc avg atten pos inp).light_data2 k
        = ⟨((slots_active E pc pos inp).get ⟨k, hk⟩).2.falloff2,
            ((slots_active E pc pos inp).get ⟨k, hk⟩).2.falloff3⟩) ∧
    (∀ (r : Nat) (hr : r < (slots_fades E pc avg pos inp).length),
      (update_slots E pc avg atten pos inp).light_ids ((slots_active E pc pos inp).length + r)
        = inp.light_ids ((slots_fades E pc avg pos inp).get ⟨r, hr⟩) ∧
      (update_slots E pc avg atten pos inp).light_type ((slots_active E pc pos inp).length + r)
        = inp.light_type ((slots_fades E pc avg pos inp).get ⟨r, hr⟩) ∧
      (update_slots E pc avg atten pos inp).light_data ((slots_active E pc pos inp).length + r)
        = faded_data atten (copy_old inp) ((slots_fades E pc avg pos inp).get ⟨r, hr⟩) ∧
      (update_slots E pc avg atten pos inp).light_data2 ((slots_active E pc pos inp).length + r)
        = inp.light_data2 ((slots_active E pc pos inp).length + r)) := by
  rw [update_slots_eq E pc avg atten pos inp hbits]
  refine ⟨rfl, rfl, ?_, ?_⟩
  · intro k hk
    simp only
    rw [overlay_lt _ _ _ _ hk, overlay_lt _ _ _ _ hk, overlay_lt _ _ _ _ hk]
    rw [overlay_get _ _ k (by simpa using hk), overlay_get _ _ k (by simpa using hk),
      overlay_get _ _ k (by simpa using hk), overlay_get _ _ k (by simpa using hk)]
    simp
  · intro r hr
    simp only
    have hlen : ∀ {β : Type} (g : Nat × light_t → β),
        ((slots_active E pc pos inp).map g).length = (slots_active E pc pos inp).length :=
      fun g => List.length_map _ _
    refine ⟨?_, ?_, ?_, ?_⟩
    · simp [overlay, copy_old, List.getElem?_eq_getElem hr]
    · simp [overlay, copy_old, List.getElem?_eq_getElem hr]
    · simp [overlay, List.getElem?_eq_getElem hr]
    · rw [overlay_ge _ _ _ _ (by simp)]

/-- The fade slots written by the slot loops, with averaging on. -/
theorem fade_slots_input (E : Env) (now : ℚ) (mgr : AmbientProbeManager) (t : TransformState)
    (pc : Bool) (inp : nodeshaderinput_t) (havg : E.cfg_lightaverage = true) :
    ∃ (matched : Nat → Bool) (fades : List Nat),
      (∀ i, matched i = true ↔
        (i < inp.active_lights ∧
          ∃ k, k < (update_input E now mgr t pc inp).active_lights ∧
            find_old (copy_old inp) ((update_input E now mgr t pc inp).light_ids k) = some i)) ∧
      fades = ((List.range inp.light_count).filter (fun i =>
          !matched i && !decide (((inp.light_data i).row3).length_squared < 1))).take
        (E.MAX_TOTAL_LIGHTS - (update_input E now mgr t pc inp).active_lights) ∧
      (update_input E now mgr t pc inp).light_count =
        (update_input E now mgr t pc inp).active_lights + fades.length ∧
      (∀ (r : Nat) (hr : r < fades.length),
        (update_input E now mgr t pc inp).light_ids
            ((update_input E now mgr t pc inp).active_lights + r)
          = inp.light_ids (fades.get ⟨r, hr⟩) ∧
        (update_input E now mgr t pc inp).light_type
            ((update_input E now mgr t pc inp).active_lights + r)
          = inp.light_type (fades.get ⟨r, hr⟩) ∧
        (update_input E now mgr t pc inp).light_data
            ((update_input E now mgr t pc inp).active_lights + r)
          = faded_data (atten_of E now inp) (copy_old inp) (fades.get ⟨r, hr⟩)) := by
  have hb := pre_slots_bits E now mgr t pc inp
  have hold := copy_old_pre_slots E now mgr t pc inp
  have hs := pre_slots_slots E now mgr t pc inp
  obtain ⟨hact, hlc, hslots, hfslots⟩ := update_slots_read E pc E.cfg_lightaverage
    (atten_of E now inp) t.pos _ hb
  rw [← update_input_eq] at hact hlc hslots hfslots
  rw [havg] at hfslots hlc
  refine ⟨slots_matched E pc true t.pos (pre_slots E now mgr t pc inp),
    slots_fades E pc true t.pos (pre_slots E now mgr t pc inp), ?_, ?_, ?_, ?_⟩
  · intro i
    unfold slots_matched
    rw [foldl_mark_matched_true, hold]
    simp only [Bool.false_eq_true, false_or]
    constructor
    · rintro ⟨hi, p, hp, hf⟩
      obtain ⟨k, rfl⟩ := List.mem_iff_get.1 hp
      refine ⟨hi, k, ?_, ?_⟩
      · rw [hact]; exact k.2
      · rw [(hslots k k.2).1]; exact hf
    · rintro ⟨hi, k, hk, hf⟩
      rw [hact] at hk
      rw [(hslots k hk).1] at hf
      exact ⟨hi, _, List.get_mem _ _ _, hf⟩
  · rw [hact]
    simp only [slots_fades, if_true, fade_cands, hold, hs.1]
    rfl
  · rw [hlc, hact]
  · intro r hr
    obtain ⟨f1, f2, f3, _⟩ := hfslots r hr
    rw [hact]
    rw [hs.2.2.1] at f1
    rw [hs.2.2.2.1] at f2
    rw [hold] at f3
    exact ⟨f1, f2, f3⟩

theorem LVector3.ext' {a b : LVector3} (hx : a.x = b.x) (hy : a.y = b.y) (hz : a.z = b.z) :
    a = b := by
  cases a; cases b; simp only [LVector3.mk.injEq]; exact ⟨hx, hy, hz⟩

theorem sub_zero' (p : LVector3) : p.sub LVector3.zero = p := by
  apply LVector3.ext' <;> simp [LVector3.sub, LVector3.zero]

theorem scan_bits_lt (E : Env) (pos : LVector3) (sky : Int) (ls : List light_t) :
    ∀ (i budget : Nat) (bits : Nat → Bool) (j : Nat), j < i →
      scan_bits E pos sky ls i budget bits j = bits j := by
  induction ls with
  | nil => intro i budget bits j _; rfl
  | cons l rest ih =>
    intro i budget bits j hj
    rw [scan_bits]
    split
    · rfl
    · split
      · rw [ih (i + 1) budget _ j (by omega), Function.update_noteq (by omega)]
      · rw [ih (i + 1) (budget - 1) _ j (by omega)]

theorem visible_cands_true (E : Env) (pos : LVector3) (sky : Int) (b b' : Nat → Bool)
    (cands : List (Nat × light_t)) :
    visible_cands E true pos sky b cands = visible_cands E true pos sky b' cands := rfl

/-- The bits left by a call with a changed position select, in a call with
an unchanged position, the candidates the first call wrote. -/
theorem active_cands_scan (E : Env) (pos : LVector3) (sky : Int) (ls : List light_t) :
    ∀ (i budget : Nat) (bits : Nat → Bool), (∀ j, i ≤ j → bits j = false) →
      active_cands E false pos sky (scan_bits E pos sky ls i budget bits) i ls budget =
        active_cands E true pos sky bits i ls budget := by
  induction ls with
  | nil => intro i budget bits _; rfl
  | cons l rest ih =>
    intro i budget bits hbits
    by_cases hb : budget = 0
    · subst hb
      simp [active_cands]
    · rw [scan_bits, if_neg hb]
      by_cases hocc : (decide ((i : Int) ≠ sky) && !is_light_visible E pos l) = true
      · rw [if_pos hocc]
        have hi : scan_bits E pos sky rest (i + 1) budget (Function.update bits i true) i
            = true := by
          rw [scan_bits_lt _ _ _ _ _ _ _ _ (Nat.lt_succ_self i), Function.update_same]
        have h1 : occluded_cand E false pos sky
            (scan_bits E pos sky rest (i + 1) budget (Function.update bits i true)) (i, l)
            = true := by
          simp only [occluded_cand, Bool.false_eq_true, if_false]; exact hi
        have h2 : occluded_cand E true pos sky bits (i, l) = true := by
          simp only [occluded_cand, if_true]; exact hocc
        have := ih (i + 1) budget (Function.update bits i true) (by
          intro j hj
          rw [Function.update_noteq (by omega)]
          exact hbits j (by omega))
        simp only [active_cands] at this ⊢
        rw [List.enumFrom_cons, visible_cands_cons, if_pos h1, visible_cands_cons, if_pos h2,
          this]
        rfl
      · rw [if_neg hocc]
        have hi : scan_bits E pos sky rest (i + 1) (budget - 1) bits i = false := by
          rw [scan_bits_lt _ _ _ _ _ _ _ _ (Nat.lt_succ_self i)]
          exact hbits i (le_refl _)
        have h1 : ¬ occluded_cand E false pos sky
            (scan_bits E pos sky rest (i + 1) (budget - 1) bits) (i, l) = true := by
          simp only [occluded_cand, Bool.false_eq_true, if_false]; rw [hi]; simp
        have h2 : ¬ occluded_cand E true pos sky bits (i, l) = true := by
          simp only [occluded_cand, if_true]; exact hocc
        have := ih (i + 1) (budget - 1) bits (fun j hj => hbits j (by omega))
        simp only [active_cands] at this ⊢
        have hbud : budget = (budget - 1) + 1 := by omega
        rw [List.enumFrom_cons, visible_cands_cons, if_neg h1, visible_cands_cons, if_neg h2]
        rw [hbud, List.take_succ_cons, List.take_succ_cons]
        simp only [Nat.add_sub_cancel]
        rw [this]

theorem find_old_eq_some (old : OldLights) (id : Int) (k : Nat) (hk : k < old.old_lightcount)
    (hid : old.old_lightids k = id) (hfirst : ∀ j, j < k → old.old_lightids j ≠ id) :
    find_old old id = some k := by
  unfold find_old
  have hsplit : List.range old.old_lightcount
      = List.range k ++ (k :: List.range' (k + 1) (old.old_lightcount - (k + 1))) := by
    have h1 : old.old_lightcount = ((old.old_lightcount - (k + 1)) + 1) + k := by omega
    conv_lhs => rw [h1]
    rw [List.range_eq_range', List.range_eq_range', ← List.range'_append_1 0 k, Nat.zero_add,
      List.range'_succ]
  rw [hsplit, List.find?_append]
  have hnone : List.find? (fun j => decide (old.old_lightids j = id)) (List.range k) = none := by
    rw [List.find?_eq_none]
    intro j hj
    simp only [decide_eq_true_eq]
    exact hfirst j (List.mem_range.1 hj)
  rw [hnone]
  simp [hid]

theorem packed_data_found (atten : ℚ) (old : OldLights) (l : light_t) (k : Nat)
    (h : find_old old l.id = some k) :
    packed_data true atten old l = ⟨l.eye_pos, l.eye_direction, l.falloff,
      l.color.sub ((l.color.sub (old.old_lightdata k).row3).scale atten)⟩ := by
  simp [packed_data, interp_light, h]

/-- C11, the code at a failing input: in the second example level a new object
at the origin selects the probe whose face 0 is (1, 1, 1) and whose face 1 is
black; the decay factor is 1/6 and the entry starts black on every face.  Face
0 is blended to (5/6, 5/6, 5/6).  Face 1 is equal to its target before the
call, but the variable `delta`, declared outside the loop, still holds the
step of face 0, and the face is written as (-1/6, -1/6, -1/6). -/
theorem C11_stale_delta :
    demo_env2.cfg_lightaverage = true ∧
    atten_of demo_env2 1 (call_input demo_mgr2 7) = 1 / 6 ∧
    (call_input demo_mgr2 7).ambient_cube 1 = ⟨0, 0, 0⟩ ∧
    (entry_of (update_node demo_env2 1 demo_mgr2 (some 7) (some ⟨⟨0, 0, 0⟩⟩)).1 7).map
      (fun e => e.amb_probe.map (fun p => (p.cube 0, p.cube 1)))
      = some (some (⟨1, 1, 1⟩, ⟨0, 0, 0⟩)) ∧
    (entry_of (update_node demo_env2 1 demo_mgr2 (some 7) (some ⟨⟨0, 0, 0⟩⟩)).1 7).map
      (fun e => (e.ambient_cube 0, e.ambient_cube 1))
      = some (⟨5 / 6, 5 / 6, 5 / 6⟩, ⟨-1 / 6, -1 / 6, -1 / 6⟩) := by
  decide!

/-- C12, the code at a failing input: in the example level with the rate
`light-lerp-speed` set to 0 and averaging on, a new object at the origin is
updated at time 1 (time step 1).  The decay factor is `exp 0 = 1`, so the sun
(id 1, colour (8, 8, 8)) is written to the active slot 0 with the colour it is
blended from, black, and face 0 of the ambient cube stays black although the
selected probe has (1, 1, 1) there. -/
theorem C12_rate_zero_keeps_old :
    demo_env0.cfg_lightinterp = 0 ∧ demo_env0.cfg_lightaverage = true ∧
    time_step 1 (call_input demo_mgr 7) = 1 ∧
    atten_of demo_env0 1 (call_input demo_mgr 7) = 1 ∧
    demo_mgr._sunlight.map (fun l => (l.id, l.color)) = some (1, ⟨8, 8, 8⟩) ∧
    (entry_of (update_node demo_env0 1 demo_mgr (some 7) (some ⟨⟨0, 0, 0⟩⟩)).1 7).map
      (fun e => (e.active_lights, e.light_ids 0, (e.light_data 0).row3))
      = some (2, 1, ⟨0, 0, 0⟩) ∧
    (entry_of (update_node demo_env0 1 demo_mgr (some 7) (some ⟨⟨0, 0, 0⟩⟩)).1 7).map
      (fun e => (e.amb_probe.map (fun p => p.cube 0), e.ambient_cube 0))
      = some (some ⟨1, 1, 1⟩, ⟨0, 0, 0⟩) := by
  decide!

/-! ### The keys of the hash map -/

namespace SimpleHashMap

theorem keys_nil {K V : Type} : keys ([] : SimpleHashMap K V) = [] := rfl

theorem keys_cons {K V : Type} (e : K × V) (m : SimpleHashMap K V) :
    keys (e :: m) = e.1 :: keys m := rfl

variable {K V : Type} [DecidableEq K]

theorem find_eq_none_iff_not_mem (m : SimpleHashMap K V) (k : K) :
    find m k = none ↔ k ∉ keys m := by
  induction m with
  | nil => simp [find_nil, keys_nil]
  | cons e m ih =>
    rw [find_cons, keys_cons]
    by_cases h : e.1 = k
    · simp [h]
    · have h' : ¬ k = e.1 := fun h' => h h'.symm
      simp [h, h', ih]

theorem lookup_eq_none_iff_not_mem (m : SimpleHashMap K V) (k : K) :
    lookup m k = none ↔ k ∉ keys m := by
  rw [← find_eq_none_iff, find_eq_none_iff_not_mem]

theorem mem_keys_of_lookup (m : SimpleHashMap K V) (k : K) (v : V) (h : lookup m k = some v) :
    k ∈ keys m := by
  by_contra hk
  rw [(lookup_eq_none_iff_not_mem m k).2 hk] at h
  cases h

theorem mem_keys_store (m : SimpleHashMap K V) (k k' : K) (v : V) :
    k' ∈ keys (store m k v) ↔ k' = k ∨ k' ∈ keys m := by
  induction m with
  | nil => simp [store_nil, keys_cons, keys_nil]
  | cons e m ih =>
    rw [store_cons]
    by_cases h : e.1 = k
    · simp [h, keys_cons]
    · simp only [h, if_false, keys_cons, List.mem_cons, ih]
      tauto

theorem keys_store_of_mem (m : SimpleHashMap K V) (k : K) (v : V) (hk : k ∈ keys m) :
    keys (store m k v) = keys m := by
  induction m with
  | nil => simp [keys_nil] at hk
  | cons e m ih =>
    rw [store_cons]
    by_cases h : e.1 = k
    · simp [h, keys_cons]
    · have hk' : k ∈ keys m := by
        rw [keys_cons, List.mem_cons] at hk
        rcases hk with hk | hk
        · exact absurd hk.symm h
        · exact hk
      simp [h, keys_cons, ih hk']

theorem keys_store_of_not_mem (m : SimpleHashMap K V) (k : K) (v : V) (hk : k ∉ keys m) :
    keys (store m k v) = keys m ++ [k] := by
  induction m with
  | nil => simp [store_nil, keys_cons, keys_nil]
  | cons e m ih =>
    rw [store_cons]
    rw [keys_cons, List.mem_cons, not_or] at hk
    have h : ¬ e.1 = k := fun h => hk.1 h.symm
    simp [h, keys_cons, ih hk.2]

theorem nodup_keys_store (m : SimpleHashMap K V) (k : K) (v : V) (h : (keys m).Nodup) :
    (keys (store m k v)).Nodup := by
  by_cases hk : k ∈ keys m
  · rw [keys_store_of_mem m k v hk]; exact h
  · rw [keys_store_of_not_mem m k v hk]
    exact List.Nodup.append h (List.nodup_singleton k) (by simpa using hk)

theorem keys_remove_find (m : SimpleHashMap K V) (k : K) (i : Nat) (h : find m k = some i) :
    keys (remove_element m i) = (keys m).erase k := by
  induction m generalizing i with
  | nil => simp [find_nil] at h
  | cons e m ih =>
    rw [find_cons] at h
    by_cases he : e.1 = k
    · rw [if_pos he] at h
      cases h
      simp [remove_element, keys_cons, he, keys]
    · rw [if_neg he] at h
      cases hf : find m k with
      | none => simp [hf] at h
      | some j =>
        rw [hf] at h
        simp only [Option.map_some', Option.some.injEq] at h
        subst h
        have := ih j hf
        simp only [remove_element, keys] at this ⊢
        simp [List.eraseIdx_cons_succ, this, List.erase_cons, he]

theorem lookup_remove_ne (m : SimpleHashMap K V) (k k' : K) (i : Nat) (h : find m k = some i)
    (hne : k' ≠ k) : lookup (remove_element m i) k' = lookup m k' := by
  induction m generalizing i with
  | nil => simp [find_nil] at h
  | cons e m ih =>
    rw [find_cons] at h
    by_cases he : e.1 = k
    · rw [if_pos he] at h
      cases h
      have : ¬ e.1 = k' := fun h' => hne (h'.symm.trans he)
      simp [remove_element, lookup_cons, this]
    · rw [if_neg he] at h
      cases hf : find m k with
      | none => simp [hf] at h
      | some j =>
        rw [hf] at h
        simp only [Option.map_some', Option.some.injEq] at h
        subst h
        have := ih j hf
        simp only [remove_element] at this ⊢
        rw [List.eraseIdx_cons_succ, lookup_cons, lookup_cons, this]

theorem length_store_of_mem (m : SimpleHashMap K V) (k : K) (v : V) (hk : k ∈ keys m) :
    (store m k v).length = m.length := by
  have h := congrArg List.length (keys_store_of_mem m k v hk)
  simpa [keys] using h

end SimpleHashMap

/-! ### The destruction callback and the keys of the cache -/

theorem wp_callback_node_keys (mgr : AmbientProbeManager) (n : NodeId) :
    (wp_callback mgr n)._node_data.keys = mgr._node_data.keys.erase n := by
  unfold wp_callback
  simp only
  cases hf : mgr._node_data.find n with
  | none =>
    simp only
    rw [List.erase_of_not_mem ((SimpleHashMap.find_eq_none_iff_not_mem _ _).1 hf)]
  | some i => exact SimpleHashMap.keys_remove_find _ _ _ hf

theorem wp_callback_pos_keys (mgr : AmbientProbeManager) (n : NodeId) :
    (wp_callback mgr n)._pos_cache.keys = mgr._pos_cache.keys.erase n := by
  unfold wp_callback
  simp only
  cases hf : mgr._pos_cache.find n with
  | none =>
    simp only
    rw [List.erase_of_not_mem ((SimpleHashMap.find_eq_none_iff_not_mem _ _).1 hf)]
  | some i => exact SimpleHashMap.keys_remove_find _ _ _ hf

/-- The destruction callback of a node leaves the entries of the other nodes
as they were. -/
theorem wp_callback_entry_ne (mgr : AmbientProbeManager) (n n' : NodeId) (hne : n' ≠ n) :
    entry_of (wp_callback mgr n) n' = entry_of mgr n' := by
  unfold wp_callback entry_of
  simp only
  cases hf : mgr._node_data.find n with
  | none => rfl
  | some i => exact SimpleHashMap.lookup_remove_ne _ _ _ _ hf hne

theorem wp_callback_pos_ne (mgr : AmbientProbeManager) (n n' : NodeId) (hne : n' ≠ n) :
    (wp_callback mgr n)._pos_cache.lookup n' = mgr._pos_cache.lookup n' := by
  unfold wp_callback
  simp only
  cases hf : mgr._pos_cache.find n with
  | none => rfl
  | some i => exact SimpleHashMap.lookup_remove_ne _ _ _ _ hf hne

theorem wp_callback_not_cached (mgr : AmbientProbeManager) (n : NodeId)
    (h1 : n ∉ mgr._node_data.keys) (h2 : n ∉ mgr._pos_cache.keys) : wp_callback mgr n = mgr := by
  unfold wp_callback
  rw [(SimpleHashMap.find_eq_none_iff_not_mem _ _).2 h1,
    (SimpleHashMap.find_eq_none_iff_not_mem _ _).2 h2]

theorem cache_ok_wp_callback (mgr : AmbientProbeManager) (n : NodeId) (h : cache_ok mgr) :
    cache_ok (wp_callback mgr n) := by
  obtain ⟨h1, h2, h3, h4⟩ := h
  unfold cache_ok
  rw [wp_callback_node_keys, wp_callback_pos_keys]
  refine ⟨h1.erase n, h2.erase n, ?_, ?_⟩
  · intro k hk
    rw [h1.mem_erase_iff] at hk
    rw [h2.mem_erase_iff]
    exact ⟨hk.1, h3 k hk.2⟩
  · intro k hk
    rw [h2.mem_erase_iff] at hk
    rw [h1.mem_erase_iff]
    exact ⟨hk.1, h4 k hk.2⟩

theorem cache_ok_cleanup (mgr : AmbientProbeManager) : cache_ok (cleanup mgr) := by
  simp [cache_ok, cleanup, SimpleHashMap.keys]

theorem cache_ok_of_empty (mgr : AmbientProbeManager) (h1 : mgr._node_data = [])
    (h2 : mgr._pos_cache = []) : cache_ok mgr := by
  simp [cache_ok, h1, h2, SimpleHashMap.keys]

/-- The keys of both maps after the part of a call that follows the lookup of
the entry. -/
theorem update_found_keys (E : Env) (now : ℚ) (mgr : AmbientProbeManager) (node : NodeId)
    (t : TransformState) (ni : Bool) (inp : nodeshaderinput_t) :
    (mgr._node_data.keys.Nodup →
      (update_found E now mgr node t ni inp).1._node_data.keys.Nodup) ∧
    (mgr._pos_cache.keys.Nodup →
      (update_found E now mgr node t ni inp).1._pos_cache.keys.Nodup) ∧
    (∀ k, k ∈ (update_found E now mgr node t ni inp).1._node_data.keys ↔
      k = node ∨ k ∈ mgr._node_data.keys) ∧
    (∀ k, k ∈ (update_found E now mgr node t ni inp).1._pos_cache.keys ↔
      k = node ∨ k ∈ mgr._pos_cache.keys) := by
  unfold update_found
  simp only
  refine ⟨SimpleHashMap.nodup_keys_store _ _ _, ?_,
    fun k => SimpleHashMap.mem_keys_store _ _ _ _, ?_⟩
  · intro h
    cases hl : SimpleHashMap.lookup mgr._pos_cache node with
    | none =>
      simp only
      split_ifs
      · exact SimpleHashMap.nodup_keys_store _ _ _ (SimpleHashMap.nodup_keys_store _ _ _ h)
      · exact SimpleHashMap.nodup_keys_store _ _ _ h
    | some p =>
      simp only
      split_ifs
      · exact SimpleHashMap.nodup_keys_store _ _ _ h
      · exact h
  · intro k
    cases hl : SimpleHashMap.lookup mgr._pos_cache node with
    | none =>
      simp only
      split_ifs
      · rw [SimpleHashMap.mem_keys_store, SimpleHashMap.mem_keys_store]; tauto
      · rw [SimpleHashMap.mem_keys_store]
    | some p =>
      have hm := SimpleHashMap.mem_keys_of_lookup _ _ _ hl
      simp only
      split_ifs
      · rw [SimpleHashMap.mem_keys_store]
      · constructor
        · exact fun h => Or.inr h
        · rintro (rfl | h)
          · exact hm
          · exact h

/-- The keys of both maps after a call with a node and a transform. -/
theorem update_node_keys (E : Env) (now : ℚ) (mgr : AmbientProbeManager) (node : NodeId)
    (t : TransformState) (h : cache_ok mgr) :
    cache_ok (update_node E now mgr (some node) (some t)).1 ∧
    (∀ k, k ∈ (update_node E now mgr (some node) (some t)).1._node_data.keys ↔
      k = node ∨ k ∈ mgr._node_data.keys) := by
  obtain ⟨h1, h2, h3, h4⟩ := h
  unfold update_node
  simp only
  cases hf : mgr._node_data.find node with
  | none =>
    simp only
    obtain ⟨a, b, c, d⟩ := update_found_keys E now
      { mgr with
        _node_sequence := mgr._node_sequence + 1
        _node_data := mgr._node_data.store node
          { nodeshaderinput_t.fresh with
            node_sequence := mgr._node_sequence
            state_with_input := ⟨mgr._node_sequence⟩ }
        _pos_cache := mgr._pos_cache.store node t } node t true
      { nodeshaderinput_t.fresh with
        node_sequence := mgr._node_sequence
        state_with_input := ⟨mgr._node_sequence⟩ }
    simp only [SimpleHashMap.mem_keys_store] at c d
    refine ⟨⟨a (SimpleHashMap.nodup_keys_store _ _ _ h1),
      b (SimpleHashMap.nodup_keys_store _ _ _ h2), ?_, ?_⟩, ?_⟩
    · intro k hk
      rw [c] at hk
      rw [d]
      rcases hk with hk | hk | hk
      · exact Or.inl hk
      · exact Or.inl hk
      · exact Or.inr (Or.inr (h3 k hk))
    · intro k hk
      rw [d] at hk
      rw [c]
      rcases hk with hk | hk | hk
      · exact Or.inl hk
      · exact Or.inl hk
      · exact Or.inr (Or.inr (h4 k hk))
    · intro k
      rw [c]
      tauto
  | some itr =>
    have hm : node ∈ mgr._node_data.keys := by
      by_contra hk
      rw [(SimpleHashMap.find_eq_none_iff_not_mem _ _).2 hk] at hf
      cases hf
    simp only
    cases hg : mgr._node_data.get_data itr with
    | none =>
      simp only
      exact ⟨⟨h1, h2, h3, h4⟩, fun k => ⟨fun hk => Or.inr hk, fun hk => by
        rcases hk with rfl | hk
        · exact hm
        · exact hk⟩⟩
    | some inp =>
      simp only
      obtain ⟨a, b, c, d⟩ := update_found_keys E now mgr node t false inp
      refine ⟨⟨a h1, b h2, ?_, ?_⟩, c⟩
      · intro k hk
        rw [c] at hk
        rw [d]
        exact hk.imp id (h3 k)
      · intro k hk
        rw [d] at hk
        rw [c]
        exact hk.imp id (h4 k)

theorem update_node_of_none (E : Env) (now : ℚ) (mgr : AmbientProbeManager)
    (node : Option NodeId) (t : Option TransformState) (h : node = none ∨ t = none) :
    update_node E now mgr node t = (mgr, none) := by
  unfold update_node
  rcases h with rfl | rfl
  · rfl
  · cases node <;> rfl

theorem cache_ok_update_node (E : Env) (now : ℚ) (mgr : AmbientProbeManager)
    (node : Option NodeId) (t : Option TransformState) (h : cache_ok mgr) :
    cache_ok (update_node E now mgr node t).1 := by
  cases node with
  | none => rw [update_node_of_none E now mgr none t (Or.inl rfl)]; exact h
  | some node =>
    cases t with
    | none => rw [update_node_of_none E now mgr _ none (Or.inr rfl)]; exact h
    | some t => exact (update_node_keys E now mgr node t h).1

theorem cache_ok_run_op (E : Env) (mgr : AmbientProbeManager) (op : CacheOp) (h : cache_ok mgr) :
    cache_ok (run_op E mgr op) := by
  cases op with
  | update now node t => exact cache_ok_update_node E now mgr node t h
  | destroy node => exact cache_ok_wp_callback mgr node h
  | cleanup => exact cache_ok_cleanup mgr

theorem run_ops_nil (E : Env) (mgr : AmbientProbeManager) : run_ops E mgr [] = mgr := rfl

theorem run_ops_cons (E : Env) (mgr : AmbientProbeManager) (op : CacheOp) (rest : List CacheOp) :
    run_ops E mgr (op :: rest) = run_ops E (run_op E mgr op) rest := rfl

theorem cache_ok_run_ops (E : Env) (ops : List CacheOp) (mgr : AmbientProbeManager)
    (h : cache_ok mgr) : cache_ok (run_ops E mgr ops) := by
  induction ops generalizing mgr with
  | nil => exact h
  | cons op rest ih =>
    rw [run_ops_cons]
    exact ih _ (cache_ok_run_op E mgr op h)

/-! ### Claims on the cache -/

/-- C15: in a cache whose two maps have the same keys, each once, after the
destruction callback of a node the node has no entry in the node-data map and
none in the position cache; the entries of every other node in both maps are
what they were, the keys of both maps are the keys before without the node,
the cache is again well formed, and for a node without an entry the manager is
unchanged. -/
theorem C15_wp_callback (mgr : AmbientProbeManager) (n : NodeId) (hok : cache_ok mgr) :
    entry_of (wp_callback mgr n) n = none ∧
    (wp_callback mgr n)._pos_cache.lookup n = none ∧
    (∀ n', n' ≠ n →
      entry_of (wp_callback mgr n) n' = entry_of mgr n' ∧
      (wp_callback mgr n)._pos_cache.lookup n' = mgr._pos_cache.lookup n') ∧
    (wp_callback mgr n)._node_data.keys = mgr._node_data.keys.erase n ∧
    (wp_callback mgr n)._pos_cache.keys = mgr._pos_cache.keys.erase n ∧
    cache_ok (wp_callback mgr n) ∧
    (entry_of mgr n = none → wp_callback mgr n = mgr) := by
  obtain ⟨h1, h2, h3, h4⟩ := hok
  refine ⟨?_, ?_, fun n' hne => ⟨wp_callback_entry_ne mgr n n' hne, wp_callback_pos_ne mgr n n' hne⟩,
    wp_callback_node_keys mgr n, wp_callback_pos_keys mgr n,
    cache_ok_wp_callback mgr n ⟨h1, h2, h3, h4⟩, ?_⟩
  · rw [entry_of, SimpleHashMap.lookup_eq_none_iff_not_mem, wp_callback_node_keys,
      h1.mem_erase_iff]
    exact fun h => h.1 rfl
  · rw [SimpleHashMap.lookup_eq_none_iff_not_mem, wp_callback_pos_keys, h2.mem_erase_iff]
    exact fun h => h.1 rfl
  · intro hn
    have hk : n ∉ mgr._node_data.keys := (SimpleHashMap.lookup_eq_none_iff_not_mem _ _).1 hn
    exact wp_callback_not_cached mgr n hk (fun h => hk (h4 n h))

theorem C15_wp_callback_witness :
    cache_ok demo_mgr1 ∧
    (entry_of demo_mgr1 7).isSome = true ∧
    entry_of (wp_callback demo_mgr1 7) 7 = none ∧
    (wp_callback demo_mgr1 7)._pos_cache.lookup 7 = none ∧
    (∀ n', n' ≠ 7 →
      entry_of (wp_callback demo_mgr1 7) n' = entry_of demo_mgr1 n' ∧
      (wp_callback demo_mgr1 7)._pos_cache.lookup n' = demo_mgr1._pos_cache.lookup n') ∧
    (wp_callback demo_mgr1 7)._node_data.keys = demo_mgr1._node_data.keys.erase 7 ∧
    (wp_callback demo_mgr1 7)._pos_cache.keys = demo_mgr1._pos_cache.keys.erase 7 ∧
    cache_ok (wp_callback demo_mgr1 7) ∧
    (entry_of demo_mgr1 7 = none → wp_callback demo_mgr1 7 = demo_mgr1) :=
  ⟨cache_ok_update_node demo_env 1 demo_mgr (some 7) (some ⟨⟨0, 0, 0⟩⟩)
      (cache_ok_of_empty demo_mgr rfl rfl),
    by decide!,
    C15_wp_callback demo_mgr1 7
      (cache_ok_update_node demo_env 1 demo_mgr (some 7) (some ⟨⟨0, 0, 0⟩⟩)
        (cache_ok_of_empty demo_mgr rfl rfl))⟩

/-- C16: from a manager with an empty cache, after every sequence of calls of
`update_node`, destruction callbacks and calls of `cleanup`, the node-data map
holds at most one entry per node, so does the position cache, and a node has an
entry in the position cache exactly if it has one in the node-data map. -/
theorem C16_cache_keys (E : Env) (mgr : AmbientProbeManager) (ops : List CacheOp)
    (h1 : mgr._node_data = []) (h2 : mgr._pos_cache = []) :
    (∀ n, (run_ops E mgr ops)._node_data.keys.count n ≤ 1) ∧
    (∀ n, (run_ops E mgr ops)._pos_cache.keys.count n ≤ 1) ∧
    (∀ n, n ∈ (run_ops E mgr ops)._node_data.keys ↔ n ∈ (run_ops E mgr ops)._pos_cache.keys) ∧
    (∀ n, entry_of (run_ops E mgr ops) n = none ↔
      (run_ops E mgr ops)._pos_cache.lookup n = none) := by
  obtain ⟨a, b, c, d⟩ := cache_ok_run_ops E ops mgr (cache_ok_of_empty mgr h1 h2)
  refine ⟨fun n => List.nodup_iff_count_le_one.1 a n, fun n => List.nodup_iff_count_le_one.1 b n,
    fun n => ⟨c n, d n⟩, fun n => ?_⟩
  rw [entry_of, SimpleHashMap.lookup_eq_none_iff_not_mem,
    SimpleHashMap.lookup_eq_none_iff_not_mem]
  exact not_congr ⟨c n, d n⟩

theorem C16_cache_keys_witness :
    demo_mgr._node_data = [] ∧ demo_mgr._pos_cache = [] ∧
    (run_ops demo_env demo_mgr (CacheOp.update 1 (some 7) (some ⟨⟨0, 0, 0⟩⟩) :: demo_ops)
      )._node_data.keys = [7, 9] ∧
    (∀ n, (run_ops demo_env demo_mgr
      (CacheOp.update 1 (some 7) (some ⟨⟨0, 0, 0⟩⟩) :: demo_ops))._node_data.keys.count n ≤ 1) ∧
    (∀ n, (run_ops demo_env demo_mgr
      (CacheOp.update 1 (some 7) (some ⟨⟨0, 0, 0⟩⟩) :: demo_ops))._pos_cache.keys.count n ≤ 1) ∧
    (∀ n, n ∈ (run_ops demo_env demo_mgr
        (CacheOp.update 1 (some 7) (some ⟨⟨0, 0, 0⟩⟩) :: demo_ops))._node_data.keys ↔
      n ∈ (run_ops demo_env demo_mgr
        (CacheOp.update 1 (some 7) (some ⟨⟨0, 0, 0⟩⟩) :: demo_ops))._pos_cache.keys) ∧
    (∀ n, entry_of (run_ops demo_env demo_mgr
        (CacheOp.update 1 (some 7) (some ⟨⟨0, 0, 0⟩⟩) :: demo_ops)) n = none ↔
      (run_ops demo_env demo_mgr
        (CacheOp.update 1 (some 7) (some ⟨⟨0, 0, 0⟩⟩) :: demo_ops))._pos_cache.lookup n = none) :=
  ⟨rfl, rfl, by decide!,
    C16_cache_keys demo_env demo_mgr (CacheOp.update 1 (some 7) (some ⟨⟨0, 0, 0⟩⟩) :: demo_ops)
      rfl rfl⟩

/-! ### The handle of a node -/

/-- A call leaves the sequence number and the handle of the entry alone. -/
theorem update_input_handle (E : Env) (now : ℚ) (mgr : AmbientProbeManager) (t : TransformState)
    (pc : Bool) (inp : nodeshaderinput_t) :
    (update_input E now mgr t pc inp).state_with_input = inp.state_with_input ∧
    (update_input E now mgr t pc inp).node_sequence = inp.node_sequence := by
  rw [update_input_eq, update_slots_eq _ _ _ _ _ _ (pre_slots_bits E now mgr t _ _)]
  obtain ⟨_, _, _, _, _, _, h7, h8⟩ := pre_slots_slots E now mgr t pc inp
  exact ⟨h8, h7⟩

theorem update_found_handle (E : Env) (now : ℚ) (mgr : AmbientProbeManager) (node : NodeId)
    (t : TransformState) (ni : Bool) (inp : nodeshaderinput_t) :
    (update_found E now mgr node t ni inp).2 = some inp.state_with_input ∧
    (update_found E now mgr node t ni inp).1._node_sequence = mgr._node_sequence := by
  exact ⟨congrArg some (update_input_handle E now mgr t _ inp).1, rfl⟩

/-- The handle returned by a call with a node and a transform is the handle of
the entry the call starts from. -/
theorem update_node_handle (E : Env) (now : ℚ) (mgr : AmbientProbeManager) (node : NodeId)
    (t : TransformState) :
    (update_node E now mgr (some node) (some t)).2 = some (call_input mgr node).state_with_input := by
  unfold update_node call_input
  simp only
  cases hf : mgr._node_data.find node with
  | none =>
    have hl : entry_of mgr node = none := (SimpleHashMap.find_eq_none_iff _ _).1 hf
    simp only [hl]
    exact (update_found_handle E now _ node t true _).1
  | some itr =>
    have hg := SimpleHashMap.find_some_get_data _ _ _ hf
    cases hl : SimpleHashMap.lookup mgr._node_data node with
    | none =>
      rw [(SimpleHashMap.find_eq_none_iff _ _).2 hl] at hf
      cases hf
    | some input =>
      rw [hl] at hg
      simp only [hg, entry_of, hl]
      exact (update_found_handle E now mgr node t false input).1

/-- A call for a cached node creates no entry and no sequence number. -/
theorem update_node_cached (E : Env) (now : ℚ) (mgr : AmbientProbeManager) (node : NodeId)
    (t : TransformState) (e : nodeshaderinput_t) (he : entry_of mgr node = some e) :
    (update_node E now mgr (some node) (some t)).1._node_sequence = mgr._node_sequence ∧
    (update_node E now mgr (some node) (some t)).1._node_data.keys = mgr._node_data.keys := by
  have hm : node ∈ mgr._node_data.keys := SimpleHashMap.mem_keys_of_lookup _ _ _ he
  unfold update_node
  simp only
  cases hf : mgr._node_data.find node with
  | none =>
    rw [entry_of, (SimpleHashMap.find_eq_none_iff _ _).1 hf] at he
    cases he
  | some itr =>
    simp only
    cases hg : mgr._node_data.get_data itr with
    | none => exact ⟨rfl, rfl⟩
    | some inp =>
      simp only
      refine ⟨rfl, ?_⟩
      unfold update_found
      simp only
      exact SimpleHashMap.keys_store_of_mem _ _ _ hm

/-- A call for a node that is not cached takes the next sequence number. -/
theorem update_node_new (E : Env) (now : ℚ) (mgr : AmbientProbeManager) (node : NodeId)
    (t : TransformState) (he : entry_of mgr node = none) :
    (update_node E now mgr (some node) (some t)).1._node_sequence = mgr._node_sequence + 1 ∧
    call_input mgr node = { nodeshaderinput_t.fresh with
      node_sequence := mgr._node_sequence
      state_with_input := ⟨mgr._node_sequence⟩ } := by
  have hf : mgr._node_data.find node = none := (SimpleHashMap.find_eq_none_iff _ _).2 he
  constructor
  · unfold update_node
    simp only [hf]
    exact (update_found_handle E now _ node t true _).2
  · unfold call_input
    rw [he]

/-- The entry of a node after a call for any node: it keeps its handle and its
sequence number. -/
theorem update_node_entry_kept (E : Env) (now : ℚ) (mgr : AmbientProbeManager)
    (n : Option NodeId) (t : Option TransformState) (node : NodeId) (e : nodeshaderinput_t)
    (he : entry_of mgr node = some e) :
    ∃ e', entry_of (update_node E now mgr n t).1 node = some e' ∧
      e'.state_with_input = e.state_with_input ∧ e'.node_sequence = e.node_sequence := by
  cases n with
  | none => rw [update_node_of_none E now mgr none t (Or.inl rfl)]; exact ⟨e, he, rfl, rfl⟩
  | some n =>
    cases t with
    | none => rw [update_node_of_none E now mgr _ none (Or.inr rfl)]; exact ⟨e, he, rfl, rfl⟩
    | some t =>
      by_cases hn : node = n
      · subst hn
        refine ⟨_, entry_of_update_node E now mgr node t, ?_⟩
        rw [call_input_of_some mgr node e he]
        exact update_input_handle E now mgr t _ e
      · exact ⟨e, by rw [entry_of_update_node_ne E now mgr n t node hn]; exact he, rfl, rfl⟩

theorem run_op_entry_kept (E : Env) (mgr : AmbientProbeManager) (op : CacheOp) (node : NodeId)
    (e : nodeshaderinput_t) (hk : keeps_entry node op = true) (he : entry_of mgr node = some e) :
    ∃ e', entry_of (run_op E mgr op) node = some e' ∧
      e'.state_with_input = e.state_with_input ∧ e'.node_sequence = e.node_sequence := by
  cases op with
  | update now n t => exact update_node_entry_kept E now mgr n t node e he
  | destroy n =>
    have hne : node ≠ n := by
      simp only [keeps_entry, decide_eq_true_eq] at hk
      exact fun h => hk h.symm
    exact ⟨e, by rw [run_op, wp_callback_entry_ne mgr n node hne]; exact he, rfl, rfl⟩
  | cleanup => simp [keeps_entry] at hk

theorem run_ops_entry_kept (E : Env) (ops : List CacheOp) (mgr : AmbientProbeManager)
    (node : NodeId) (e : nodeshaderinput_t) (hk : ∀ op ∈ ops, keeps_entry node op = true)
    (he : entry_of mgr node = some e) :
    ∃ e', entry_of (run_ops E mgr ops) node = some e' ∧
      e'.state_with_input = e.state_with_input ∧ e'.node_sequence = e.node_sequence := by
  induction ops generalizing mgr e with
  | nil => exact ⟨e, he, rfl, rfl⟩
  | cons op rest ih =>
    rw [run_ops_cons]
    obtain ⟨e1, h1, h2, h3⟩ := run_op_entry_kept E mgr op node e (hk op (List.mem_cons_self _ _)) he
    obtain ⟨e2, g1, g2, g3⟩ := ih _ e1 (fun o ho => hk o (List.mem_cons_of_mem _ ho)) h1
    exact ⟨e2, g1, g2.trans h2, g3.trans h3⟩

/-- C13: a call of `update_node` with a node and a transform returns the
handle of the entry of the node; for a node without an entry the entry and the
handle are new and carry the next sequence number.  After any sequence of
operations that are neither the destruction callback of the node nor `cleanup`,
a further call for the node returns the same handle, the entry of the node
still carries that handle and the same sequence number, and the call adds no
key to the node-data map and takes no sequence number. -/
theorem C13_handle_stable (E : Env) (now now' : ℚ) (mgr : AmbientProbeManager) (node : NodeId)
    (t t' : TransformState) (ops : List CacheOp)
    (hops : ∀ op ∈ ops, keeps_entry node op = true) :
    ∃ (h : RenderState) (e : nodeshaderinput_t),
      (update_node E now mgr (some node) (some t)).2 = some h ∧
      entry_of (update_node E now mgr (some node) (some t)).1 node = some e ∧
      e.state_with_input = h ∧
      (entry_of mgr node = none →
        h = ⟨mgr._node_sequence⟩ ∧ e.node_sequence = mgr._node_sequence ∧
        (update_node E now mgr (some node) (some t)).1._node_sequence
          = mgr._node_sequence + 1) ∧
      (update_node E now' (run_ops E (update_node E now mgr (some node) (some t)).1 ops)
        (some node) (some t')).2 = some h ∧
      (∃ e', entry_of (update_node E now'
          (run_ops E (update_node E now mgr (some node) (some t)).1 ops)
          (some node) (some t')).1 node = some e' ∧
        e'.state_with_input = h ∧ e'.node_sequence = e.node_sequence) ∧
      (update_node E now' (run_ops E (update_node E now mgr (some node) (some t)).1 ops)
        (some node) (some t')).1._node_sequence
        = (run_ops E (update_node E now mgr (some node) (some t)).1 ops)._node_sequence ∧
      (update_node E now' (run_ops E (update_node E now mgr (some node) (some t)).1 ops)
        (some node) (some t')).1._node_data.keys
        = (run_ops E (update_node E now mgr (some node) (some t)).1 ops)._node_data.keys := by
  have he := entry_of_update_node E now mgr node t
  have hh := update_input_handle E now mgr t (call_pos_changed E mgr node t) (call_input mgr node)
  obtain ⟨e1, h1, h2, h3⟩ := run_ops_entry_kept E ops _ node _ hops he
  obtain ⟨e2, g1, g2, g3⟩ := update_node_entry_kept E now' _ (some node) (some t') node e1 h1
  refine ⟨(call_input mgr node).state_with_input, _, update_node_handle E now mgr node t, he,
    hh.1, ?_, ?_, ⟨e2, g1, g2.trans (h2.trans hh.1), g3.trans h3⟩,
    (update_node_cached E now' _ node t' e1 h1).1, (update_node_cached E now' _ node t' e1 h1).2⟩
  · intro hn
    obtain ⟨a, b⟩ := update_node_new E now mgr node t hn
    refine ⟨by rw [b], by rw [hh.2, b], a⟩
  · rw [update_node_handle, call_input_of_some _ node e1 h1, h2, hh.1]

theorem C13_handle_stable_witness :
    (∀ op ∈ demo_ops, keeps_entry 7 op = true) ∧
    entry_of demo_mgr 7 = none ∧
    ∃ (h : RenderState) (e : nodeshaderinput_t),
      (update_node demo_env 1 demo_mgr (some 7) (some ⟨⟨0, 0, 0⟩⟩)).2 = some h ∧
      entry_of (update_node demo_env 1 demo_mgr (some 7) (some ⟨⟨0, 0, 0⟩⟩)).1 7 = some e ∧
      e.state_with_input = h ∧
      (entry_of demo_mgr 7 = none →
        h = ⟨demo_mgr._node_sequence⟩ ∧ e.node_sequence = demo_mgr._node_sequence ∧
        (update_node demo_env 1 demo_mgr (some 7) (some ⟨⟨0, 0, 0⟩⟩)).1._node_sequence
          = demo_mgr._node_sequence + 1) ∧
      (update_node demo_env 4
        (run_ops demo_env (update_node demo_env 1 demo_mgr (some 7) (some ⟨⟨0, 0, 0⟩⟩)).1 demo_ops)
        (some 7) (some ⟨⟨100, 0, 0⟩⟩)).2 = some h ∧
      (∃ e', entry_of (update_node demo_env 4
          (run_ops demo_env (update_node demo_env 1 demo_mgr (some 7) (some ⟨⟨0, 0, 0⟩⟩)).1
            demo_ops)
          (some 7) (some ⟨⟨100, 0, 0⟩⟩)).1 7 = some e' ∧
        e'.state_with_input = h ∧ e'.node_sequence = e.node_sequence) ∧
      (update_node demo_env 4
        (run_ops demo_env (update_node demo_env 1 demo_mgr (some 7) (some ⟨⟨0, 0, 0⟩⟩)).1 demo_ops)
        (some 7) (some ⟨⟨100, 0, 0⟩⟩)).1._node_sequence
        = (run_ops demo_env (update_node demo_env 1 demo_mgr (some 7) (some ⟨⟨0, 0, 0⟩⟩)).1
            demo_ops)._node_sequence ∧
      (update_node demo_env 4
        (run_ops demo_env (update_node demo_env 1 demo_mgr (some 7) (some ⟨⟨0, 0, 0⟩⟩)).1 demo_ops)
        (some 7) (some ⟨⟨100, 0, 0⟩⟩)).1._node_data.keys
        = (run_ops demo_env (update_node demo_env 1 demo_mgr (some 7) (some ⟨⟨0, 0, 0⟩⟩)).1
            demo_ops)._node_data.keys :=
  ⟨by decide, rfl,
    C13_handle_stable demo_env 1 4 demo_mgr 7 ⟨⟨0, 0, 0⟩⟩ ⟨⟨100, 0, 0⟩⟩ demo_ops (by decide)⟩

/-! ### The number of slots -/

theorem slots_active_length_le (E : Env) (pc : Bool) (pos : LVector3) (inp : nodeshaderinput_t) :
    (slots_active E pc pos inp).length ≤ E.MAX_ACTIVE_LIGHTS := by
  simp only [slots_active, active_cands, List.length_take]
  exact min_le_left _ _

theorem slots_fades_length_le (E : Env) (pc avg : Bool) (pos : LVector3)
    (inp : nodeshaderinput_t) :
    (slots_fades E pc avg pos inp).length
      ≤ E.MAX_TOTAL_LIGHTS - (slots_active E pc pos inp).length := by
  unfold slots_fades
  cases avg
  · simp
  · simp only [if_true, fade_cands, List.length_take]
    exact min_le_left _ _

theorem slots_fades_lt (E : Env) (pc avg : Bool) (pos : LVector3) (inp : nodeshaderinput_t)
    (i : Nat) (hi : i ∈ slots_fades E pc avg pos inp) : i < inp.light_count := by
  unfold slots_fades at hi
  cases avg
  · simp at hi
  · simp only [if_true, fade_cands] at hi
    exact List.mem_range.1 (List.mem_of_mem_filter (List.mem_of_mem_take hi))

theorem mark_matched_lt (avg : Bool) (old : OldLights) (m : Nat → Bool) (l : light_t) (j : Nat)
    (h : mark_matched avg old m l j = true) : m j = true ∨ j < old.old_lightcount := by
  cases avg
  · exact Or.inl h
  · rcases (mark_matched_true old m l j).1 h with h | ⟨h, _⟩
    · exact Or.inl h
    · exact Or.inr (find_old_some old l.id j h).2

theorem foldl_mark_matched_lt (avg : Bool) (old : OldLights) (ls : List (Nat × light_t)) :
    ∀ (m : Nat → Bool) (j : Nat),
      ls.foldl (fun m p => mark_matched avg old m p.2) m j = true →
        m j = true ∨ j < old.old_lightcount := by
  induction ls with
  | nil => intro m j h; exact Or.inl h
  | cons p ls ih =>
    intro m j h
    rw [List.foldl_cons] at h
    rcases ih _ j h with h | h
    · exact mark_matched_lt avg old m p.2 j h
    · exact Or.inr h

theorem slots_matched_lt (E : Env) (pc avg : Bool) (pos : LVector3) (inp : nodeshaderinput_t)
    (j : Nat) (h : slots_matched E pc avg pos inp j = true) : j < inp.light_count := by
  unfold slots_matched at h
  rcases foldl_mark_matched_lt avg (copy_old inp) _ _ j h with h | h
  · cases h
  · exact h

/-- C14: with `MAX_ACTIVE_LIGHTS ≤ MAX_TOTAL_LIGHTS` and an entry that starts
with at most `MAX_TOTAL_LIGHTS` slots, after a call the entry has
`active_lights ≤ light_count ≤ MAX_TOTAL_LIGHTS`; the slot arrays are unchanged
from index `light_count` on (`light_data2` from index `active_lights` on), so
every slot written lies below `MAX_TOTAL_LIGHTS`; every previous slot read in
the call (by the search for an id, in the array `match`, by the fade loop) lies
below `MAX_TOTAL_LIGHTS`, and so does every slot the search of the next call
reads. -/
theorem C14_slot_count (E : Env) (now : ℚ) (mgr : AmbientProbeManager) (node : NodeId)
    (t : TransformState) (hmax : E.MAX_ACTIVE_LIGHTS ≤ E.MAX_TOTAL_LIGHTS)
    (h0 : (call_input mgr node).light_count ≤ E.MAX_TOTAL_LIGHTS) :
    ∃ e : nodeshaderinput_t,
      entry_of (update_node E now mgr (some node) (some t)).1 node = some e ∧
      e.active_lights ≤ e.light_count ∧ e.light_count ≤ E.MAX_TOTAL_LIGHTS ∧
      e.active_lights ≤ E.MAX_ACTIVE_LIGHTS ∧
      (∀ k, e.light_count ≤ k →
        e.light_ids k = (call_input mgr node).light_ids k ∧
        e.light_type k = (call_input mgr node).light_type k ∧
        e.light_data k = (call_input mgr node).light_data k) ∧
      (∀ k, e.active_lights ≤ k → e.light_data2 k = (call_input mgr node).light_data2 k) ∧
      (∀ (id : Int) (j : Nat),
        find_old (copy_old (call_input mgr node)) id = some j → j < E.MAX_TOTAL_LIGHTS) ∧
      (∀ j, slots_matched E (call_pos_changed E mgr node t) E.cfg_lightaverage t.pos
          (pre_slots E now mgr t (call_pos_changed E mgr node t) (call_input mgr node)) j = true →
        j < E.MAX_TOTAL_LIGHTS) ∧
      (∀ i ∈ slots_fades E (call_pos_changed E mgr node t) E.cfg_lightaverage t.pos
          (pre_slots E now mgr t (call_pos_changed E mgr node t) (call_input mgr node)),
        i < E.MAX_TOTAL_LIGHTS) ∧
      (∀ (id : Int) (j : Nat), find_old (copy_old e) id = some j → j < E.MAX_TOTAL_LIGHTS) := by
  refine ⟨_, entry_of_update_node E now mgr node t, ?_⟩
  obtain ⟨s1, s2, s3, s4, s5, s6, _, _⟩ := pre_slots_slots E now mgr t
    (call_pos_changed E mgr node t) (call_input mgr node)
  have hA := slots_active_length_le E (call_pos_changed E mgr node t) t.pos
    (pre_slots E now mgr t (call_pos_changed E mgr node t) (call_input mgr node))
  have hF := slots_fades_length_le E (call_pos_changed E mgr node t) E.cfg_lightaverage t.pos
    (pre_slots E now mgr t (call_pos_changed E mgr node t) (call_input mgr node))
  rw [update_input_eq, update_slots_eq _ _ _ _ _ _ (pre_slots_bits E now mgr t _ _)]
  simp only
  have hcount : (slots_active E (call_pos_changed E mgr node t) t.pos
      (pre_slots E now mgr t (call_pos_changed E mgr node t) (call_input mgr node))).length +
      (slots_fades E (call_pos_changed E mgr node t) E.cfg_lightaverage t.pos
      (pre_slots E now mgr t (call_pos_changed E mgr node t) (call_input mgr node))).length
      ≤ E.MAX_TOTAL_LIGHTS := by omega
  refine ⟨Nat.le_add_right _ _, hcount, hA, ?_, ?_, ?_, ?_, ?_, ?_⟩
  · intro k hk
    refine ⟨?_, ?_, ?_⟩
    · rw [overlay_ge _ _ _ _ (by simpa using hk), overlay_ge _ _ _ _ (by simp; omega), s3]
    · rw [overlay_ge _ _ _ _ (by simpa using hk), overlay_ge _ _ _ _ (by simp; omega), s4]
    · rw [overlay_ge _ _ _ _ (by simpa using hk), overlay_ge _ _ _ _ (by simp; omega), s5]
  · intro k hk
    rw [overlay_ge _ _ _ _ (by simpa using hk), s6]
  · intro id j hj
    exact lt_of_lt_of_le (find_old_some _ id j hj).2 h0
  · intro j hj
    have := slots_matched_lt E _ _ _ _ j hj
    rw [s1] at this
    exact lt_of_lt_of_le this h0
  · intro i hi
    have := slots_fades_lt E _ _ _ _ i hi
    rw [s1] at this
    exact lt_of_lt_of_le this h0
  · intro id j hj
    exact lt_of_lt_of_le (find_old_some _ id j hj).2 hcount

theorem C14_slot_count_witness :
    demo_env.MAX_ACTIVE_LIGHTS ≤ demo_env.MAX_TOTAL_LIGHTS ∧
    (call_input demo_mgr1 7).light_count ≤ demo_env.MAX_TOTAL_LIGHTS ∧
    ∃ e : nodeshaderinput_t,
      entry_of (update_node demo_env 2 demo_mgr1 (some 7) (some ⟨⟨100, 0, 0⟩⟩)).1 7 = some e ∧
      e.active_lights ≤ e.light_count ∧ e.light_count ≤ demo_env.MAX_TOTAL_LIGHTS ∧
      e.active_lights ≤ demo_env.MAX_ACTIVE_LIGHTS ∧
      (∀ k, e.light_count ≤ k →
        e.light_ids k = (call_input demo_mgr1 7).light_ids k ∧
        e.light_type k = (call_input demo_mgr1 7).light_type k ∧
        e.light_data k = (call_input demo_mgr1 7).light_data k) ∧
      (∀ k, e.active_lights ≤ k → e.light_data2 k = (call_input demo_mgr1 7).light_data2 k) ∧
      (∀ (id : Int) (j : Nat),
        find_old (copy_old (call_input demo_mgr1 7)) id = some j →
          j < demo_env.MAX_TOTAL_LIGHTS) ∧
      (∀ j, slots_matched demo_env (call_pos_changed demo_env demo_mgr1 7 ⟨⟨100, 0, 0⟩⟩)
          demo_env.cfg_lightaverage (⟨⟨100, 0, 0⟩⟩ : TransformState).pos
          (pre_slots demo_env 2 demo_mgr1 ⟨⟨100, 0, 0⟩⟩
            (call_pos_changed demo_env demo_mgr1 7 ⟨⟨100, 0, 0⟩⟩) (call_input demo_mgr1 7)) j
            = true →
        j < demo_env.MAX_TOTAL_LIGHTS) ∧
      (∀ i ∈ slots_fades demo_env (call_pos_changed demo_env demo_mgr1 7 ⟨⟨100, 0, 0⟩⟩)
          demo_env.cfg_lightaverage (⟨⟨100, 0, 0⟩⟩ : TransformState).pos
          (pre_slots demo_env 2 demo_mgr1 ⟨⟨100, 0, 0⟩⟩
            (call_pos_changed demo_env demo_mgr1 7 ⟨⟨100, 0, 0⟩⟩) (call_input demo_mgr1 7)),
        i < demo_env.MAX_TOTAL_LIGHTS) ∧
      (∀ (id : Int) (j : Nat),
        find_old (copy_old e) id = some j → j < demo_env.MAX_TOTAL_LIGHTS) :=
  ⟨by decide, by decide!,
    C14_slot_count demo_env 2 demo_mgr1 7 ⟨⟨100, 0, 0⟩⟩ (by decide) (by decide!)⟩

/-! ### The probe catalog -/

theorem probe_sample_loop_append (E : Env) (i : Nat) (ambidx : dleafambientindex_t)
    (js : List Nat) :
    ∀ s : ProbeBuild, ∃ added : List ambientprobe_t,
      (probe_sample_loop E i ambidx js s).all_probes = s.all_probes ++ added ∧
      (probe_sample_loop E i ambidx js s).probe_points
        = s.probe_points ++ added.map (fun p => p.pos) := by
  induction js with
  | nil => intro s; exact ⟨[], by simp [probe_sample_loop]⟩
  | cons j rest ih =>
    intro s
    obtain ⟨added, h1, h2⟩ := ih
      { probes := Function.update s.probes i (s.probes i ++ [make_probe E i ambidx j])
        probe_points := s.probe_points ++ [(make_probe E i ambidx j).pos]
        all_probes := s.all_probes ++ [make_probe E i ambidx j] }
    refine ⟨make_probe E i ambidx j :: added, ?_, ?_⟩
    · rw [probe_sample_loop, h1]; simp
    · rw [probe_sample_loop, h2]; simp

theorem probe_leaf_loop_append (E : Env) (idxs : List dleafambientindex_t) :
    ∀ (i : Nat) (s : ProbeBuild), ∃ added : List ambientprobe_t,
      (probe_leaf_loop E idxs i s).all_probes = s.all_probes ++ added ∧
      (probe_leaf_loop E idxs i s).probe_points
        = s.probe_points ++ added.map (fun p => p.pos) := by
  induction idxs with
  | nil => intro i s; exact ⟨[], by simp [probe_leaf_loop]⟩
  | cons ambidx rest ih =>
    intro i s
    obtain ⟨a1, h1, h2⟩ := probe_sample_loop_append E i ambidx
      (List.range ambidx.num_ambient_samples) { s with probes := Function.update s.probes i [] }
    obtain ⟨a2, g1, g2⟩ := ih (i + 1) (probe_sample_loop E i ambidx
      (List.range ambidx.num_ambient_samples) { s with probes := Function.update s.probes i [] })
    refine ⟨a1 ++ a2, ?_, ?_⟩
    · rw [probe_leaf_loop, g1, h1]; simp
    · rw [probe_leaf_loop, g2, h2]; simp

/-- The flattened probe sequence after `process_ambient_probes` is the
sequence before the call followed by the probes whose positions are given to
the tree. -/
theorem process_all_probes_append (E : Env) (mgr : AmbientProbeManager) :
    ∃ added : List ambientprobe_t,
      (process_ambient_probes E mgr)._all_probes = mgr._all_probes ++ added ∧
      (process_ambient_probes E mgr)._probe_kdtree = some ⟨added.map (fun p => p.pos)⟩ := by
  obtain ⟨added, h1, h2⟩ := probe_leaf_loop_append E E.leafambientindex 0
    { probes := mgr._probes, probe_points := [], all_probes := mgr._all_probes }
  refine ⟨added, h1, ?_⟩
  unfold process_ambient_probes
  simp only
  rw [h2]
  simp

/-- C17, the code at a failing input: `process_ambient_probes` is run for the
example level and then, without `cleanup` in between, for the second example
level.  The flattened sequence `_all_probes` is not emptied by the second run:
it holds four probes, at x = 0, 10, 2, 10, while the tree is built from the two
points x = 2, 10 and the group of leaf 0 holds the probe at x = 2 only.  The
tree index 0 of the point x = 2 names the probe at x = 0 of the first run, and
a call of `update_node` at (2, 0, 0) selects that probe. -/
theorem C17_all_probes_kept :
    (process_ambient_probes demo_env2
      (process_ambient_probes demo_env AmbientProbeManager.new))._all_probes.map (fun p => p.pos)
      = [⟨0, 0, 0⟩, ⟨10, 0, 0⟩, ⟨2, 0, 0⟩, ⟨10, 0, 0⟩] ∧
    (process_ambient_probes demo_env2
      (process_ambient_probes demo_env AmbientProbeManager.new))._probe_kdtree.map
        (fun tree => tree.points) = some [⟨2, 0, 0⟩, ⟨10, 0, 0⟩] ∧
    ((process_ambient_probes demo_env2
      (process_ambient_probes demo_env AmbientProbeManager.new))._probes 0).map (fun p => p.pos)
      = [⟨2, 0, 0⟩] ∧
    ((process_ambient_probes demo_env2
      (process_ambient_probes demo_env AmbientProbeManager.new))._probes 1).map (fun p => p.pos)
      = [⟨10, 0, 0⟩] ∧
    (entry_of (update_node demo_env2 1
      (process_ambient_probes demo_env2 (process_ambient_probes demo_env AmbientProbeManager.new))
      (some 7) (some ⟨⟨2, 0, 0⟩⟩)).1 7).map (fun e => e.amb_probe.map (fun p => p.pos))
      = some (some ⟨0, 0, 0⟩) := by
  decide!

/-! ### A level without lights -/

theorem getD_nil_of_all_nil {α : Type} (ls : List (List α)) (h : ∀ l ∈ ls, l = []) (L : Nat) :
    ls.getD L [] = [] := by
  rw [List.getD_eq_getElem?_getD]
  cases hg : ls[L]? with
  | none => rfl
  | some l => exact h l (List.mem_iff_getElem?.2 ⟨L, hg⟩)

theorem slots_active_nil (E : Env) (pc : Bool) (pos : LVector3) (inp : nodeshaderinput_t)
    (h : inp.locallights = []) : slots_active E pc pos inp = [] := by
  simp [slots_active, active_cands, visible_cands, h]

theorem slots_fades_nil (E : Env) (pc avg : Bool) (pos : LVector3) (inp : nodeshaderinput_t)
    (h : inp.light_count = 0) : slots_fades E pc avg pos inp = [] := by
  unfold slots_fades
  cases avg
  · rfl
  · simp [fade_cands, h]

theorem scan_bits_nil (E : Env) (pos : LVector3) (sky : Int) (i budget : Nat)
    (bits : Nat → Bool) : scan_bits E pos sky [] i budget bits = bits := rfl

/-- The candidate list before the slot loops, in a manager without sun and
without lights in the leaf lists, for an entry whose list is empty. -/
theorem pre_slots_no_lights (E : Env) (now : ℚ) (mgr : AmbientProbeManager) (t : TransformState)
    (pc : Bool) (inp : nodeshaderinput_t) (hsun : mgr._sunlight = none)
    (hpvs : ∀ l ∈ mgr._light_pvs, l = []) (hin : inp.locallights = []) :
    (pre_slots E now mgr t pc inp).locallights = [] := by
  cases pc
  · rw [(pre_slots_unchanged E now mgr t inp).2.1]; exact hin
  · rw [(pre_slots_locallights_changed E now mgr t inp).1, hsun,
      getD_nil_of_all_nil _ hpvs]
    simp [sort_lights]

/-- C18: in a manager without sun and with empty light lists for all leaves,
for an entry whose candidate list is empty (a new one, or one cached in this
level), a call with a node and a transform returns the handle of the entry,
and afterwards the entry has `active_lights = 0` and an empty candidate list;
`light_data2` is untouched; the occlusion bits are all clear after a move and
untouched otherwise; for a node without an entry before the call `light_count`
is 0 and the slot arrays are as constructed. -/
theorem C18_no_lights (E : Env) (now : ℚ) (mgr : AmbientProbeManager) (node : NodeId)
    (t : TransformState) (hsun : mgr._sunlight = none) (hpvs : ∀ l ∈ mgr._light_pvs, l = [])
    (hin : (call_input mgr node).locallights = []) :
    ∃ (h : RenderState) (e : nodeshaderinput_t),
      (update_node E now mgr (some node) (some t)).2 = some h ∧
      entry_of (update_node E now mgr (some node) (some t)).1 node = some e ∧
      e.state_with_input = h ∧
      e.active_lights = 0 ∧
      e.locallights = [] ∧
      e.light_data2 = (call_input mgr node).light_data2 ∧
      (call_pos_changed E mgr node t = true → ∀ j, e.occluded_lights j = false) ∧
      (call_pos_changed E mgr node t = false →
        e.occluded_lights = (call_input mgr node).occluded_lights) ∧
      (entry_of mgr node = none →
        e.light_count = 0 ∧
        e.light_ids = nodeshaderinput_t.fresh.light_ids ∧
        e.light_type = nodeshaderinput_t.fresh.light_type ∧
        e.light_data = nodeshaderinput_t.fresh.light_data) := by
  have hloc := pre_slots_no_lights E now mgr t (call_pos_changed E mgr node t)
    (call_input mgr node) hsun hpvs hin
  have hA := slots_active_nil E (call_pos_changed E mgr node t) t.pos _ hloc
  obtain ⟨s1, s2, s3, s4, s5, s6, _, _⟩ := pre_slots_slots E now mgr t
    (call_pos_changed E mgr node t) (call_input mgr node)
  refine ⟨_, _, update_node_handle E now mgr node t, entry_of_update_node E now mgr node t,
    (update_input_handle E now mgr t _ _).1, ?_⟩
  rw [update_input_eq, update_slots_eq _ _ _ _ _ _ (pre_slots_bits E now mgr t _ _)]
  simp only [hA, List.length_nil, List.map_nil, overlay_nil, hloc, scan_bits_nil]
  refine ⟨trivial, trivial, s6, ?_, ?_, ?_⟩
  · intro hpc j
    rw [if_pos hpc]
    exact pre_slots_bits E now mgr t _ _ hpc j
  · intro hpc
    rw [if_neg (by simp [hpc])]
    rw [hpc]
    exact (pre_slots_unchanged E now mgr t _).1
  · intro hn
    have hc : (call_input mgr node).light_count = 0 := by
      rw [(update_node_new E now mgr node t hn).2]; rfl
    have hF := slots_fades_nil E (call_pos_changed E mgr node t) E.cfg_lightaverage t.pos
      (pre_slots E now mgr t (call_pos_changed E mgr node t) (call_input mgr node))
      (by rw [s1]; exact hc)
    simp only [hF, List.length_nil, List.map_nil, overlay_nil, s3, s4, s5]
    rw [(update_node_new E now mgr node t hn).2]
    exact ⟨trivial, rfl, rfl, rfl⟩

theorem C18_no_lights_witness :
    (process_ambient_probes demo_env_dark AmbientProbeManager.new)._sunlight = none ∧
    (∀ l ∈ (process_ambient_probes demo_env_dark AmbientProbeManager.new)._light_pvs, l = []) ∧
    (call_input (process_ambient_probes demo_env_dark AmbientProbeManager.new) 7).locallights
      = [] ∧
    (process_ambient_probes demo_env_dark AmbientProbeManager.new)._light_pvs.length = 3 ∧
    ∃ (h : RenderState) (e : nodeshaderinput_t),
      (update_node demo_env_dark 1 (process_ambient_probes demo_env_dark AmbientProbeManager.new)
        (some 7) (some ⟨⟨0, 0, 0⟩⟩)).2 = some h ∧
      entry_of (update_node demo_env_dark 1
        (process_ambient_probes demo_env_dark AmbientProbeManager.new)
        (some 7) (some ⟨⟨0, 0, 0⟩⟩)).1 7 = some e ∧
      e.state_with_input = h ∧
      e.active_lights = 0 ∧
      e.locallights = [] ∧
      e.light_data2
        = (call_input (process_ambient_probes demo_env_dark AmbientProbeManager.new) 7).light_data2 ∧
      (call_pos_changed demo_env_dark
          (process_ambient_probes demo_env_dark AmbientProbeManager.new) 7 ⟨⟨0, 0, 0⟩⟩ = true →
        ∀ j, e.occluded_lights j = false) ∧
      (call_pos_changed demo_env_dark
          (process_ambient_probes demo_env_dark AmbientProbeManager.new) 7 ⟨⟨0, 0, 0⟩⟩ = false →
        e.occluded_lights
          = (call_input (process_ambient_probes demo_env_dark AmbientProbeManager.new)
              7).occluded_lights) ∧
      (entry_of (process_ambient_probes demo_env_dark AmbientProbeManager.new) 7 = none →
        e.light_count = 0 ∧
        e.light_ids = nodeshaderinput_t.fresh.light_ids ∧
        e.light_type = nodeshaderinput_t.fresh.light_type ∧
        e.light_data = nodeshaderinput_t.fresh.light_data) :=
  ⟨by decide!, by decide!, by decide!, by decide!,
    C18_no_lights demo_env_dark 1 (process_ambient_probes demo_env_dark AmbientProbeManager.new) 7
      ⟨⟨0, 0, 0⟩⟩ (by decide!) (by decide!) (by decide!)⟩

/-! ### The order of the candidates -/

theorem update_found_pos_lookup (E : Env) (now : ℚ) (mgr : AmbientProbeManager) (node : NodeId)
    (t : TransformState) (ni : Bool) (inp : nodeshaderinput_t) :
    (update_found E now mgr node t ni inp).1._pos_cache.lookup node =
      if pos_changed_of E (mgr._pos_cache.lookup node) t ni = true then some t
      else match mgr._pos_cache.lookup node with
        | some p => some p
        | none => some t := by
  unfold update_found
  simp only
  by_cases hpc : pos_changed_of E (mgr._pos_cache.lookup node) t ni = true
  · rw [if_pos hpc, if_pos hpc]
    exact SimpleHashMap.lookup_store_self _ _ _
  · rw [if_neg hpc, if_neg hpc]
    cases hl : SimpleHashMap.lookup mgr._pos_cache node with
    | none => exact SimpleHashMap.lookup_store_self _ _ _
    | some p => exact hl

theorem update_found_pos_lookup_ne (E : Env) (now : ℚ) (mgr : AmbientProbeManager)
    (node : NodeId) (t : TransformState) (ni : Bool) (inp : nodeshaderinput_t) (node' : NodeId)
    (hne : node' ≠ node) :
    (update_found E now mgr node t ni inp).1._pos_cache.lookup node'
      = mgr._pos_cache.lookup node' := by
  unfold update_found
  simp only
  cases hl : SimpleHashMap.lookup mgr._pos_cache node with
  | none =>
    simp only
    split_ifs
    · rw [SimpleHashMap.lookup_store_ne _ _ _ _ hne, SimpleHashMap.lookup_store_ne _ _ _ _ hne]
    · rw [SimpleHashMap.lookup_store_ne _ _ _ _ hne]
  | some p =>
    simp only
    split_ifs
    · rw [SimpleHashMap.lookup_store_ne _ _ _ _ hne]
    · rfl

/-- The cached position of the node after a call: the position of the call
when the call finds the position changed, the cached one otherwise. -/
theorem update_node_pos_lookup (E : Env) (now : ℚ) (mgr : AmbientProbeManager) (node : NodeId)
    (t : TransformState) :
    (update_node E now mgr (some node) (some t)).1._pos_cache.lookup node =
      if call_pos_changed E mgr node t = true then some t
      else match mgr._pos_cache.lookup node with
        | some p => some p
        | none => some t := by
  unfold update_node call_pos_changed
  simp only
  cases hf : mgr._node_data.find node with
  | none =>
    simp only
    rw [update_found_pos_lookup, pos_changed_of_new]
    simp
  | some itr =>
    simp only
    have hg := SimpleHashMap.find_some_get_data _ _ _ hf
    cases hl : SimpleHashMap.lookup mgr._node_data node with
    | none =>
      rw [(SimpleHashMap.find_eq_none_iff _ _).2 hl] at hf
      cases hf
    | some inp =>
      rw [hl] at hg
      rw [hg]
      exact update_found_pos_lookup E now mgr node t false inp

theorem update_node_pos_lookup_ne (E : Env) (now : ℚ) (mgr : AmbientProbeManager)
    (node : NodeId) (t : TransformState) (node' : NodeId) (hne : node' ≠ node) :
    (update_node E now mgr (some node) (some t)).1._pos_cache.lookup node'
      = mgr._pos_cache.lookup node' := by
  unfold update_node
  simp only
  cases mgr._node_data.find node with
  | none =>
    simp only
    rw [update_found_pos_lookup_ne _ _ _ _ _ _ _ _ hne]
    exact SimpleHashMap.lookup_store_ne _ _ _ _ hne
  | some itr =>
    simp only
    cases mgr._node_data.get_data itr with
    | none => rfl
    | some inp => exact update_found_pos_lookup_ne _ _ _ _ _ _ _ _ hne

theorem wp_callback_entry_self (mgr : AmbientProbeManager) (n : NodeId)
    (h : mgr._node_data.keys.Nodup) : entry_of (wp_callback mgr n) n = none := by
  rw [entry_of, SimpleHashMap.lookup_eq_none_iff_not_mem, wp_callback_node_keys,
    h.mem_erase_iff]
  exact fun h => h.1 rfl

/-- The occlusion bits of the entry after a call, for an entry whose bits
belong to the cached position. -/
theorem update_input_bits (E : Env) (now : ℚ) (mgr : AmbientProbeManager) (t p : TransformState)
    (pc : Bool) (inp : nodeshaderinput_t)
    (hinv : pc = false → inp.occluded_lights =
      scan_bits E p.pos inp.sky_idx inp.locallights 0 E.MAX_ACTIVE_LIGHTS (fun _ => false))
    (hp : pc = true → p = t) :
    (update_input E now mgr t pc inp).occluded_lights =
      scan_bits E p.pos (update_input E now mgr t pc inp).sky_idx
        (update_input E now mgr t pc inp).locallights 0 E.MAX_ACTIVE_LIGHTS (fun _ => false) ∧
    slots_active E pc t.pos (pre_slots E now mgr t pc inp) =
      ((List.enumFrom 0 (update_input E now mgr t pc inp).locallights).filter
        (fun c => !occluded_at E p.pos (update_input E now mgr t pc inp).sky_idx c)).take
        E.MAX_ACTIVE_LIGHTS := by
  obtain ⟨f1, f2, _⟩ := update_input_fields E now mgr t pc inp
  rw [f1, f2]
  rw [update_input_eq, update_slots_eq _ _ _ _ _ _ (pre_slots_bits E now mgr t _ _)]
  simp only
  cases pc with
  | true =>
    obtain rfl := hp rfl
    simp only [if_true]
    rw [pre_slots_bits_changed]
    exact ⟨rfl, rfl⟩
  | false =>
    obtain ⟨u1, u2, u3, _⟩ := pre_slots_unchanged E now mgr t inp
    simp only [Bool.false_eq_true, if_false]
    rw [u1, u2, u3]
    refine ⟨hinv rfl, ?_⟩
    unfold slots_active
    rw [u1, u2, u3, hinv rfl]
    have h := active_cands_scan E p.pos inp.sky_idx inp.locallights 0 E.MAX_ACTIVE_LIGHTS
      (fun _ => false) (fun _ _ => rfl)
    exact h

theorem occlusion_ok_update_node (E : Env) (now : ℚ) (mgr : AmbientProbeManager)
    (n : Option NodeId) (t : Option TransformState) (h : occlusion_ok E mgr) :
    occlusion_ok E (update_node E now mgr n t).1 := by
  cases n with
  | none => rw [update_node_of_none E now mgr none t (Or.inl rfl)]; exact h
  | some n =>
    cases t with
    | none => rw [update_node_of_none E now mgr _ none (Or.inr rfl)]; exact h
    | some t =>
      intro node e he
      by_cases hn : node = n
      · subst hn
        rw [entry_of_update_node] at he
        simp only [Option.some.injEq] at he
        subst he
        rw [update_node_pos_lookup]
        by_cases hpc : call_pos_changed E mgr node t = true
        · rw [if_pos hpc]
          refine ⟨t, rfl, ?_⟩
          rw [hpc]
          exact (update_input_bits E now mgr t t true _ (fun h => by cases h) (fun _ => rfl)).1
        · rw [if_neg hpc]
          have hpc' : call_pos_changed E mgr node t = false := by simpa using hpc
          have hf : ∃ e0, entry_of mgr node = some e0 := by
            unfold call_pos_changed at hpc'
            cases hfind : mgr._node_data.find node with
            | none => rw [hfind] at hpc'; cases hpc'
            | some itr =>
              cases hl : entry_of mgr node with
              | none =>
                rw [entry_of, ← SimpleHashMap.find_eq_none_iff] at hl
                rw [hl] at hfind
                cases hfind
              | some e0 => exact ⟨e0, rfl⟩
          obtain ⟨e0, he0⟩ := hf
          obtain ⟨p, hp, hb⟩ := h node e0 he0
          rw [hp]
          refine ⟨p, rfl, ?_⟩
          rw [hpc', call_input_of_some mgr node e0 he0]
          exact (update_input_bits E now mgr t p false e0 (fun _ => hb) (fun h => by cases h)).1
      · rw [entry_of_update_node_ne E now mgr n t node hn] at he
        rw [update_node_pos_lookup_ne E now mgr n t node hn]
        exact h node e he

theorem occlusion_ok_run_op (E : Env) (mgr : AmbientProbeManager) (op : CacheOp)
    (hc : cache_ok mgr) (h : occlusion_ok E mgr) : occlusion_ok E (run_op E mgr op) := by
  cases op with
  | update now n t => exact occlusion_ok_update_node E now mgr n t h
  | destroy n =>
    intro node e he
    by_cases hn : node = n
    · subst hn
      rw [run_op, wp_callback_entry_self mgr node hc.1] at he
      cases he
    · rw [run_op, wp_callback_entry_ne mgr n node hn] at he
      rw [run_op, wp_callback_pos_ne mgr n node hn]
      exact h node e he
  | cleanup =>
    intro node e he
    simp [run_op, cleanup, entry_of, SimpleHashMap.lookup_nil] at he

theorem occlusion_ok_run_ops (E : Env) (ops : List CacheOp) (mgr : AmbientProbeManager)
    (hc : cache_ok mgr) (h : occlusion_ok E mgr) : occlusion_ok E (run_ops E mgr ops) := by
  induction ops generalizing mgr with
  | nil => exact h
  | cons op rest ih =>
    rw [run_ops_cons]
    exact ih _ (cache_ok_run_op E mgr op hc) (occlusion_ok_run_op E mgr op hc h)

theorem occlusion_ok_of_empty (E : Env) (mgr : AmbientProbeManager) (h : mgr._node_data = []) :
    occlusion_ok E mgr := by
  intro node e he
  rw [entry_of, h, SimpleHashMap.lookup_nil] at he
  cases he

theorem map_range_eq_map {α β : Type} (l : List α) (f : Nat → β) (g : α → β)
    (h : ∀ (k : Nat) (hk : k < l.length), f k = g (l.get ⟨k, hk⟩)) :
    (List.range l.length).map f = l.map g := by
  apply List.ext_getElem
  · simp
  · intro k h1 h2
    simp only [List.getElem_map, List.getElem_range]
    exact h k (by simpa using h2)

/-! ### The content of the active slots -/

theorem take_min_length {α : Type} (l : List α) (n : Nat) :
    l.take (min n l.length) = l.take n := by
  rw [List.take_eq_take]
  simp

/-- The candidates written to the active slots by a call in a cache whose
occlusion bits belong to the cached positions: the first candidates that are
not occluded at the cached position the call leaves. -/
theorem call_slots_active (E : Env) (now : ℚ) (mgr : AmbientProbeManager) (node : NodeId)
    (t : TransformState) (ho : occlusion_ok E mgr) :
    ∃ p : TransformState,
      (update_node E now mgr (some node) (some t)).1._pos_cache.lookup node = some p ∧
      (call_pos_changed E mgr node t = true → p = t) ∧
      (call_pos_changed E mgr node t = false → mgr._pos_cache.lookup node = some p) ∧
      slots_active E (call_pos_changed E mgr node t) t.pos
          (pre_slots E now mgr t (call_pos_changed E mgr node t) (call_input mgr node)) =
        ((List.enumFrom 0 (update_input E now mgr t (call_pos_changed E mgr node t)
            (call_input mgr node)).locallights).filter
          (fun c => !occluded_at E p.pos (update_input E now mgr t
            (call_pos_changed E mgr node t) (call_input mgr node)).sky_idx c)).take
          E.MAX_ACTIVE_LIGHTS := by
  rw [update_node_pos_lookup]
  by_cases hpc : call_pos_changed E mgr node t = true
  · rw [if_pos hpc]
    refine ⟨t, rfl, fun _ => rfl, fun h => (by rw [hpc] at h; cases h), ?_⟩
    rw [hpc]
    exact (update_input_bits E now mgr t t true _ (fun h => by cases h) (fun _ => rfl)).2
  · rw [if_neg hpc]
    have hpc' : call_pos_changed E mgr node t = false := by simpa using hpc
    have hf : ∃ e0, entry_of mgr node = some e0 := by
      unfold call_pos_changed at hpc'
      cases hfind : mgr._node_data.find node with
      | none => rw [hfind] at hpc'; cases hpc'
      | some itr =>
        cases hl : entry_of mgr node with
        | none =>
          rw [entry_of, ← SimpleHashMap.find_eq_none_iff] at hl
          rw [hl] at hfind
          cases hfind
        | some e0 => exact ⟨e0, rfl⟩
    obtain ⟨e0, he0⟩ := hf
    obtain ⟨p, hp, hb⟩ := ho node e0 he0
    rw [hp]
    refine ⟨p, rfl, fun h => absurd h hpc, fun _ => rfl, ?_⟩
    rw [hpc', call_input_of_some mgr node e0 he0]
    exact (update_input_bits E now mgr t p false e0 (fun _ => hb) (fun h => by cases h)).2

/-- C20: from a manager with an empty cache, after any sequence of
operations, a call of `update_node` leaves in the active slots
`0 .. active_lights - 1` the ids of the first `active_lights` candidates, in
the order of the candidate list, that are not occluded; a candidate is
occluded when it is not the entry at the sky index and `is_light_visible`
fails for it at the cached position `p` of the object, which is the position of
this call when the call finds the position changed and the position cached
before otherwise.  `active_lights` is the smaller of `MAX_ACTIVE_LIGHTS` and
the number of such candidates, and every active slot holds the id of a
candidate that is not occluded. -/
theorem C20_active_slots (E : Env) (mgr : AmbientProbeManager) (ops : List CacheOp) (now : ℚ)
    (node : NodeId) (t : TransformState) (h1 : mgr._node_data = []) (h2 : mgr._pos_cache = []) :
    ∃ (e : nodeshaderinput_t) (p : TransformState),
      entry_of (update_node E now (run_ops E mgr ops) (some node) (some t)).1 node = some e ∧
      (update_node E now (run_ops E mgr ops) (some node) (some t)).1._pos_cache.lookup node
        = some p ∧
      (call_pos_changed E (run_ops E mgr ops) node t = true → p = t) ∧
      (call_pos_changed E (run_ops E mgr ops) node t = false →
        (run_ops E mgr ops)._pos_cache.lookup node = some p) ∧
      e.active_lights = min E.MAX_ACTIVE_LIGHTS
        (e.locallights.enum.filter (fun c => !occluded_at E p.pos e.sky_idx c)).length ∧
      (List.range e.active_lights).map e.light_ids =
        ((e.locallights.enum.filter (fun c => !occluded_at E p.pos e.sky_idx c)).take
          e.active_lights).map (fun c => c.2.id) ∧
      (∀ k, k < e.active_lights →
        ∃ c ∈ e.locallights.enum,
          occluded_at E p.pos e.sky_idx c = false ∧ e.light_ids k = c.2.id) := by
  have ho : occlusion_ok E (run_ops E mgr ops) :=
    occlusion_ok_run_ops E ops mgr (cache_ok_of_empty mgr h1 h2) (occlusion_ok_of_empty E mgr h1)
  obtain ⟨p, hp, hp1, hp2, hA⟩ := call_slots_active E now (run_ops E mgr ops) node t ho
  refine ⟨_, p, entry_of_update_node E now (run_ops E mgr ops) node t, hp, hp1, hp2, ?_⟩
  obtain ⟨r1, _, r3, _⟩ := update_slots_read E (call_pos_changed E (run_ops E mgr ops) node t)
    E.cfg_lightaverage (atten_of E now (call_input (run_ops E mgr ops) node)) t.pos
    (pre_slots E now (run_ops E mgr ops) t (call_pos_changed E (run_ops E mgr ops) node t)
      (call_input (run_ops E mgr ops) node)) (pre_slots_bits E now _ t _ _)
  rw [← update_input_eq] at r1 r3
  have hlen : (update_input E now (run_ops E mgr ops) t
      (call_pos_changed E (run_ops E mgr ops) node t)
      (call_input (run_ops E mgr ops) node)).active_lights = min E.MAX_ACTIVE_LIGHTS
      ((update_input E now (run_ops E mgr ops) t
        (call_pos_changed E (run_ops E mgr ops) node t)
        (call_input (run_ops E mgr ops) node)).locallights.enum.filter
        (fun c => !occluded_at E p.pos (update_input E now (run_ops E mgr ops) t
          (call_pos_changed E (run_ops E mgr ops) node t)
          (call_input (run_ops E mgr ops) node)).sky_idx c)).length := by
    rw [r1, hA, List.length_take]
    rfl
  refine ⟨hlen, ?_, ?_⟩
  · have hids := map_range_eq_map _ _ (fun c : Nat × light_t => c.2.id) (fun k hk => (r3 k hk).1)
    rw [← r1] at hids
    rw [hids, hA, hlen, take_min_length]
    rfl
  · intro k hk
    rw [r1] at hk
    have key : ∀ c ∈ slots_active E (call_pos_changed E (run_ops E mgr ops) node t) t.pos
        (pre_slots E now (run_ops E mgr ops) t (call_pos_changed E (run_ops E mgr ops) node t)
          (call_input (run_ops E mgr ops) node)),
        c ∈ (update_input E now (run_ops E mgr ops) t
          (call_pos_changed E (run_ops E mgr ops) node t)
          (call_input (run_ops E mgr ops) node)).locallights.enum ∧
        occluded_at E p.pos (update_input E now (run_ops E mgr ops) t
          (call_pos_changed E (run_ops E mgr ops) node t)
          (call_input (run_ops E mgr ops) node)).sky_idx c = false := by
      intro c hc
      rw [hA] at hc
      have hf := List.mem_filter.1 (List.mem_of_mem_take hc)
      exact ⟨hf.1, by simpa using hf.2⟩
    obtain ⟨k1, k2⟩ := key _ (List.get_mem _ k hk)
    exact ⟨_, k1, k2, (r3 k hk).1⟩

theorem C20_active_slots_witness :
    demo_mgr._node_data = [] ∧ demo_mgr._pos_cache = [] ∧
    call_pos_changed demo_env
      (run_ops demo_env demo_mgr [CacheOp.update 1 (some 7) (some ⟨⟨0, 0, 0⟩⟩)]) 7
      ⟨⟨0, 0, 0⟩⟩ = false ∧
    ∃ (e : nodeshaderinput_t) (p : TransformState),
      entry_of (update_node demo_env 2
        (run_ops demo_env demo_mgr [CacheOp.update 1 (some 7) (some ⟨⟨0, 0, 0⟩⟩)])
        (some 7) (some ⟨⟨0, 0, 0⟩⟩)).1 7 = some e ∧
      (update_node demo_env 2
        (run_ops demo_env demo_mgr [CacheOp.update 1 (some 7) (some ⟨⟨0, 0, 0⟩⟩)])
        (some 7) (some ⟨⟨0, 0, 0⟩⟩)).1._pos_cache.lookup 7 = some p ∧
      (call_pos_changed demo_env
          (run_ops demo_env demo_mgr [CacheOp.update 1 (some 7) (some ⟨⟨0, 0, 0⟩⟩)]) 7
          ⟨⟨0, 0, 0⟩⟩ = true → p = ⟨⟨0, 0, 0⟩⟩) ∧
      (call_pos_changed demo_env
          (run_ops demo_env demo_mgr [CacheOp.update 1 (some 7) (some ⟨⟨0, 0, 0⟩⟩)]) 7
          ⟨⟨0, 0, 0⟩⟩ = false →
        (run_ops demo_env demo_mgr
          [CacheOp.update 1 (some 7) (some ⟨⟨0, 0, 0⟩⟩)])._pos_cache.lookup 7 = some p) ∧
      e.active_lights = min demo_env.MAX_ACTIVE_LIGHTS
        (e.locallights.enum.filter (fun c => !occluded_at demo_env p.pos e.sky_idx c)).length ∧
      (List.range e.active_lights).map e.light_ids =
        ((e.locallights.enum.filter (fun c => !occluded_at demo_env p.pos e.sky_idx c)).take
          e.active_lights).map (fun c => c.2.id) ∧
      (∀ k, k < e.active_lights →
        ∃ c ∈ e.locallights.enum,
          occluded_at demo_env p.pos e.sky_idx c = false ∧ e.light_ids k = c.2.id) :=
  ⟨rfl, rfl, by decide!,
    C20_active_slots demo_env demo_mgr [CacheOp.update 1 (some 7) (some ⟨⟨0, 0, 0⟩⟩)] 2 7
      ⟨⟨0, 0, 0⟩⟩ rfl rfl⟩

/-! ### Matched slots and the colour of the active lights -/

theorem find_old_none (old : OldLights) (id : Int) (h : find_old old id = none) :
    ∀ j, j < old.old_lightcount → old.old_lightids j ≠ id := by
  unfold find_old at h
  rw [List.find?_eq_none] at h
  intro j hj
  have := h j (List.mem_range.2 hj)
  simpa using this

theorem find_old_first (old : OldLights) (id : Int) (j : Nat) (h : find_old old id = some j) :
    ∀ i, i < j → old.old_lightids i ≠ id := by
  intro i hi hid
  have hj := (find_old_some old id j h).2
  have hex : ∃ m, m ≤ i ∧ old.old_lightids m = id ∧ ∀ n, n < m → old.old_lightids n ≠ id := by
    classical
    have hP : ∃ m, old.old_lightids m = id := ⟨i, hid⟩
    refine ⟨Nat.find hP, Nat.find_min' hP hid, Nat.find_spec hP, fun n hn => Nat.find_min hP hn⟩
  obtain ⟨m, hm, hmid, hmin⟩ := hex
  have := find_old_eq_some old id m (by omega) hmid hmin
  rw [h] at this
  simp only [Option.some.injEq] at this
  omega

/-- The active slots of the entry after a call hold candidates of the list. -/
theorem call_active_slot (E : Env) (now : ℚ) (mgr : AmbientProbeManager) (t : TransformState)
    (pc : Bool) (inp : nodeshaderinput_t) (k : Nat)
    (hk : k < (update_input E now mgr t pc inp).active_lights) :
    ∃ light ∈ (update_input E now mgr t pc inp).locallights,
      (update_input E now mgr t pc inp).light_ids k = light.id ∧
      (update_input E now mgr t pc inp).light_type k = light.type ∧
      (update_input E now mgr t pc inp).light_data k
        = packed_data E.cfg_lightaverage (atten_of E now inp) (copy_old inp) light ∧
      (update_input E now mgr t pc inp).light_data2 k = ⟨light.falloff2, light.falloff3⟩ := by
  obtain ⟨r1, _, r3, _⟩ := update_slots_read E pc E.cfg_lightaverage (atten_of E now inp) t.pos
    (pre_slots E now mgr t pc inp) (pre_slots_bits E now mgr t pc inp)
  rw [← update_input_eq] at r1 r3
  rw [r1] at hk
  obtain ⟨a, b, c, d⟩ := r3 k hk
  rw [copy_old_pre_slots] at c
  refine ⟨_, ?_, a, b, c, d⟩
  rw [(update_input_fields E now mgr t pc inp).1]
  have hmem := List.get_mem (slots_active E pc t.pos (pre_slots E now mgr t pc inp)) k hk
  have key : ∀ c ∈ slots_active E pc t.pos (pre_slots E now mgr t pc inp),
      c.2 ∈ (pre_slots E now mgr t pc inp).locallights := by
    intro c hc
    unfold slots_active active_cands visible_cands at hc
    have := List.mem_of_mem_filter (List.mem_of_mem_take hc)
    exact (List.mem_enumFrom this).2.2 ▸ List.getElem_mem _
  exact key _ hmem

/-- C22: a light written to an active slot `k` is a candidate of the list,
and the colour stored in the slot is, with averaging on, `c - (c - o) * atten`
where `c` is the colour of the light and `o` the colour of the first previous
slot below the previous `light_count` with the id of the light; without such a
slot `o` is black and the colour is `c * (1 - atten)`.  With averaging off the
colour is `c`. -/
theorem C22_active_colour (E : Env) (now : ℚ) (mgr : AmbientProbeManager) (node : NodeId)
    (t : TransformState) :
    ∃ e : nodeshaderinput_t,
      entry_of (update_node E now mgr (some node) (some t)).1 node = some e ∧
      ∀ k, k < e.active_lights →
        ∃ light ∈ e.locallights,
          e.light_ids k = light.id ∧
          (E.cfg_lightaverage = true →
            (∀ j, j < (call_input mgr node).light_count →
              (call_input mgr node).light_ids j = light.id →
              (∀ i, i < j → (call_input mgr node).light_ids i ≠ light.id) →
              (e.light_data k).row3 = light.color.sub
                ((light.color.sub ((call_input mgr node).light_data j).row3).scale
                  (atten_of E now (call_input mgr node)))) ∧
            ((∀ j, j < (call_input mgr node).light_count →
                (call_input mgr node).light_ids j ≠ light.id) →
              (e.light_data k).row3 = light.color.sub
                ((light.color.sub LVector3.zero).scale (atten_of E now (call_input mgr node))) ∧
              (e.light_data k).row3
                = light.color.scale (1 - atten_of E now (call_input mgr node)))) ∧
          (E.cfg_lightaverage = false → (e.light_data k).row3 = light.color) := by
  refine ⟨_, entry_of_update_node E now mgr node t, ?_⟩
  intro k hk
  obtain ⟨light, hl, hid, _, hdata, _⟩ := call_active_slot E now mgr t
    (call_pos_changed E mgr node t) (call_input mgr node) k hk
  refine ⟨light, hl, hid, ?_, ?_⟩
  · intro havg
    rw [hdata, havg]
    constructor
    · intro j hj hjid hfirst
      rw [packed_data_found _ _ _ j (find_old_eq_some _ _ j hj hjid hfirst)]
      rfl
    · intro hnone
      have hf : find_old (copy_old (call_input mgr node)) light.id = none := by
        cases h : find_old (copy_old (call_input mgr node)) light.id with
        | none => rfl
        | some j =>
          obtain ⟨h1, h2⟩ := find_old_some _ _ j h
          exact absurd h1 (hnone j h2)
      have hrow : (packed_data true (atten_of E now (call_input mgr node))
          (copy_old (call_input mgr node)) light).row3 = light.color.sub
            ((light.color.sub LVector3.zero).scale (atten_of E now (call_input mgr node))) := by
        simp [packed_data, interp_light, hf]
      refine ⟨hrow, ?_⟩
      rw [hrow]
      apply LVector3.ext' <;> simp [LVector3.sub, LVector3.scale, LVector3.zero] <;> ring
  · intro havg
    rw [hdata, havg]
    simp [packed_data, sub_zero']

/-- C21, amended: with averaging on, a light written to an active slot whose
id is found in a previous slot `j` that was itself active (`j` below the
previous `active_lights`) has that slot marked as matched, and the slot is not
written again as a fade slot; if the previous slots below `light_count` hold
distinct ids, the id of that light occurs in no fade slot.  A slot found at or
above the previous `active_lights` is not marked.  The fade slots are the
previous slots that are neither marked nor below the threshold, as many as
fit. -/
theorem C21_matched_not_faded (E : Env) (now : ℚ) (mgr : AmbientProbeManager) (node : NodeId)
    (t : TransformState) (havg : E.cfg_lightaverage = true) :
    ∃ (e : nodeshaderinput_t) (matched : Nat → Bool) (fades : List Nat),
      entry_of (update_node E now mgr (some node) (some t)).1 node = some e ∧
      fades = ((List.range (call_input mgr node).light_count).filter (fun i =>
          !matched i &&
          !decide ((((call_input mgr node).light_data i).row3).length_squared < 1))).take
        (E.MAX_TOTAL_LIGHTS - e.active_lights) ∧
      e.light_count = e.active_lights + fades.length ∧
      (∀ (r : Nat) (hr : r < fades.length),
        e.light_ids (e.active_lights + r)
          = (call_input mgr node).light_ids (fades.get ⟨r, hr⟩)) ∧
      (∀ k j, k < e.active_lights →
        find_old (copy_old (call_input mgr node)) (e.light_ids k) = some j →
        j < (call_input mgr node).active_lights →
        matched j = true ∧ j ∉ fades ∧
        ((∀ a b, a < (call_input mgr node).light_count →
            b < (call_input mgr node).light_count →
            (call_input mgr node).light_ids a = (call_input mgr node).light_ids b → a = b) →
          ∀ r, r < fades.length → e.light_ids (e.active_lights + r) ≠ e.light_ids k)) ∧
      (∀ j, (call_input mgr node).active_lights ≤ j → matched j = false) := by
  obtain ⟨matched, fades, hm, hf, hlc, hslots⟩ := fade_slots_input E now mgr t
    (call_pos_changed E mgr node t) (call_input mgr node) havg
  have hmem : ∀ x ∈ fades, x < (call_input mgr node).light_count ∧ matched x = false := by
    intro x hx
    rw [hf] at hx
    have h := List.mem_filter.1 (List.mem_of_mem_take hx)
    refine ⟨List.mem_range.1 h.1, ?_⟩
    have h2 := h.2
    simp only [Bool.and_eq_true, Bool.not_eq_true'] at h2
    exact h2.1
  refine ⟨_, matched, fades, entry_of_update_node E now mgr node t, hf, hlc,
    fun r hr => (hslots r hr).1, ?_, ?_⟩
  · intro k j hk hfind hj
    have hmj : matched j = true := (hm j).2 ⟨hj, k, hk, hfind⟩
    have hnot : j ∉ fades := by
      intro hin
      rw [(hmem j hin).2] at hmj
      cases hmj
    refine ⟨hmj, hnot, ?_⟩
    intro hdist r hr heq
    obtain ⟨h1, h2⟩ := find_old_some _ _ j hfind
    have hx := hmem _ (List.get_mem fades r hr)
    rw [(hslots r hr).1] at heq
    have : fades.get ⟨r, hr⟩ = j := hdist _ _ hx.1 h2 (heq.trans h1.symm)
    exact hnot (this ▸ List.get_mem fades r hr)
  · intro j hj
    cases hmj : matched j with
    | false => rfl
    | true =>
      have := ((hm j).1 hmj).1
      omega

theorem C21_matched_not_faded_witness :
    demo_env.cfg_lightaverage = true ∧
    find_old (copy_old (call_input demo_mgr1 7)) 1 = some 0 ∧
    (entry_of (update_node demo_env (6 / 5) demo_mgr1 (some 7) (some ⟨⟨100, 0, 0⟩⟩)).1 7).map
      (fun e => (e.active_lights, e.light_count, e.light_ids 0, e.light_ids 1))
      = some (1, 2, 1, 2) ∧
    ∃ (e : nodeshaderinput_t) (matched : Nat → Bool) (fades : List Nat),
      entry_of (update_node demo_env (6 / 5) demo_mgr1 (some 7) (some ⟨⟨100, 0, 0⟩⟩)).1 7
        = some e ∧
      fades = ((List.range (call_input demo_mgr1 7).light_count).filter (fun i =>
          !matched i &&
          !decide ((((call_input demo_mgr1 7).light_data i).row3).length_squared < 1))).take
        (demo_env.MAX_TOTAL_LIGHTS - e.active_lights) ∧
      e.light_count = e.active_lights + fades.length ∧
      (∀ (r : Nat) (hr : r < fades.length),
        e.light_ids (e.active_lights + r)
          = (call_input demo_mgr1 7).light_ids (fades.get ⟨r, hr⟩)) ∧
      (∀ k j, k < e.active_lights →
        find_old (copy_old (call_input demo_mgr1 7)) (e.light_ids k) = some j →
        j < (call_input demo_mgr1 7).active_lights →
        matched j = true ∧ j ∉ fades ∧
        ((∀ a b, a < (call_input demo_mgr1 7).light_count →
            b < (call_input demo_mgr1 7).light_count →
            (call_input demo_mgr1 7).light_ids a = (call_input demo_mgr1 7).light_ids b →
            a = b) →
          ∀ r, r < fades.length → e.light_ids (e.active_lights + r) ≠ e.light_ids k)) ∧
      (∀ j, (call_input demo_mgr1 7).active_lights ≤ j → matched j = false) :=
  ⟨by decide!, by decide!, by decide!,
    C21_matched_not_faded demo_env (6 / 5) demo_mgr1 7 ⟨⟨100, 0, 0⟩⟩ (by decide!)⟩

/-- C21 fails as stated: in the example level node 7 is lit at the origin by
the sun and the point light (id 2), moves at time 6/5 to (100, 0, 0), where
the point light is kept as the fade slot 1 with colour (5/3, 0, 0), and comes
back to the origin at time 7/5.  In that call the point light is written to
the active slot 1 and its id is found in the previous slot 1, which was not an
active slot (the previous `active_lights` is 1), so the slot is not marked and
is written again as the fade slot 2 with half its colour: the id 2 is in an
active slot and in a fade slot. -/
theorem C21_counterexample :
    demo_env.cfg_lightaverage = true ∧
    (call_input demo_mgr_far 7).active_lights = 1 ∧
    (call_input demo_mgr_far 7).light_count = 2 ∧
    ((call_input demo_mgr_far 7).light_data 1).row3 = ⟨5 / 3, 0, 0⟩ ∧
    find_old (copy_old (call_input demo_mgr_far 7)) 2 = some 1 ∧
    atten_of demo_env (7 / 5) (call_input demo_mgr_far 7) = 1 / 2 ∧
    (entry_of (update_node demo_env (7 / 5) demo_mgr_far (some 7) (some ⟨⟨0, 0, 0⟩⟩)).1 7).map
      (fun e => (e.active_lights, e.light_count, e.light_ids 1, e.light_ids 2,
        (e.light_data 2).row3)) = some (2, 3, 2, 2, ⟨5 / 6, 0, 0⟩) := by
  decide!

/-! ### The secondary data of the fade slots -/

/-- C24, the code at a failing input: in the example level node 7 is first
updated at (0, 20, 0), where the sun and the spot light (id 3) take the active
slots 0 and 1, and then at time 2 at the origin, where the sun and the point
light take the active slots and the spot light is written to the fade slot 2.
The loop of line 706 copies the id, the type and the matrix of the spot light
into slot 2 but does not write `light_data2`: slot 2 keeps the zero rows it
had, while the spot light has the cone value 8148287/8274312 in `falloff2`. -/
theorem C24_fade_slot_data2 :
    (demo_mgr._all_lights.filter (fun l => decide (l.id = 3))).map
      (fun l => (l.type, l.falloff, l.falloff2, l.falloff3))
      = [(LightType.spot, ⟨0, 0, 1, 8148287 / 8274312⟩, ⟨0, 0, 0, 8148287 / 8274312⟩,
          ⟨0, 0, 0, 0⟩)] ∧
    (call_input demo_mgr_side 7).light_data2 2 = ⟨⟨0, 0, 0, 0⟩, ⟨0, 0, 0, 0⟩⟩ ∧
    (entry_of (update_node demo_env 2 demo_mgr_side (some 7) (some ⟨⟨0, 0, 0⟩⟩)).1 7).map
      (fun e => (e.active_lights, e.light_count, e.light_ids 2, e.light_type 2,
        (e.light_data 2).row2, e.light_data2 2))
      = some (2, 3, 3, LightType.spot, ⟨0, 0, 1, 8148287 / 8274312⟩,
          ⟨⟨0, 0, 0, 0⟩, ⟨0, 0, 0, 0⟩⟩) := by
  decide!

/-! ### The teleport list -/

/-- C25, the code at a failing input: the entities 1, 2 and 3 are added to
the teleport list and entity 1 is removed.  The list is then 2, 3, but the
entities 2 and 3 keep the indices 1 and 2 they were given when added.  The
call of `remove_from_teleport_list` for entity 2 erases index 1, which is
entity 3: entity 2 stays in the list, entity 3 is lost, and a later
`add_to_teleport_list` for entity 2 puts it in the list a second time.  With
the entities 1 and 2 only, the removal of entity 2 after entity 1 erases at
index 1 of a list of length 1. -/
theorem C25_teleport_stale_index :
    (run_teleport EntityLists.new [.add 1, .add 2, .add 3, .remove 1]).map
      (fun s => (s.g_teleportlist, s._teleport_list_entry 2, s._teleport_list_entry 3))
      = some ([2, 3], 1, 2) ∧
    (run_teleport EntityLists.new [.add 1, .add 2, .add 3, .remove 1, .remove 2]).map
      (fun s => (s.g_teleportlist, s._teleport_list_entry 2, s._teleport_list_entry 3))
      = some ([2], 0xFFFF, 2) ∧
    (run_teleport EntityLists.new
      [.add 1, .add 2, .add 3, .remove 1, .remove 2, .add 2]).map
      (fun s => s.g_teleportlist) = some [2, 2] ∧
    (run_teleport EntityLists.new [.add 1, .add 2, .remove 1]).map
      (fun s => (s.g_teleportlist, s._teleport_list_entry 2)) = some ([2], 1) ∧
    (run_teleport EntityLists.new [.add 1, .add 2, .remove 1, .remove 2]).isNone = true := by
  decide

/-! ### The throw vector -/

theorem closest_not_me_loop_eq (P : PhysEnv) (me : NodePath) (hits : List BulletRayHit)
    (r : RayTestClosestNotMeResult_t) :
    closest_not_me_loop P me hits r =
      match (hits_not_me P me hits).head? with
      | some brh => { hit := brh, result := true }
      | none => r := by
  induction hits with
  | nil => rfl
  | cons brh rest ih =>
    unfold closest_not_me_loop hits_not_me
    by_cases h : (!P.is_ancestor_of me brh.node && decide (me ≠ brh.node)) = true
    · rw [if_pos h, List.filter_cons]
      simp only [h, if_true, List.head?_cons]
    · rw [if_neg h, List.filter_cons, ih]
      simp only [h, if_false]
      rfl

/-- The function `get_throw_vector` in closed form: with a hit on a node that
is neither `me` nor below `me` the result points to the end of the trace, and
without one it points to the position of the unassigned hit. -/
theorem get_throw_vector_eq (P : PhysEnv) (trace_origin trace_vector throw_origin : LVector3)
    (me : NodePath) (hme : me.isNone = false) :
    get_throw_vector P trace_origin trace_vector throw_origin me =
      P.normalized
        ((match (hits_not_me P me (ray_test_all_stored P trace_origin
            (trace_origin.add (trace_vector.scale 10000)) P.WORLD_MASK)).head? with
          | some _ => trace_origin.add (trace_vector.scale 10000)
          | none => P.default_hit.hit_pos).sub throw_origin) := by
  unfold get_throw_vector ray_test_closest_not_me
  simp only [hme, Bool.false_eq_true, if_false]
  rw [closest_not_me_loop_eq]
  cases (hits_not_me P me (ray_test_all_stored P trace_origin
    (trace_origin.add (trace_vector.scale 10000)) P.WORLD_MASK)).head? <;> simp

/-- C26, the code at a failing input: in the example world a ray from the
origin along the x axis hits, nearest first, node 4 (a child of `me`), `me`
(node 1), node 2 at (5, 0, 0) and node 3.  The nearest hit that is not on
`me` or below it is the one at (5, 0, 0); from the throw origin (6, 0, 0) the
vector to it is (-1, 0, 0), but the test of line 217 is inverted and
`get_throw_vector` returns (1, 0, 0), the direction of the end of the trace.
A ray from (1, 0, 0) hits nothing; the end of the trace is at x = 10001, but
the function returns (-1, 0, 0), the direction of the position of the hit that
was never assigned. -/
theorem C26_inverted_test :
    (ray_test_all_stored demo_phys ⟨0, 0, 0⟩ ⟨10000, 0, 0⟩ demo_phys.WORLD_MASK).map
      (fun brh => (brh.node, brh.hit_pos.x)) = [(some 4, 2), (some 1, 3), (some 2, 5), (some 3, 7)] ∧
    ((hits_not_me demo_phys (some 1)
      (ray_test_all_stored demo_phys ⟨0, 0, 0⟩ ⟨10000, 0, 0⟩ demo_phys.WORLD_MASK)).head?).map
      (fun brh => brh.hit_pos) = some ⟨5, 0, 0⟩ ∧
    demo_phys.normalized ((⟨5, 0, 0⟩ : LVector3).sub ⟨6, 0, 0⟩) = ⟨-1, 0, 0⟩ ∧
    get_throw_vector demo_phys ⟨0, 0, 0⟩ ⟨1, 0, 0⟩ ⟨6, 0, 0⟩ (some 1) = ⟨1, 0, 0⟩ ∧
    hits_not_me demo_phys (some 1)
      (ray_test_all_stored demo_phys ⟨1, 0, 0⟩ ⟨10001, 0, 0⟩ demo_phys.WORLD_MASK) = [] ∧
    demo_phys.normalized ((⟨10001, 0, 0⟩ : LVector3).sub ⟨6, 0, 0⟩) = ⟨1, 0, 0⟩ ∧
    get_throw_vector demo_phys ⟨1, 0, 0⟩ ⟨1, 0, 0⟩ ⟨6, 0, 0⟩ (some 1) = ⟨-1, 0, 0⟩ := by
  decide!

/-! ### The interpolation list -/

/-- The removal from the interpolation list, which looks the entity up with
`std::find`, takes the entity out of the list and keeps every other one. -/
theorem remove_from_interpolation_list_ok (s : EntityLists) (ent : EntId)
    (h : interpolation_ok s) :
    ∃ s', remove_from_interpolation_list s ent = some s' ∧ interpolation_ok s' ∧
      ent ∉ s'.g_interpolationlist ∧
      ∀ x, x ≠ ent → (x ∈ s'.g_interpolationlist ↔ x ∈ s.g_interpolationlist) := by
  obtain ⟨hnd, hmem⟩ := h
  unfold remove_from_interpolation_list
  by_cases he : s._interpolation_list_entry ent ≠ 0xFFFF
  · have hin : ent ∈ s.g_interpolationlist := (hmem ent).2 he
    rw [if_pos he, if_pos (List.indexOf_lt_length.2 hin)]
    refine ⟨_, rfl, ⟨?_, ?_⟩, ?_, ?_⟩
    · simp only [List.eraseIdx_indexOf_eq_erase]
      exact hnd.erase ent
    · intro x
      simp only [List.eraseIdx_indexOf_eq_erase]
      rw [hnd.mem_erase_iff]
      by_cases hx : x = ent
      · subst hx
        simp
      · rw [Function.update_noteq hx, hmem x]
        simp [hx]
    · simp only [List.eraseIdx_indexOf_eq_erase]
      rw [hnd.mem_erase_iff]
      exact fun h => h.1 rfl
    · intro x hx
      simp only [List.eraseIdx_indexOf_eq_erase]
      rw [hnd.mem_erase_iff]
      simp [hx]
  · rw [if_neg he]
    refine ⟨s, rfl, ⟨hnd, hmem⟩, ?_, fun x _ => Iff.rfl⟩
    intro hin
    exact he ((hmem ent).1 hin)

/-- The addition to the interpolation list keeps the list well formed as long
as the list is shorter than 0xFFFF. -/
theorem add_to_interpolation_list_ok (s : EntityLists) (ent : EntId) (h : interpolation_ok s)
    (hlen : s.g_interpolationlist.length < 0xFFFF) :
    interpolation_ok (add_to_interpolation_list s ent) ∧
    ent ∈ (add_to_interpolation_list s ent).g_interpolationlist := by
  obtain ⟨hnd, hmem⟩ := h
  unfold add_to_interpolation_list
  by_cases he : s._interpolation_list_entry ent = 0xFFFF
  · have hnin : ent ∉ s.g_interpolationlist := fun hin => (hmem ent).1 hin he
    rw [if_pos he]
    refine ⟨⟨?_, ?_⟩, by simp⟩
    · exact List.Nodup.append hnd (List.nodup_singleton ent) (by simpa using hnin)
    · intro x
      by_cases hx : x = ent
      · subst hx
        simp only [List.mem_append, List.mem_singleton, or_true, Function.update_same,
          List.length_append, List.length_singleton, Nat.add_sub_cancel, true_iff]
        omega
      · simp only [List.mem_append, List.mem_singleton, hx, or_false]
        rw [Function.update_noteq hx]
        exact hmem x
  · rw [if_neg he]
    exact ⟨⟨hnd, hmem⟩, (hmem ent).2 he⟩

/-! ### Single precision -/

theorem single_scale_pow (n : Nat) :
    ∀ (a s : ℚ), (∃ k : ℤ, s = 2 ^ k) → ∃ k : ℤ, single_scale n a s = 2 ^ k := by
  induction n with
  | zero => intro a s h; exact h
  | succ n ih =>
    intro a s h
    obtain ⟨k, rfl⟩ := h
    unfold single_scale
    split_ifs
    · exact ih a _ ⟨k + 1, (zpow_add_one₀ (by norm_num) k).symm⟩
    · exact ih a _ ⟨k - 1, by rw [zpow_sub_one₀ (by norm_num) k]; rfl⟩
    · exact ⟨k, rfl⟩

/-- No product of an integer and a power of two is 1/1000. -/
theorem dyadic_ne_thousandth (m k : ℤ) : (m : ℚ) * 2 ^ k ≠ 1 / 1000 := by
  intro h
  obtain ⟨n, rfl | rfl⟩ := Int.eq_nat_or_neg k
  · rw [zpow_natCast] at h
    have h' : ((1000 * (m * 2 ^ n) : ℤ) : ℚ) = ((1 : ℤ) : ℚ) := by
      push_cast
      rw [h]
      norm_num
    have h'' : 1000 * (m * 2 ^ n) = 1 := by exact_mod_cast h'
    omega
  · rw [zpow_neg, zpow_natCast] at h
    have hpos : (0 : ℚ) < 2 ^ n := by positivity
    have h' : ((1000 * m : ℤ) : ℚ) = ((2 ^ n : ℤ) : ℚ) := by
      push_cast
      field_simp at h
      linarith
    have h'' : 1000 * m = 2 ^ n := by exact_mod_cast h'
    have hdvd : (5 : ℤ) ∣ 2 ^ n := ⟨200 * m, by rw [← h'']; ring⟩
    have hp : Prime (5 : ℤ) := Int.prime_iff_natAbs_prime.2 (by norm_num)
    have := hp.dvd_of_dvd_pow hdvd
    omega

/-- No value of the rounding of single precision is 1/1000. -/
theorem round_single_ne_thousandth (x : ℚ) : round_single x ≠ 1 / 1000 := by
  unfold round_single
  by_cases h0 : x = 0
  · rw [if_pos h0]
    norm_num
  · rw [if_neg h0]
    obtain ⟨k, hk⟩ := single_scale_pow 400 (if x < 0 then -x else x) 1 ⟨0, by simp⟩
    rw [hk]
    exact dyadic_ne_thousandth _ k

/-! ### The test for a changed position -/

/-- C23: in a cache whose two maps have the same keys, and with a threshold
`EQUAL_EPSILON` that is not a single-precision number (as the constant 0.001
of double precision), `pos_changed` is true in a call exactly when the node
has no entry before the call or the squared distance from the cached position
to the position of the call, as the call computes it in single precision,
exceeds `EQUAL_EPSILON`; the entry after the call is computed with that
value.  A call that finds the position changed caches the position of the
call, a call that does not leaves the cached position of the node as it was,
and no call changes the cached position of another node. -/
theorem C23_pos_changed (E : Env) (now : ℚ) (mgr : AmbientProbeManager) (node : NodeId)
    (t : TransformState) (hok : cache_ok mgr) (hfl : ∀ x, E.fl x ≠ E.EQUAL_EPSILON) :
    (call_pos_changed E mgr node t = true ↔
      (entry_of mgr node = none ∨
        ∃ p : TransformState, mgr._pos_cache.lookup node = some p ∧
          E.EQUAL_EPSILON < flength_squared E (fsub E t.pos p.pos))) ∧
    entry_of (update_node E now mgr (some node) (some t)).1 node =
      some (update_input E now mgr t (call_pos_changed E mgr node t) (call_input mgr node)) ∧
    (call_pos_changed E mgr node t = true →
      (update_node E now mgr (some node) (some t)).1._pos_cache.lookup node = some t) ∧
    (call_pos_changed E mgr node t = false →
      (update_node E now mgr (some node) (some t)).1._pos_cache.lookup node
        = mgr._pos_cache.lookup node) ∧
    (∀ node', node' ≠ node →
      (update_node E now mgr (some node) (some t)).1._pos_cache.lookup node'
        = mgr._pos_cache.lookup node') := by
  obtain ⟨_, _, h3, _⟩ := hok
  have hcached : entry_of mgr node ≠ none → ∃ p, mgr._pos_cache.lookup node = some p := by
    intro hne
    have hk : node ∈ mgr._node_data.keys := by
      by_contra hk
      exact hne ((SimpleHashMap.lookup_eq_none_iff_not_mem _ _).2 hk)
    cases hl : SimpleHashMap.lookup mgr._pos_cache node with
    | none => exact absurd (h3 node hk) ((SimpleHashMap.lookup_eq_none_iff_not_mem _ _).1 hl)
    | some p => exact ⟨p, rfl⟩
  have hiff : call_pos_changed E mgr node t = true ↔
      (entry_of mgr node = none ∨
        ∃ p : TransformState, mgr._pos_cache.lookup node = some p ∧
          E.EQUAL_EPSILON < flength_squared E (fsub E t.pos p.pos)) := by
    unfold call_pos_changed
    cases hf : mgr._node_data.find node with
    | none =>
      simp only [true_iff]
      exact Or.inl ((SimpleHashMap.find_eq_none_iff _ _).1 hf)
    | some itr =>
      have hne : entry_of mgr node ≠ none := by
        intro h
        rw [entry_of, ← SimpleHashMap.find_eq_none_iff, hf] at h
        cases h
      obtain ⟨p, hp⟩ := hcached hne
      simp only [hp, pos_changed_of, Bool.or_false, decide_eq_true_eq, ge_iff_le]
      constructor
      · intro h
        refine Or.inr ⟨p, rfl, lt_of_le_of_ne h ?_⟩
        unfold flength_squared
        exact (hfl _).symm
      · rintro (h | ⟨q, hq, h⟩)
        · exact absurd h hne
        · simp only [Option.some.injEq] at hq
          subst hq
          exact le_of_lt h
  refine ⟨hiff, entry_of_update_node E now mgr node t, ?_, ?_,
    fun node' hne => update_node_pos_lookup_ne E now mgr node t node' hne⟩
  · intro hpc
    rw [update_node_pos_lookup, if_pos hpc]
  · intro hpc
    rw [update_node_pos_lookup, if_neg (by simp [hpc])]
    have hne : entry_of mgr node ≠ none := by
      intro h
      rw [(hiff.2 (Or.inl h))] at hpc
      cases hpc
    obtain ⟨p, hp⟩ := hcached hne
    rw [hp]

/-- C23, with the rounding of single precision and the threshold 1/1000:
node 7 of the example level is cached at the origin and is updated at the
point whose coordinates are the `float`s nearest to 0.03 and 0.01.  The
squared distance is computed as 4294967/4294967296, about 0.000999999931,
which does not exceed the threshold: the position is not changed and the
cached position stays the origin. -/
theorem C23_pos_changed_witness :
    cache_ok demo_mgr1 ∧
    (∀ x, demo_env_single.fl x ≠ demo_env_single.EQUAL_EPSILON) ∧
    (round_single (3 / 100), round_single (1 / 100))
      = (16106127 / 536870912, 5368709 / 536870912) ∧
    demo_mgr1._pos_cache.lookup 7 = some ⟨⟨0, 0, 0⟩⟩ ∧
    flength_squared demo_env_single
      (fsub demo_env_single ⟨16106127 / 536870912, 5368709 / 536870912, 0⟩ ⟨0, 0, 0⟩)
      = 4294967 / 4294967296 ∧
    call_pos_changed demo_env_single demo_mgr1 7
      ⟨⟨16106127 / 536870912, 5368709 / 536870912, 0⟩⟩ = false ∧
    (call_pos_changed demo_env_single demo_mgr1 7
        ⟨⟨16106127 / 536870912, 5368709 / 536870912, 0⟩⟩ = true ↔
      (entry_of demo_mgr1 7 = none ∨
        ∃ p : TransformState, demo_mgr1._pos_cache.lookup 7 = some p ∧
          demo_env_single.EQUAL_EPSILON < flength_squared demo_env_single
            (fsub demo_env_single
              (⟨⟨16106127 / 536870912, 5368709 / 536870912, 0⟩⟩ : TransformState).pos p.pos))) ∧
    entry_of (update_node demo_env_single 2 demo_mgr1 (some 7)
        (some ⟨⟨16106127 / 536870912, 5368709 / 536870912, 0⟩⟩)).1 7 =
      some (update_input demo_env_single 2 demo_mgr1
        ⟨⟨16106127 / 536870912, 5368709 / 536870912, 0⟩⟩
        (call_pos_changed demo_env_single demo_mgr1 7
          ⟨⟨16106127 / 536870912, 5368709 / 536870912, 0⟩⟩) (call_input demo_mgr1 7)) ∧
    (call_pos_changed demo_env_single demo_mgr1 7
        ⟨⟨16106127 / 536870912, 5368709 / 536870912, 0⟩⟩ = true →
      (update_node demo_env_single 2 demo_mgr1 (some 7)
        (some ⟨⟨16106127 / 536870912, 5368709 / 536870912, 0⟩⟩)).1._pos_cache.lookup 7
        = some ⟨⟨16106127 / 536870912, 5368709 / 536870912, 0⟩⟩) ∧
    (call_pos_changed demo_env_single demo_mgr1 7
        ⟨⟨16106127 / 536870912, 5368709 / 536870912, 0⟩⟩ = false →
      (update_node demo_env_single 2 demo_mgr1 (some 7)
        (some ⟨⟨16106127 / 536870912, 5368709 / 536870912, 0⟩⟩)).1._pos_cache.lookup 7
        = demo_mgr1._pos_cache.lookup 7) ∧
    (∀ node', node' ≠ 7 →
      (update_node demo_env_single 2 demo_mgr1 (some 7)
        (some ⟨⟨16106127 / 536870912, 5368709 / 536870912, 0⟩⟩)).1._pos_cache.lookup node'
        = demo_mgr1._pos_cache.lookup node') :=
  ⟨cache_ok_update_node demo_env 1 demo_mgr (some 7) (some ⟨⟨0, 0, 0⟩⟩)
      (cache_ok_of_empty demo_mgr rfl rfl),
    fun x => round_single_ne_thousandth x,
    by decide!, by decide!, by decide!, by decide!,
    C23_pos_changed demo_env_single 2 demo_mgr1 7
      ⟨⟨16106127 / 536870912, 5368709 / 536870912, 0⟩⟩
      (cache_ok_update_node demo_env 1 demo_mgr (some 7) (some ⟨⟨0, 0, 0⟩⟩)
        (cache_ok_of_empty demo_mgr rfl rfl))
      (fun x => round_single_ne_thousandth x)⟩

/-! ### The blend of the ambient cube in single precision -/

/-- With the rounding of single precision a repeated call moves a face of
the ambient cube.  After nine calls at the origin face 1 of the entry is
8388607/8388608, one step below its target 1.  The call at time 10 at
(9, 0, 0) selects the probe that is (1, 1, 1) on every face: face 0 is blended
to 13981013/16777216 and face 1 is rounded to its target.  In the same call
repeated at time 10 the decay factor is 1, face 0 differs from its target and
sets `delta`, face 1 equals its target and is written with the `delta` of
face 0: it moves from 1 to 13981013/16777216. -/
theorem repeated_call_moves_face :
    demo_env_blend.cfg_lightaverage = true ∧
    (entry_of demo_mgr_blend 7).map (fun e => (e.ambient_cube 0, e.ambient_cube 1))
      = some (⟨0, 0, 0⟩, ⟨8388607 / 8388608, 8388607 / 8388608, 8388607 / 8388608⟩) ∧
    (entry_of (update_node demo_env_blend 10 demo_mgr_blend (some 7)
      (some ⟨⟨9, 0, 0⟩⟩)).1 7).map
      (fun e => (e.amb_probe.map (fun p => (p.cube 0, p.cube 1)),
        e.ambient_cube 0, e.ambient_cube 1))
      = some (some (⟨1, 1, 1⟩, ⟨1, 1, 1⟩),
          ⟨13981013 / 16777216, 13981013 / 16777216, 13981013 / 16777216⟩, ⟨1, 1, 1⟩) ∧
    atten_of demo_env_blend 10 (call_input (update_node demo_env_blend 10 demo_mgr_blend
      (some 7) (some ⟨⟨9, 0, 0⟩⟩)).1 7) = 1 ∧
    (entry_of (update_node demo_env_blend 10
      (update_node demo_env_blend 10 demo_mgr_blend (some 7) (some ⟨⟨9, 0, 0⟩⟩)).1
      (some 7) (some ⟨⟨9, 0, 0⟩⟩)).1 7).map (fun e => (e.ambient_cube 0, e.ambient_cube 1))
      = some (⟨13981013 / 16777216, 13981013 / 16777216, 13981013 / 16777216⟩,
          ⟨13981013 / 16777216, 13981013 / 16777216, 13981013 / 16777216⟩) := by
  decide!

end PandaBSP
